import Mathlib

/-!
# RV32 instruction-set simulator: M and F extension executors

A shallow embedding of the instruction handlers of `iss/src/rv32m_cpu.cpp` and
`iss/src/rv32f_cpu.cpp` together with the pieces of `rv32i_cpu.h` they rely on
(the hart state and `increment_pc`).

Conventions of the embedding.

* A C++ unsigned value of width `w` is a natural number below `2 ^ w`; a signed
  value is an integer in the two's-complement range.  Every C++ conversion is
  one of the functions `to_uint32`, `to_uint64`, `to_int32`, `to_int64`.
* 64-bit signed multiplication wraps modulo `2 ^ 64` (two's-complement host).
* The host operators `/` and `%` on `int32_t` have no result when the divisor
  is zero or when the quotient is not representable in `int32_t`; a handler
  that reaches them on such operands has no post-state (`none`).
* The disassembly output written by the `RV32I_DISASSEM_*` text-emitting
  helpers goes to the debug stream, which is not part of the embedded state.
-/

namespace rv32

/-! ## Machine integers -/

/-- Conversion to `uint32_t`: reduction modulo `2 ^ 32`. -/
def to_uint32 (i : Int) : Nat := (i % 0x100000000).toNat

/-- Conversion to `uint64_t`: reduction modulo `2 ^ 64`. -/
def to_uint64 (i : Int) : Nat := (i % 0x10000000000000000).toNat

/-- Conversion to `int32_t`: the two's-complement representative in
`[-2 ^ 31, 2 ^ 31)`. -/
def to_int32 (i : Int) : Int := (i + 0x80000000) % 0x100000000 - 0x80000000

/-- Conversion to `int64_t`: the two's-complement representative in
`[-2 ^ 63, 2 ^ 63)`. -/
def to_int64 (i : Int) : Int :=
  (i + 0x8000000000000000) % 0x10000000000000000 - 0x8000000000000000

/-- Host `a / b` on `int32_t` operands: truncating division, without a result
when the divisor is zero or the quotient does not fit `int32_t`. -/
def host_sdiv32 (a b : Int) : Option Int :=
  if b = 0 then none
  else if -0x80000000 ≤ Int.tdiv a b ∧ Int.tdiv a b < 0x80000000 then some (Int.tdiv a b)
  else none

/-- Host `a % b` on `int32_t` operands: remainder of truncating division,
without a result exactly where `a / b` has none. -/
def host_srem32 (a b : Int) : Option Int :=
  if b = 0 then none
  else if -0x80000000 ≤ Int.tdiv a b ∧ Int.tdiv a b < 0x80000000 then some (Int.tmod a b)
  else none

/-! ## Architectural state (`rv32i_cpu.h`) -/

/-- The class `rv32i_hart_state`: integer registers, floating point registers
(64-bit slots), CSR space and program counter of one hart. -/
structure rv32i_hart_state where
  x : Fin 32 → Nat
  f : Fin 32 → Nat
  csr : Nat → Nat
  pc : Nat

/-- Modelled from the spec: the decoded-fields record `rv32i_decode_t`, whose
declaration (in `rv32i_cpu_hdr.h`) is not among the sources.  The register
indices are the 5-bit fields rd (11:7), rs1 (19:15), rs2 (24:20); the
immediates are the sign-extended values held as 32-bit patterns. -/
structure rv32i_decode_t where
  instr : Nat
  funct3 : Nat
  funct7 : Nat
  rd : Fin 32
  rs1 : Fin 32
  rs2 : Fin 32
  imm_i : Nat
  imm_s : Nat

/-- Modelled from the spec: the access-type tags handed to the memory
interface (`MEM_RD_ACCESS_WORD` and the like are declared in a header that is
not among the sources). -/
inductive mem_access_t where
  | MEM_RD_ACCESS_WORD
  | MEM_WR_ACCESS_WORD
  | MEM_RD_ACCESS_INSTR
  deriving DecidableEq, Repr

/-- Modelled from the spec: the memory interface `read_mem` / `write_mem`,
which `rv32i_cpu.h` only declares.  A read yields the memory after the access,
the data and the fault flag; a write yields the memory after the access and
the fault flag.  The interface acts on the memory alone. -/
structure mem_if (Mem : Type) where
  read_mem : Mem → Nat → mem_access_t → Mem × Nat × Bool
  write_mem : Mem → Nat → Nat → mem_access_t → Mem × Bool

/-- The members of `rv32i_cpu` used by the M and F handlers: the disassembly
flags, the state of the current hart (`state.hart[curr_hart]`), the last
access address and the memory behind the memory interface. -/
structure rv32i_cpu (Mem : Type) where
  disassemble : Bool
  rt_disassem : Bool
  state : rv32i_hart_state
  access_addr : Nat
  mem : Mem

variable {Mem : Type}

/-- Assignment `state.hart[curr_hart].x[r] = v`. -/
def rv32i_cpu.set_x (c : rv32i_cpu Mem) (r : Fin 32) (v : Nat) : rv32i_cpu Mem :=
  { c with state := { c.state with x := fun i => if i = r then v else c.state.x i } }

/-- Assignment `state.hart[curr_hart].f[r] = v`. -/
def rv32i_cpu.set_f (c : rv32i_cpu Mem) (r : Fin 32) (v : Nat) : rv32i_cpu Mem :=
  { c with state := { c.state with f := fun i => if i = r then v else c.state.f i } }

/-- The method `rv32i_cpu::increment_pc`: `state.hart[curr_hart].pc += 4` on a
`uint32_t`. -/
def increment_pc (c : rv32i_cpu Mem) : rv32i_cpu Mem :=
  { c with state := { c.state with pc := (c.state.pc + 4) % 0x100000000 } }

/-- Every integer register holds a `uint32_t` value. -/
def x_in_range (c : rv32i_cpu Mem) : Prop := ∀ i, c.state.x i < 0x100000000

/-! ## M extension handlers (`rv32m_cpu.cpp`) -/

namespace rv32m_cpu

/-- The local `product` of `rv32m_cpu::mul`: both registers converted to
`int64_t` and multiplied as `int64_t`. -/
def mul_product (x1 x2 : Nat) : Int :=
  to_int64 (to_int64 x1 * to_int64 x2)

/-- The handler `rv32m_cpu::mul`. -/
def mul (c : rv32i_cpu Mem) (d : rv32i_decode_t) : rv32i_cpu Mem :=
  let c1 :=
    if d.rd ≠ 0 then
      let product := mul_product (c.state.x d.rs1) (c.state.x d.rs2)
      c.set_x d.rd (to_uint32 (to_uint64 product &&& 0xffffffff : Nat))
    else c
  increment_pc c1

/-- The local `product` of `rv32m_cpu::mulh`: both registers read as
`int32_t`, widened to `int64_t` and multiplied as `int64_t`. -/
def mulh_product (x1 x2 : Nat) : Int :=
  let a := to_int64 (to_int32 x1)
  let b := to_int64 (to_int32 x2)
  to_int64 (a * b)

/-- The handler `rv32m_cpu::mulh`. -/
def mulh (c : rv32i_cpu Mem) (d : rv32i_decode_t) : rv32i_cpu Mem :=
  let c1 :=
    if d.rd ≠ 0 then
      let product := mulh_product (c.state.x d.rs1) (c.state.x d.rs2)
      c.set_x d.rd (to_uint32 (to_uint64 (product >>> (32 : Nat)) &&& 0xffffffff : Nat))
    else c
  increment_pc c1

/-- The local `product` of `rv32m_cpu::mulhsu`: `a` is the first register read
as `int32_t` and widened to `int64_t`, `b` the second register as `uint64_t`;
`a * b` converts `a` to `uint64_t`, multiplies modulo `2 ^ 64` and the result
is converted back to `int64_t`. -/
def mulhsu_product (x1 x2 : Nat) : Int :=
  let a := to_int64 (to_int32 x1)
  let b := to_uint64 x2
  to_int64 (to_uint64 ((to_uint64 a : Int) * (b : Int)) : Nat)

/-- The handler `rv32m_cpu::mulhsu`. -/
def mulhsu (c : rv32i_cpu Mem) (d : rv32i_decode_t) : rv32i_cpu Mem :=
  let c1 :=
    if d.rd ≠ 0 then
      let product := mulhsu_product (c.state.x d.rs1) (c.state.x d.rs2)
      c.set_x d.rd (to_uint32 (to_uint64 (product >>> (32 : Nat)) &&& 0xffffffff : Nat))
    else c
  increment_pc c1

/-- The local `product` of `rv32m_cpu::mulhu`: both registers widened to
`uint64_t` and multiplied as `uint64_t`. -/
def mulhu_product (x1 x2 : Nat) : Nat :=
  let a := to_uint64 x1
  let b := to_uint64 x2
  to_uint64 ((a : Int) * (b : Int))

/-- The handler `rv32m_cpu::mulhu`. -/
def mulhu (c : rv32i_cpu Mem) (d : rv32i_decode_t) : rv32i_cpu Mem :=
  let c1 :=
    if d.rd ≠ 0 then
      let product := mulhu_product (c.state.x d.rs1) (c.state.x d.rs2)
      c.set_x d.rd (to_uint32 ((product >>> 32) &&& 0xffffffff : Nat))
    else c
  increment_pc c1

/-- The three arms of the `if` / `else if` / `else` chain of `rv32m_cpu::div`
and `rv32m_cpu::rem`. -/
inductive divrem_arm where
  | by_zero
  | overflow
  | host
  deriving DecidableEq, Repr

/-- The conditions of the chain in `rv32m_cpu::div` and `rv32m_cpu::rem`, on
the `int32_t` locals `a` and `b`: `b == 0`, then
`a == 0x80000000LL and b == 0xffffffffLL` (the comparisons are made in
`long long`, where the literals are 2147483648 and 4294967295), else the host
operation. -/
def divrem_select (a b : Int) : divrem_arm :=
  if b = 0 then divrem_arm.by_zero
  else if a = 0x80000000 ∧ b = 0xffffffff then divrem_arm.overflow
  else divrem_arm.host

/-- The local `div_result` of `rv32m_cpu::div` for the `int32_t` locals `a`
and `b`. -/
def div_result (a b : Int) : Option Int :=
  match divrem_select a b with
  | divrem_arm.by_zero => some (-1)
  | divrem_arm.overflow => some (to_int32 0x80000000)
  | divrem_arm.host => host_sdiv32 a b

/-- The handler `rv32m_cpu::div`. -/
def div (c : rv32i_cpu Mem) (d : rv32i_decode_t) : Option (rv32i_cpu Mem) :=
  if d.rd ≠ 0 then
    let a := to_int32 (c.state.x d.rs1)
    let b := to_int32 (c.state.x d.rs2)
    (div_result a b).map fun r => increment_pc (c.set_x d.rd (to_uint32 r))
  else some (increment_pc c)

/-- The handler `rv32m_cpu::divu`. -/
def divu (c : rv32i_cpu Mem) (d : rv32i_decode_t) : rv32i_cpu Mem :=
  let c1 :=
    if d.rd ≠ 0 then
      let a := c.state.x d.rs1
      let b := c.state.x d.rs2
      let div_result : Nat := if b = 0 then to_uint32 (-1) else a / b
      c.set_x d.rd div_result
    else c
  increment_pc c1

/-- The local `rem_result` of `rv32m_cpu::rem` for the `int32_t` locals `a`
and `b`. -/
def rem_result (a b : Int) : Option Int :=
  match divrem_select a b with
  | divrem_arm.by_zero => some a
  | divrem_arm.overflow => some 0
  | divrem_arm.host => host_srem32 a b

/-- The handler `rv32m_cpu::rem`. -/
def rem (c : rv32i_cpu Mem) (d : rv32i_decode_t) : Option (rv32i_cpu Mem) :=
  if d.rd ≠ 0 then
    let a := to_int32 (c.state.x d.rs1)
    let b := to_int32 (c.state.x d.rs2)
    (rem_result a b).map fun r => increment_pc (c.set_x d.rd (to_uint32 r))
  else some (increment_pc c)

/-- The handler `rv32m_cpu::remu`. -/
def remu (c : rv32i_cpu Mem) (d : rv32i_decode_t) : rv32i_cpu Mem :=
  let c1 :=
    if d.rd ≠ 0 then
      let a := c.state.x d.rs1
      let b := c.state.x d.rs2
      let rem_result : Nat := if b = 0 then a else a % b
      c.set_x d.rd rem_result
    else c
  increment_pc c1

end rv32m_cpu

/-! ## F extension handlers (`rv32f_cpu.cpp`) -/

namespace rv32f_cpu

/-- The handler `rv32f_cpu::flw`.  The pair threaded through the body is the
CPU together with the local `access_fault`. -/
def flw (M : mem_if Mem) (c : rv32i_cpu Mem) (d : rv32i_decode_t) : rv32i_cpu Mem :=
  let r : rv32i_cpu Mem × Bool :=
    if !c.disassemble then
      let c1 := { c with access_addr := (c.state.x d.rs1 + d.imm_i) % 0x100000000 }
      let rd := M.read_mem c1.mem c1.access_addr mem_access_t.MEM_RD_ACCESS_WORD
      let c2 := { c1 with mem := rd.1 }
      let rd_val := rd.2.1 % 0x100000000
      let access_fault := rd.2.2
      if !access_fault then (c2.set_f d.rd rd_val, access_fault) else (c2, access_fault)
    else (c, false)
  if !r.2 then increment_pc r.1 else r.1

/-- The handler `rv32f_cpu::fsw`.  The pair threaded through the body is the
CPU together with the local `access_fault`; the data argument of `write_mem`
is a `uint32_t`. -/
def fsw (M : mem_if Mem) (c : rv32i_cpu Mem) (d : rv32i_decode_t) : rv32i_cpu Mem :=
  let r : rv32i_cpu Mem × Bool :=
    if !c.disassemble then
      let c1 := { c with access_addr := (c.state.x d.rs1 + d.imm_s) % 0x100000000 }
      let wr := M.write_mem c1.mem c1.access_addr (c1.state.f d.rs2 % 0x100000000)
        mem_access_t.MEM_WR_ACCESS_WORD
      ({ c1 with mem := wr.1 }, wr.2)
    else (c, false)
  if !r.2 then increment_pc r.1 else r.1

/-- The handler `rv32f_cpu::fmadds`; `fesetround(fegetround())` leaves the host
rounding mode as it was. -/
def fmadds (c : rv32i_cpu Mem) (_d : rv32i_decode_t) : rv32i_cpu Mem := increment_pc c

/-- The handler `rv32f_cpu::fmsubs`. -/
def fmsubs (c : rv32i_cpu Mem) (_d : rv32i_decode_t) : rv32i_cpu Mem := increment_pc c

/-- The handler `rv32f_cpu::fnmsubs`. -/
def fnmsubs (c : rv32i_cpu Mem) (_d : rv32i_decode_t) : rv32i_cpu Mem := increment_pc c

/-- The handler `rv32f_cpu::fnmadds`. -/
def fnmadds (c : rv32i_cpu Mem) (_d : rv32i_decode_t) : rv32i_cpu Mem := increment_pc c

/-- The handler `rv32f_cpu::fadds`. -/
def fadds (c : rv32i_cpu Mem) (_d : rv32i_decode_t) : rv32i_cpu Mem := increment_pc c

/-- The handler `rv32f_cpu::fsubs`. -/
def fsubs (c : rv32i_cpu Mem) (_d : rv32i_decode_t) : rv32i_cpu Mem := increment_pc c

/-- The handler `rv32f_cpu::fmuls`. -/
def fmuls (c : rv32i_cpu Mem) (_d : rv32i_decode_t) : rv32i_cpu Mem := increment_pc c

/-- The handler `rv32f_cpu::fdivs`. -/
def fdivs (c : rv32i_cpu Mem) (_d : rv32i_decode_t) : rv32i_cpu Mem := increment_pc c

/-- The handler `rv32f_cpu::fsqrts`. -/
def fsqrts (c : rv32i_cpu Mem) (_d : rv32i_decode_t) : rv32i_cpu Mem := increment_pc c

/-- The handler `rv32f_cpu::fsgnjs`. -/
def fsgnjs (c : rv32i_cpu Mem) (_d : rv32i_decode_t) : rv32i_cpu Mem := increment_pc c

/-- The handler `rv32f_cpu::fsgnjns`. -/
def fsgnjns (c : rv32i_cpu Mem) (_d : rv32i_decode_t) : rv32i_cpu Mem := increment_pc c

/-- The handler `rv32f_cpu::fsgnjxs`. -/
def fsgnjxs (c : rv32i_cpu Mem) (_d : rv32i_decode_t) : rv32i_cpu Mem := increment_pc c

/-- The handler `rv32f_cpu::fmins`. -/
def fmins (c : rv32i_cpu Mem) (_d : rv32i_decode_t) : rv32i_cpu Mem := increment_pc c

/-- The handler `rv32f_cpu::fmaxs`. -/
def fmaxs (c : rv32i_cpu Mem) (_d : rv32i_decode_t) : rv32i_cpu Mem := increment_pc c

/-- The handler `rv32f_cpu::fcvtws`. -/
def fcvtws (c : rv32i_cpu Mem) (_d : rv32i_decode_t) : rv32i_cpu Mem := increment_pc c

/-- The handler `rv32f_cpu::fmvxw`. -/
def fmvxw (c : rv32i_cpu Mem) (_d : rv32i_decode_t) : rv32i_cpu Mem := increment_pc c

/-- The handler `rv32f_cpu::feqs`. -/
def feqs (c : rv32i_cpu Mem) (_d : rv32i_decode_t) : rv32i_cpu Mem := increment_pc c

/-- The handler `rv32f_cpu::flts`. -/
def flts (c : rv32i_cpu Mem) (_d : rv32i_decode_t) : rv32i_cpu Mem := increment_pc c

/-- The handler `rv32f_cpu::fles`. -/
def fles (c : rv32i_cpu Mem) (_d : rv32i_decode_t) : rv32i_cpu Mem := increment_pc c

/-- The handler `rv32f_cpu::fclasss`. -/
def fclasss (c : rv32i_cpu Mem) (_d : rv32i_decode_t) : rv32i_cpu Mem := increment_pc c

/-- The handler `rv32f_cpu::fcvtsw`. -/
def fcvtsw (c : rv32i_cpu Mem) (_d : rv32i_decode_t) : rv32i_cpu Mem := increment_pc c

/-- The handler `rv32f_cpu::fmvwx`. -/
def fmvwx (c : rv32i_cpu Mem) (_d : rv32i_decode_t) : rv32i_cpu Mem := increment_pc c

/-- The four handlers of the FMADD family. -/
def fmadd_handlers : List (rv32i_cpu Mem → rv32i_decode_t → rv32i_cpu Mem) :=
  [fmadds, fmsubs, fnmsubs, fnmadds]

/-- The eighteen OP-FP handlers. -/
def op_fp_handlers : List (rv32i_cpu Mem → rv32i_decode_t → rv32i_cpu Mem) :=
  [fadds, fsubs, fmuls, fdivs, fsqrts, fsgnjs, fsgnjns, fsgnjxs, fmins, fmaxs,
   fcvtws, fmvxw, feqs, flts, fles, fclasss, fcvtsw, fmvwx]

end rv32f_cpu

/-- The six M-extension handlers that never reach a host division. -/
def m_total_handlers : List (rv32i_cpu Mem → rv32i_decode_t → rv32i_cpu Mem) :=
  [rv32m_cpu.mul, rv32m_cpu.mulh, rv32m_cpu.mulhsu, rv32m_cpu.mulhu, rv32m_cpu.divu,
   rv32m_cpu.remu]

/-- The two M-extension handlers that may reach a host division. -/
def m_host_handlers : List (rv32i_cpu Mem → rv32i_decode_t → Option (rv32i_cpu Mem)) :=
  [rv32m_cpu.div, rv32m_cpu.rem]

/-- The register-write frame of a handler run from `c` to `c1` on the record
`d`: no integer register other than x[rd] differs, with rd = 0 the integer
register file is the same, and the f registers and the CSRs are the same. -/
def x_rd_frame (c c1 : rv32i_cpu Mem) (d : rv32i_decode_t) : Prop :=
  (∀ i, i ≠ d.rd → c1.state.x i = c.state.x i) ∧
  (d.rd = 0 → c1.state.x = c.state.x) ∧
  c1.state.f = c.state.f ∧ c1.state.csr = c.state.csr

/-- The operands of `rv32m_cpu::div` and `rv32m_cpu::rem` for which the
handler has no post-state: rd ≠ 0 and the registers read as (-2^31, -1). -/
def signed_overflow_operands (c : rv32i_cpu Mem) (d : rv32i_decode_t) : Prop :=
  d.rd ≠ 0 ∧ to_int32 (c.state.x d.rs1) = -0x80000000 ∧ to_int32 (c.state.x d.rs2) = -1

/-- A memory interface over the trivial memory: reads give zero, no access
faults. -/
def null_mem_if : mem_if Unit :=
  { read_mem := fun _ _ _ => ((), 0, false), write_mem := fun _ _ _ _ => ((), false) }

/-! ## Specification-side notions and sample inputs -/

/-- The quotient of `a` by `b` rounded toward zero, in the words of the
specification: the magnitude is the whole part of `|a| / |b|` and the sign is
the product of the signs. -/
def spec_trunc_quot (a b : Int) : Int :=
  Int.sign a * Int.sign b * ((a.natAbs / b.natAbs : Nat) : Int)

/-- Bits 63:32 of the 64-bit two's-complement pattern of an integer. -/
def bits_63_32 (p : Int) : Nat := (to_uint64 p / 0x100000000) % 0x100000000

instance (c : rv32i_cpu Mem) : Decidable (x_in_range c) :=
  inferInstanceAs (Decidable (∀ i, c.state.x i < 0x100000000))

/-- A CPU in execution mode whose current hart holds `v5` in x5 and `v6` in
x6, every other register being zero, with pc = 0x100. -/
def cpu_x5_x6 (v5 v6 : Nat) : rv32i_cpu Unit :=
  { disassemble := false, rt_disassem := false, access_addr := 0, mem := (),
    state := { x := fun i => if i = 5 then v5 else if i = 6 then v6 else 0,
               f := fun _ => 0, csr := fun _ => 0, pc := 0x100 } }

/-- The decoded record of an R-type instruction with rd = x7, rs1 = x5 and
rs2 = x6. -/
def rec_x7_x5_x6 : rv32i_decode_t :=
  { instr := 0, funct3 := 0, funct7 := 1, rd := 7, rs1 := 5, rs2 := 6, imm_i := 0, imm_s := 0 }

/-- A post-state that is the pre-state with pc advanced and, when rd ≠ 0,
one value written to x[rd]. -/
def rd_write_shape (c c1 : rv32i_cpu Mem) (d : rv32i_decode_t) : Prop :=
  (d.rd = 0 ∧ c1 = increment_pc c) ∨ (d.rd ≠ 0 ∧ ∃ v, c1 = increment_pc (c.set_x d.rd v))

/-! ## F extension CSRs (`rv32f_cpu.cpp`) -/

/-- Modelled from the spec: the CSR address `RV32CSR_ADDR_FFLAGS` (the
`RV32CSR_*` constants are declared in a header that is not among the
sources). -/
def RV32CSR_ADDR_FFLAGS : Nat := 0x001

/-- Modelled from the spec: the CSR address `RV32CSR_ADDR_FRM`. -/
def RV32CSR_ADDR_FRM : Nat := 0x002

/-- Modelled from the spec: the CSR address `RV32CSR_ADDR_FCSR`. -/
def RV32CSR_ADDR_FCSR : Nat := 0x003

/-- Modelled from the spec: the write mask `RV32CSR_FFLAGS_WR_MASK`. -/
def RV32CSR_FFLAGS_WR_MASK : Nat := 0x1F

/-- Modelled from the spec: the write mask `RV32CSR_FRM_WR_MASK`. -/
def RV32CSR_FRM_WR_MASK : Nat := 0x7

/-- Modelled from the spec: the write mask `RV32CSR_FCSR_WR_MASK`. -/
def RV32CSR_FCSR_WR_MASK : Nat := 0xFF

/-- The operator `~` on a 32-bit value. -/
def bit_not32 (m : Nat) : Nat := 0xFFFFFFFF ^^^ m

/-- Assignment `state.hart[curr_hart].csr[a] = v`. -/
def rv32i_cpu.set_csr (c : rv32i_cpu Mem) (a : Nat) (v : Nat) : rv32i_cpu Mem :=
  { c with state := { c.state with csr := fun i => if i = a then v else c.state.csr i } }

/-- The placeholder `rv32i_cpu::csr_wr_mask` of the base class: sets `unimp`
and returns 0.  The result is the pair of the returned mask and the value
left in the reference parameter `unimp`. -/
def rv32i_cpu.csr_wr_mask (_addr : Nat) (_unimp : Bool) : Nat × Bool := (0, true)

/-- The placeholder `rv32i_cpu::access_csr` of the base class: returns 1 and
leaves the CPU as it is.  The result is the pair of the CPU after the call
and the returned error. -/
def rv32i_cpu.access_csr (c : rv32i_cpu Mem) (_funct3 _addr _rd _value : Nat) :
    rv32i_cpu Mem × Nat := (c, 1)

namespace rv32f_cpu

/-- The method `rv32f_cpu::access_csr`.  The ancestor method
`rv32csr_cpu::access_csr`, whose source is not available, is the parameter
`anc`: it maps the CPU and the arguments to the CPU after the call and the
returned error.  The result is the CPU after the call and the returned
error. -/
def access_csr (anc : rv32i_cpu Mem → Nat → Nat → Nat → Nat → rv32i_cpu Mem × Nat)
    (c : rv32i_cpu Mem) (funct3 addr rd rs1_uimm : Nat) : rv32i_cpu Mem × Nat :=
  let r := anc c funct3 addr rd rs1_uimm
  let error := r.2
  if error = 0 then
    let c1 := r.1
    if addr = RV32CSR_ADDR_FFLAGS then
      (c1.set_csr RV32CSR_ADDR_FCSR
        ((c1.state.csr RV32CSR_ADDR_FCSR &&& bit_not32 RV32CSR_FFLAGS_WR_MASK) |||
          (c1.state.csr RV32CSR_ADDR_FFLAGS &&& RV32CSR_FFLAGS_WR_MASK)), error)
    else if addr = RV32CSR_ADDR_FRM then
      (c1.set_csr RV32CSR_ADDR_FCSR
        ((c1.state.csr RV32CSR_ADDR_FCSR &&& bit_not32 (RV32CSR_FRM_WR_MASK <<< 5)) |||
          ((c1.state.csr RV32CSR_ADDR_FRM &&& RV32CSR_FRM_WR_MASK) <<< 5)), error)
    else if addr = RV32CSR_ADDR_FCSR then
      let c2 := c1.set_csr RV32CSR_ADDR_FFLAGS
        (c1.state.csr RV32CSR_ADDR_FCSR &&& RV32CSR_FFLAGS_WR_MASK)
      (c2.set_csr RV32CSR_ADDR_FRM
        ((c2.state.csr RV32CSR_ADDR_FCSR >>> 5) &&& RV32CSR_FRM_WR_MASK), error)
    else (c1, error)
  else (r.1, error)

/-- The method `rv32f_cpu::csr_wr_mask`.  The ancestor method
`rv32csr_cpu::csr_wr_mask`, whose source is not available, is the parameter
`anc`: it maps the address and the incoming `unimp` to the returned mask and
the value left in `unimp`.  The result is the returned mask and the value
left in `unimp`. -/
def csr_wr_mask (anc : Nat → Bool → Nat × Bool) (addr : Nat) (unimp : Bool) : Nat × Bool :=
  let r := anc addr unimp
  let mask := r.1
  if r.2 then
    if addr = RV32CSR_ADDR_FFLAGS then (RV32CSR_FFLAGS_WR_MASK, false)
    else if addr = RV32CSR_ADDR_FRM then (RV32CSR_FRM_WR_MASK, false)
    else if addr = RV32CSR_ADDR_FCSR then (RV32CSR_FCSR_WR_MASK, false)
    else (0, true)
  else (mask, r.2)

end rv32f_cpu

/-- The write mask that `rv32f_cpu::csr_wr_mask` returns for an address when
the ancestor is the base-class placeholder. -/
def f_wr_mask (addr : Nat) : Nat := (rv32f_cpu.csr_wr_mask rv32i_cpu.csr_wr_mask addr false).1

/-- Alias consistency of the F CSRs: FCSR[4:0] = FFLAGS[4:0] and
FCSR[7:5] = FRM[2:0]. -/
def alias_cons (c : rv32i_cpu Mem) : Prop :=
  c.state.csr RV32CSR_ADDR_FCSR &&& 0x1F = c.state.csr RV32CSR_ADDR_FFLAGS &&& 0x1F ∧
  (c.state.csr RV32CSR_ADDR_FCSR >>> 5) &&& 0x7 = c.state.csr RV32CSR_ADDR_FRM &&& 0x7

/-- Read-back agreement of the three aliases: FFLAGS reads as FCSR & 0x1F and
FRM reads as (FCSR >> 5) & 0x7. -/
def alias_readback (c : rv32i_cpu Mem) : Prop :=
  c.state.csr RV32CSR_ADDR_FFLAGS = c.state.csr RV32CSR_ADDR_FCSR &&& 0x1F ∧
  c.state.csr RV32CSR_ADDR_FRM = (c.state.csr RV32CSR_ADDR_FCSR >>> 5) &&& 0x7

/-- The CSR state `u` differs from `c` at most in csr[addr], and there only in
bits of `mask`. -/
def alters_at_most (c u : rv32i_cpu Mem) (addr mask : Nat) : Prop :=
  (∀ a, a ≠ addr → u.state.csr a = c.state.csr a) ∧
  (∀ i, mask.testBit i = false →
    (u.state.csr addr).testBit i = (c.state.csr addr).testBit i)

/-- The write mask that `rv32f_cpu::csr_wr_mask` returns for an address over
the ancestor method `anc_mask`. -/
def cpu_wr_mask (anc_mask : Nat → Bool → Nat × Bool) (addr : Nat) : Nat :=
  (rv32f_cpu.csr_wr_mask anc_mask addr false).1

/-- An underlying CSR operation keeps to its footprint with respect to the
write masks `wr_mask`: on every call it alters at most csr[addr], and there
only bits of the write mask of that address. -/
def keeps_footprint (wr_mask : Nat → Nat)
    (anc : rv32i_cpu Mem → Nat → Nat → Nat → Nat → rv32i_cpu Mem × Nat) : Prop :=
  ∀ c funct3 addr rd v, alters_at_most c (anc c funct3 addr rd v).1 addr (wr_mask addr)

/-- An underlying CSR operation that reports an error has left FFLAGS, FRM and
FCSR as they were. -/
def error_keeps_f_csrs
    (anc : rv32i_cpu Mem → Nat → Nat → Nat → Nat → rv32i_cpu Mem × Nat) : Prop :=
  ∀ c funct3 addr rd v, (anc c funct3 addr rd v).2 ≠ 0 →
    (anc c funct3 addr rd v).1.state.csr RV32CSR_ADDR_FFLAGS = c.state.csr RV32CSR_ADDR_FFLAGS ∧
    (anc c funct3 addr rd v).1.state.csr RV32CSR_ADDR_FRM = c.state.csr RV32CSR_ADDR_FRM ∧
    (anc c funct3 addr rd v).1.state.csr RV32CSR_ADDR_FCSR = c.state.csr RV32CSR_ADDR_FCSR

/-- A sequence of CSR accesses, each given by funct3, address, rd and operand,
performed in order through `rv32f_cpu::access_csr`. -/
def run_csr_accesses (anc : rv32i_cpu Mem → Nat → Nat → Nat → Nat → rv32i_cpu Mem × Nat)
    (c : rv32i_cpu Mem) : List (Nat × Nat × Nat × Nat) → rv32i_cpu Mem
  | [] => c
  | op :: ops =>
    run_csr_accesses anc (rv32f_cpu.access_csr anc c op.1 op.2.1 op.2.2.1 op.2.2.2).1 ops

/-- The value of a CSR after the operand `v` is written through `mask`: the
bits in `mask` come from `v`, all other bits stay. -/
def masked_write (old v mask : Nat) : Nat := old ^^^ ((old ^^^ v) &&& mask)

/-- A sample underlying CSR operation in the manner of CSRRW: an address without
write mask is refused with error 1 and nothing altered; otherwise the operand
is written to csr[addr] through the write mask and 0 is returned. -/
def sample_csr_access (c : rv32i_cpu Unit) (_funct3 addr _rd v : Nat) : rv32i_cpu Unit × Nat :=
  if (rv32f_cpu.csr_wr_mask rv32i_cpu.csr_wr_mask addr false).2 then (c, 1)
  else (c.set_csr addr (masked_write (c.state.csr addr) v (f_wr_mask addr)), 0)

/-- An underlying CSR operation that writes the operand to csr[addr] through
the write mask and then reports error 1. -/
def refusing_csr_access (c : rv32i_cpu Unit) (_funct3 addr _rd v : Nat) :
    rv32i_cpu Unit × Nat :=
  (c.set_csr addr (masked_write (c.state.csr addr) v (f_wr_mask addr)), 1)

/-- A sample ancestor `csr_wr_mask` that implements the single address 0x301
with mask 0 and reports every other address as unimplemented. -/
def sample_anc_wr_mask (addr : Nat) (_unimp : Bool) : Nat × Bool :=
  if addr = 0x301 then (0, false) else (0, true)

/-- A sample ancestor `csr_wr_mask` of an engine with a writable CSR outside
the F extension: it implements the address 0x340 (MSCRATCH) with all 32 bits
writable and reports every other address as unimplemented. -/
def scratch_anc_wr_mask (addr : Nat) (_unimp : Bool) : Nat × Bool :=
  if addr = 0x340 then (0xFFFFFFFF, false) else (0, true)

/-- A sample underlying CSR operation in the manner of CSRRW over the write
masks of the CPU whose ancestor is `scratch_anc_wr_mask`: an unimplemented
address is refused with error 1 and nothing altered; otherwise the operand is
written to csr[addr] through the write mask and 0 is returned. -/
def scratch_csr_access (c : rv32i_cpu Unit) (_funct3 addr _rd v : Nat) :
    rv32i_cpu Unit × Nat :=
  if (rv32f_cpu.csr_wr_mask scratch_anc_wr_mask addr false).2 then (c, 1)
  else (c.set_csr addr
    (masked_write (c.state.csr addr) v (cpu_wr_mask scratch_anc_wr_mask addr)), 0)

/-- A CPU in execution mode with all registers and CSRs zero except FCSR,
which holds `fcsr`, and FFLAGS and FRM, which hold the matching fields. -/
def cpu_fcsr (fcsr : Nat) : rv32i_cpu Unit :=
  { disassemble := false, rt_disassem := false, access_addr := 0, mem := (),
    state := { x := fun _ => 0, f := fun _ => 0, pc := 0x100,
               csr := fun a => if a = RV32CSR_ADDR_FCSR then fcsr
                 else if a = RV32CSR_ADDR_FFLAGS then fcsr &&& 0x1F
                 else if a = RV32CSR_ADDR_FRM then (fcsr >>> 5) &&& 0x7 else 0 } }

/-! ## Sample memory interfaces -/

/-- A memory interface whose memory is the log of the accesses made so far
(address, data written or 0 for a read, access type); every read returns `w`
and every access reports the fault flag `fault`. -/
def log_mem_if (w : Nat) (fault : Bool) : mem_if (List (Nat × Nat × mem_access_t)) :=
  { read_mem := fun m a t => (m ++ [(a, 0, t)], w, fault),
    write_mem := fun m a v t => (m ++ [(a, v, t)], fault) }

/-- A CPU in execution mode over the logging memory, with an empty log,
x5 = 0x1000, f6 = 0xAAAAAAAA12345678, f7 = 0x55 and pc = 0x100. -/
def cpu_log : rv32i_cpu (List (Nat × Nat × mem_access_t)) :=
  { disassemble := false, rt_disassem := false, access_addr := 0, mem := [],
    state := { x := fun i => if i = 5 then 0x1000 else 0,
               f := fun i => if i = 6 then 0xAAAAAAAA12345678 else if i = 7 then 0x55 else 0,
               csr := fun _ => 0, pc := 0x100 } }

/-- The decoded record of `flw f7, -4(x5)` / `fsw f6, -4(x5)`: rd = 7,
rs1 = 5, rs2 = 6 and both immediates -4 as 32-bit patterns. -/
def rec_fp_mem : rv32i_decode_t :=
  { instr := 0, funct3 := 2, funct7 := 0, rd := 7, rs1 := 5, rs2 := 6,
    imm_i := 0xFFFFFFFC, imm_s := 0xFFFFFFFC }

/-! ## Decode tables (`rv32i_cpu.h`, `rv32f_cpu.h`) and the constructors -/

/-- The decode tables: the member arrays `primary_tbl` .. `e_tbl` of
`rv32i_cpu` and `fsop_tbl` .. `fmv_tbl` of `rv32f_cpu`.  A subtable reference
is a pointer to one of these arrays. -/
inductive decode_tbl where
  | primary_tbl | load_tbl | store_tbl | branch_tbl | op_imm_tbl | op_tbl
  | arith_tbl | sri_tbl | srr_tbl | sll_tbl | slt_tbl | sltu_tbl | xor_tbl | or_tbl | and_tbl
  | sys_tbl | e_tbl
  | fsop_tbl | fs_tbl | fsgnjs_tbl | fminmaxs_tbl | fcmp_tbl | fmv_tbl
  deriving DecidableEq, Repr

/-- Modelled from the spec: the instruction format tags used by the two
constructors (the enumeration is declared in a header that is not among the
sources). -/
inductive instr_fmt_t where
  | RV32I_INSTR_ILLEGAL
  | RV32I_INSTR_FMT_R
  | RV32I_INSTR_FMT_I
  | RV32I_INSTR_FMT_S
  | RV32I_INSTR_FMT_R4
  deriving DecidableEq, Repr

/-- The instruction methods that the two constructors place in the tables. -/
inductive instr_method where
  | reserved | sllr | sltr | sltur | xorr | orr | andr
  | mul | mulh | mulhsu | mulhu | div | divu | rem | remu
  | flw | fsw | fmadds | fmsubs | fnmsubs | fnmadds
  | fadds | fsubs | fmuls | fdivs | fsqrts | fsgnjs | fsgnjns | fsgnjxs | fmins | fmaxs
  | fcvtws | fmvxw | feqs | flts | fles | fclasss | fcvtsw | fmvwx
  deriving DecidableEq, Repr

/-- The mnemonic string constants that the two constructors place in the
tables. -/
inductive instr_str where
  | reserved_str | sll_str | slt_str | sltu_str | xor_str | or_str | and_str
  | mul_str | mulh_str | mulhsu_str | mulhu_str | div_str | divu_str | rem_str | remu_str
  | flw_str | fsw_str | fmadds_str | fmsubs_str | fnmsubs_str | fnmadds_str
  | fadds_str | fsubs_str | fmuls_str | fdivs_str | fsqrts_str | fsgnjs_str | fsgnjns_str
  | fsgnjxs_str | fmins_str | fmaxs_str | fcvtws_str | fmvxw_str | feqs_str | flts_str
  | fles_str | fclasss_str | fcvtsw_str | fmvwx_str
  deriving DecidableEq, Repr

/-- Modelled from the spec: the table entry `rv32i_decode_table_t` (declared in
a header that is not among the sources): either a leaf, written
`{false, name, format, method}` in the constructors, or a subtable reference,
set by `INIT_TBL_WITH_SUBTBL`. -/
inductive rv32i_decode_table_t where
  | leaf (instr_name : instr_str) (instr_fmt : instr_fmt_t) (p : instr_method)
  | sub_table (p_entry : decode_tbl)
  deriving DecidableEq, Repr

/-- The contents of all decode tables of a CPU object. -/
abbrev decode_tables := decode_tbl → Nat → rv32i_decode_table_t

/-- Modelled from the spec: `RV32I_NUM_SECONDARY_OPCODES`, the number of
funct3 values. -/
def RV32I_NUM_SECONDARY_OPCODES : Nat := 8

/-- Modelled from the spec: `RV32I_NUM_TERTIARY_OPCODES`, the number of funct7
values. -/
def RV32I_NUM_TERTIARY_OPCODES : Nat := 128

/-- Assignment `tbl[i] = e`. -/
def tbl_set (t : decode_tables) (tbl : decode_tbl) (i : Nat) (e : rv32i_decode_table_t) :
    decode_tables :=
  fun tbl1 i1 => if tbl1 = tbl ∧ i1 = i then e else t tbl1 i1

/-- The loop `for (int i = lo; i < hi; i++) body`. -/
def for_loop (lo hi : Nat) (body : decode_tables → Nat → decode_tables) (t : decode_tables) :
    decode_tables :=
  (List.range' lo (hi - lo)).foldl body t

/-- The leaf `{false, reserved_str, RV32I_INSTR_ILLEGAL, &rv32i_cpu::reserved}`. -/
def reserved_entry : rv32i_decode_table_t :=
  .leaf .reserved_str .RV32I_INSTR_ILLEGAL .reserved

/-- The dereference `&p_entry->ref.p_entry[idx]` of an entry whose `sub_table`
flag is set; there is no child for a leaf. -/
def sub_entry (t : decode_tables) (p_entry : rv32i_decode_table_t) (idx : Nat) :
    Option rv32i_decode_table_t :=
  match p_entry with
  | .sub_table tbl => some (t tbl idx)
  | .leaf _ _ _ => none

namespace rv32m_cpu

/-- The constructor `rv32m_cpu::rv32m_cpu` (its body only sets up decode tables),
as a function of the tables left by
the ancestor constructors. -/
def rv32m_cpu_tables (t0 : decode_tables) : decode_tables :=
  let t := tbl_set t0 .arith_tbl 0x01 (.leaf .mul_str .RV32I_INSTR_FMT_R .mul)
  let t := tbl_set t .sll_tbl 0x00 (.leaf .sll_str .RV32I_INSTR_FMT_R .sllr)
  let t := tbl_set t .sll_tbl 0x01 (.leaf .mulh_str .RV32I_INSTR_FMT_R .mulh)
  let t := tbl_set t .slt_tbl 0x00 (.leaf .slt_str .RV32I_INSTR_FMT_R .sltr)
  let t := tbl_set t .slt_tbl 0x01 (.leaf .mulhsu_str .RV32I_INSTR_FMT_R .mulhsu)
  let t := tbl_set t .sltu_tbl 0x00 (.leaf .sltu_str .RV32I_INSTR_FMT_R .sltur)
  let t := tbl_set t .sltu_tbl 0x01 (.leaf .mulhu_str .RV32I_INSTR_FMT_R .mulhu)
  let t := tbl_set t .xor_tbl 0x00 (.leaf .xor_str .RV32I_INSTR_FMT_R .xorr)
  let t := tbl_set t .xor_tbl 0x01 (.leaf .div_str .RV32I_INSTR_FMT_R .div)
  let t := tbl_set t .srr_tbl 0x01 (.leaf .divu_str .RV32I_INSTR_FMT_R .divu)
  let t := tbl_set t .or_tbl 0x00 (.leaf .or_str .RV32I_INSTR_FMT_R .orr)
  let t := tbl_set t .or_tbl 0x01 (.leaf .rem_str .RV32I_INSTR_FMT_R .rem)
  let t := tbl_set t .and_tbl 0x00 (.leaf .and_str .RV32I_INSTR_FMT_R .andr)
  let t := tbl_set t .and_tbl 0x01 (.leaf .remu_str .RV32I_INSTR_FMT_R .remu)
  let t := for_loop 2 RV32I_NUM_TERTIARY_OPCODES (fun t i =>
    let t := tbl_set t .sll_tbl i reserved_entry
    let t := tbl_set t .slt_tbl i reserved_entry
    let t := tbl_set t .sltu_tbl i reserved_entry
    let t := tbl_set t .xor_tbl i reserved_entry
    let t := tbl_set t .or_tbl i reserved_entry
    tbl_set t .and_tbl i reserved_entry) t
  let t := tbl_set t .op_tbl 0 (.sub_table .arith_tbl)
  let t := tbl_set t .op_tbl 1 (.sub_table .sll_tbl)
  let t := tbl_set t .op_tbl 2 (.sub_table .slt_tbl)
  let t := tbl_set t .op_tbl 3 (.sub_table .sltu_tbl)
  let t := tbl_set t .op_tbl 4 (.sub_table .xor_tbl)
  let t := tbl_set t .op_tbl 5 (.sub_table .srr_tbl)
  let t := tbl_set t .op_tbl 6 (.sub_table .or_tbl)
  tbl_set t .op_tbl 7 (.sub_table .and_tbl)

end rv32m_cpu

namespace rv32f_cpu

/-- The decode-table part of the constructor `rv32f_cpu::rv32f_cpu` (from the
quaternary table initialisation to the end of the body), as a function of the
tables as they are when the body is entered: the ancestors' tables are as the
ancestor constructors left them and the tables of `rv32f_cpu` itself hold
whatever they held. -/
def rv32f_cpu_tables (t0 : decode_tables) : decode_tables :=
  let t := for_loop 0 RV32I_NUM_SECONDARY_OPCODES (fun t i =>
    let t := tbl_set t .fsgnjs_tbl i reserved_entry
    let t := tbl_set t .fminmaxs_tbl i reserved_entry
    let t := tbl_set t .fmv_tbl i reserved_entry
    tbl_set t .fcmp_tbl i reserved_entry) t0
  let t := tbl_set t .fsgnjs_tbl 0 (.leaf .fsgnjs_str .RV32I_INSTR_FMT_R .fsgnjs)
  let t := tbl_set t .fsgnjs_tbl 1 (.leaf .fsgnjns_str .RV32I_INSTR_FMT_R .fsgnjns)
  let t := tbl_set t .fsgnjs_tbl 2 (.leaf .fsgnjxs_str .RV32I_INSTR_FMT_R .fsgnjxs)
  let t := tbl_set t .fminmaxs_tbl 0 (.leaf .fmins_str .RV32I_INSTR_FMT_R .fmins)
  let t := tbl_set t .fminmaxs_tbl 1 (.leaf .fmaxs_str .RV32I_INSTR_FMT_R .fmaxs)
  let t := tbl_set t .fmv_tbl 0 (.leaf .fmvxw_str .RV32I_INSTR_FMT_R .fmvxw)
  let t := tbl_set t .fmv_tbl 1 (.leaf .fclasss_str .RV32I_INSTR_FMT_R .fclasss)
  let t := tbl_set t .fcmp_tbl 0 (.leaf .fles_str .RV32I_INSTR_FMT_R .fles)
  let t := tbl_set t .fcmp_tbl 1 (.leaf .flts_str .RV32I_INSTR_FMT_R .flts)
  let t := tbl_set t .fcmp_tbl 2 (.leaf .feqs_str .RV32I_INSTR_FMT_R .feqs)
  let t := tbl_set t .fs_tbl 0x00 (.leaf .fadds_str .RV32I_INSTR_FMT_R .fadds)
  let t := tbl_set t .fs_tbl 0x04 (.leaf .fsubs_str .RV32I_INSTR_FMT_R .fsubs)
  let t := tbl_set t .fs_tbl 0x08 (.leaf .fmuls_str .RV32I_INSTR_FMT_R .fmuls)
  let t := tbl_set t .fs_tbl 0x0c (.leaf .fdivs_str .RV32I_INSTR_FMT_R .fdivs)
  let t := tbl_set t .fs_tbl 0x2c (.leaf .fsqrts_str .RV32I_INSTR_FMT_R .fsqrts)
  let t := tbl_set t .fs_tbl 0x10 (.sub_table .fsgnjs_tbl)
  let t := tbl_set t .fs_tbl 0x14 (.sub_table .fminmaxs_tbl)
  let t := tbl_set t .fs_tbl 0x60 (.leaf .fcvtws_str .RV32I_INSTR_FMT_R .fcvtws)
  let t := tbl_set t .fs_tbl 0x70 (.sub_table .fmv_tbl)
  let t := tbl_set t .fs_tbl 0x40 (.sub_table .fcmp_tbl)
  let t := tbl_set t .fs_tbl 0x61 (.leaf .fcvtsw_str .RV32I_INSTR_FMT_R .fcvtsw)
  let t := tbl_set t .fs_tbl 0x71 (.leaf .fmvwx_str .RV32I_INSTR_FMT_R .fmvwx)
  let t := for_loop 0 RV32I_NUM_SECONDARY_OPCODES (fun t i =>
    tbl_set t .fsop_tbl i (.sub_table .fs_tbl)) t
  let t := tbl_set t .primary_tbl 0x01 (.leaf .flw_str .RV32I_INSTR_FMT_I .flw)
  let t := tbl_set t .primary_tbl 0x09 (.leaf .fsw_str .RV32I_INSTR_FMT_S .fsw)
  let t := tbl_set t .primary_tbl 0x10 (.leaf .fmadds_str .RV32I_INSTR_FMT_R4 .fmadds)
  let t := tbl_set t .primary_tbl 0x11 (.leaf .fmsubs_str .RV32I_INSTR_FMT_R4 .fmsubs)
  let t := tbl_set t .primary_tbl 0x12 (.leaf .fnmsubs_str .RV32I_INSTR_FMT_R4 .fnmsubs)
  let t := tbl_set t .primary_tbl 0x13 (.leaf .fnmadds_str .RV32I_INSTR_FMT_R4 .fnmadds)
  tbl_set t .primary_tbl 0x14 (.sub_table .fsop_tbl)

/-- The method `rv32f_cpu::decode_exception`: a fourth level of decode on
funct3; the result `none` is the null pointer. -/
def decode_exception (t : decode_tables) (p_entry : rv32i_decode_table_t) (d : rv32i_decode_t) :
    Option rv32i_decode_table_t :=
  sub_entry t p_entry d.funct3

end rv32f_cpu

/-- Tables in which every entry of every table is the same leaf, naming the
method `fmvwx` with format I: a stand-in for arbitrary prior contents. -/
def junk_tables : decode_tables :=
  fun _ _ => .leaf .fmvwx_str .RV32I_INSTR_FMT_I .fmvwx

/-- The entry reached by walking `primary_tbl[0x14]` (major opcode OP-FP), then
the secondary index funct3, then the tertiary index funct7. -/
def op_fp_tertiary (t : decode_tables) (funct3 funct7 : Nat) : Option rv32i_decode_table_t :=
  (sub_entry t (t .primary_tbl 0x14) funct3).bind fun e => sub_entry t e funct7

/-- The decoded record of an OP-FP instruction with the given funct3 and
funct7 fields and registers f1, f2, f3. -/
def rec_op_fp (funct3 funct7 : Nat) : rv32i_decode_t :=
  { instr := 0, funct3 := funct3, funct7 := funct7, rd := 1, rs1 := 2, rs2 := 3,
    imm_i := 0, imm_s := 0 }

/-! ## Construction of the F extension state and further sample inputs -/

/-- The six tertiary tables that the loop of the `rv32m_cpu` constructor fills
with the reserved leaf from index 2 on. -/
def m_tertiary_tbls : List decode_tbl :=
  [.sll_tbl, .slt_tbl, .sltu_tbl, .xor_tbl, .or_tbl, .and_tbl]

/-- The funct7 indices of `fs_tbl` that the `rv32f_cpu` constructor assigns. -/
def fs_tbl_assigned : List Nat :=
  [0x00, 0x04, 0x08, 0x0c, 0x2c, 0x10, 0x14, 0x60, 0x70, 0x40, 0x61, 0x71]

/-- The `sub_table` flag of a table entry. -/
def rv32i_decode_table_t.is_sub_table : rv32i_decode_table_t → Bool
  | .sub_table _ => true
  | .leaf _ _ _ => false

/-- Tables in which every entry of every table is the entry `e`: a stand-in
for prior contents. -/
def const_tables (e : rv32i_decode_table_t) : decode_tables := fun _ _ => e

/-- The primary-table indices that the `rv32f_cpu` constructor fills with
leaves: LOAD-FP, STORE-FP, MADD, MSUB, NMSUB and NMADD. -/
def f_primary_leaf_slots : List Nat := [0x01, 0x09, 0x10, 0x11, 0x12, 0x13]

/-- Modelled from the spec: the CSR address `RV32CSR_ADDR_MISA` (the
`RV32CSR_*` constants are declared in a header that is not among the
sources). -/
def RV32CSR_ADDR_MISA : Nat := 0x301

/-- Modelled from the spec: the extension flag `RV32CSR_EXT_F`, bit 5 of MISA
(extension letter F). -/
def RV32CSR_EXT_F : Nat := 0x20

/-- The state part of the constructor `rv32f_cpu::rv32f_cpu`, run after the
ancestor constructors have produced `c`:
`state.hart[curr_hart].csr[RV32CSR_ADDR_MISA] |= RV32CSR_EXT_F`. -/
def rv32f_cpu.rv32f_cpu_state (c : rv32i_cpu Mem) : rv32i_cpu Mem :=
  c.set_csr RV32CSR_ADDR_MISA (c.state.csr RV32CSR_ADDR_MISA ||| RV32CSR_EXT_F)

/-- A CPU as the ancestor constructors might leave it: MISA holds `misa`,
every other CSR and every register is zero. -/
def cpu_misa (misa : Nat) : rv32i_cpu Unit :=
  { disassemble := false, rt_disassem := false, access_addr := 0, mem := (),
    state := { x := fun _ => 0, f := fun _ => 0, pc := 0,
               csr := fun a => if a = RV32CSR_ADDR_MISA then misa else 0 } }

/-- The fourth register argument that `fmadds`, `fmsubs`, `fnmsubs` and
`fnmadds` hand to `RV32I_DISASSEM_R4_TYPE`: `((d->imm_s >> 2)&0x1f)`. -/
def rv32f_cpu.fmadd_rs3 (d : rv32i_decode_t) : Nat := (d.imm_s >>> 2) &&& 0x1f

/-- Modelled from the spec: the standard S-immediate of the instruction word
`w` as a 32-bit pattern, imm[11:5] = w[31:25], imm[4:0] = w[11:7],
sign-extended from bit 11. -/
def spec_imm_s (w : Nat) : Nat :=
  let imm := (((w >>> 25) &&& 0x7f) <<< 5) ||| ((w >>> 7) &&& 0x1f)
  if imm.testBit 11 then imm ||| 0xFFFFF000 else imm

/-- Modelled from the spec: the field rs3 of the R4 format, bits 31:27 of the
instruction word. -/
def spec_rs3 (w : Nat) : Nat := (w >>> 27) &&& 0x1f

/-- Modelled from the spec: the decoded record of the instruction word `w`
as far as the fields funct3 (14:12), funct7 (31:25), rd (11:7), rs1 (19:15),
rs2 (24:20) and the S-immediate go; `imm_i` is left zero. -/
def spec_decode_s (w : Nat) : rv32i_decode_t :=
  { instr := w, funct3 := (w >>> 12) &&& 0x7, funct7 := (w >>> 25) &&& 0x7f,
    rd := ⟨(w >>> 7) % 32, Nat.mod_lt _ (by decide)⟩,
    rs1 := ⟨(w >>> 15) % 32, Nat.mod_lt _ (by decide)⟩,
    rs2 := ⟨(w >>> 20) % 32, Nat.mod_lt _ (by decide)⟩,
    imm_i := 0, imm_s := spec_imm_s w }

/-- Modelled from the spec: the pattern FSGNJ.S is to write, bits 30:0 of `a`
and bit 31 of `b`. -/
def spec_fsgnj (a b : Nat) : Nat := (a &&& 0x7FFFFFFF) ||| (b &&& 0x80000000)

/-- Modelled from the spec: the pattern FSGNJN.S is to write, bits 30:0 of `a`
and the inverse of bit 31 of `b`. -/
def spec_fsgnjn (a b : Nat) : Nat :=
  (a &&& 0x7FFFFFFF) ||| ((b ^^^ 0x80000000) &&& 0x80000000)

/-- Modelled from the spec: the pattern FSGNJX.S is to write, bits 30:0 of `a`
and bit 31 equal to a[31] XOR b[31]. -/
def spec_fsgnjx (a b : Nat) : Nat :=
  (a &&& 0x7FFFFFFF) ||| ((a ^^^ b) &&& 0x80000000)

/-- A CPU in execution mode whose current hart holds `a` in f2 and `b` in f3,
every other register and every CSR being zero, with pc = 0x100. -/
def cpu_f2_f3 (a b : Nat) : rv32i_cpu Unit :=
  { disassemble := false, rt_disassem := false, access_addr := 0, mem := (),
    state := { x := fun _ => 0,
               f := fun i => if i = 2 then a else if i = 3 then b else 0,
               csr := fun _ => 0, pc := 0x100 } }

/-- The decoded record of `fmv.w.x f4, x1`: rd = 4, rs1 = 1, funct7 = 0x78. -/
def rec_fmv_w_x : rv32i_decode_t :=
  { instr := 0xF0008253, funct3 := 0, funct7 := 0x78, rd := 4, rs1 := 1, rs2 := 0,
    imm_i := 0, imm_s := 0 }

/-- Tables in which every entry of every table is the leaf naming `flw` with
format I: prior contents that differ from every entry the F constructor
assigns inside `fs_tbl`. -/
def prior_flw : decode_tables := const_tables (.leaf .flw_str .RV32I_INSTR_FMT_I .flw)

/-- The four-level walk for an OP-FP record: `primary_tbl[0x14]`, funct3,
funct7, then `decode_exception` on the entry reached. -/
def op_fp_walk (t : decode_tables) (d : rv32i_decode_t) : Option rv32i_decode_table_t :=
  (op_fp_tertiary t d.funct3 d.funct7).bind fun e => rv32f_cpu.decode_exception t e d

/-! ## Disassemble mode, the division identity and further sample inputs -/

/-- The CPU `c` with its option `disassemble` set to `b`. -/
def rv32i_cpu.with_disassemble (c : rv32i_cpu Mem) (b : Bool) : rv32i_cpu Mem :=
  { c with disassemble := b }

/-- The CPU `cpu_log` (logging memory, empty log, x5 = 0x1000,
f6 = 0xAAAAAAAA12345678, f7 = 0x55) in disassemble mode. -/
def cpu_log_dis : rv32i_cpu (List (Nat × Nat × mem_access_t)) :=
  cpu_log.with_disassemble true

/-- The list of all twenty-two F computational handlers: the eighteen OP-FP
handlers followed by the four of the FMADD family. -/
def f_stub_handlers : List (rv32i_cpu Mem → rv32i_decode_t → rv32i_cpu Mem) :=
  rv32f_cpu.op_fp_handlers ++ rv32f_cpu.fmadd_handlers

/-- The division identity on 32-bit patterns: b*q + r ≡ a (mod 2^32). -/
def div_identity (a b q r : Nat) : Prop :=
  (b * q + r) % 0x100000000 = a % 0x100000000

instance (a b q r : Nat) : Decidable (div_identity a b q r) :=
  inferInstanceAs (Decidable ((b * q + r) % 0x100000000 = a % 0x100000000))

/-! # Theorems -/

open rv32m_cpu rv32f_cpu

/-! ## Machine integer lemmas -/

theorem land_mask32 (n : Nat) : n &&& 0xffffffff = n % 0x100000000 := by
  have h := Nat.and_pow_two_sub_one_eq_mod n 32
  norm_num at h
  exact h

theorem to_int32_range (i : Int) : -0x80000000 ≤ to_int32 i ∧ to_int32 i < 0x80000000 := by
  unfold to_int32; omega

theorem to_uint32_lt (i : Int) : to_uint32 i < 0x100000000 := by
  unfold to_uint32; omega

theorem to_uint32_to_int32 (n : Nat) (h : n < 0x100000000) : to_uint32 (to_int32 n) = n := by
  unfold to_uint32 to_int32; omega

theorem to_int32_to_uint32 (i : Int) (h1 : -0x80000000 ≤ i) (h2 : i < 0x80000000) :
    to_int32 (to_uint32 i) = i := by
  unfold to_uint32 to_int32; omega

theorem to_int64_modEq (i : Int) : to_int64 i ≡ i [ZMOD 0x10000000000000000] := by
  unfold to_int64 Int.ModEq; omega

theorem to_int32_modEq (i : Int) : to_int32 i ≡ i [ZMOD 0x100000000] := by
  unfold to_int32 Int.ModEq; omega

theorem to_uint64_modEq (i : Int) : (to_uint64 i : Int) ≡ i [ZMOD 0x10000000000000000] := by
  unfold to_uint64 Int.ModEq; omega

theorem modEq_64_32 {i j : Int} (h : i ≡ j [ZMOD 0x10000000000000000]) :
    i ≡ j [ZMOD 0x100000000] := by
  unfold Int.ModEq at *; omega

theorem to_uint32_congr {i j : Int} (h : i ≡ j [ZMOD 0x100000000]) :
    to_uint32 i = to_uint32 j := by
  unfold to_uint32; unfold Int.ModEq at h; rw [h]

theorem to_uint64_congr {i j : Int} (h : i ≡ j [ZMOD 0x10000000000000000]) :
    to_uint64 i = to_uint64 j := by
  unfold to_uint64; unfold Int.ModEq at h; rw [h]

theorem to_int64_eq_of_modEq {z p : Int} (h : z ≡ p [ZMOD 0x10000000000000000])
    (h1 : -0x8000000000000000 ≤ p) (h2 : p < 0x8000000000000000) : to_int64 z = p := by
  unfold to_int64; unfold Int.ModEq at h; omega

theorem mul_range_s32_s32 (a b : Int) (ha1 : -0x80000000 ≤ a) (ha2 : a < 0x80000000)
    (hb1 : -0x80000000 ≤ b) (hb2 : b < 0x80000000) :
    -0x8000000000000000 ≤ a * b ∧ a * b < 0x8000000000000000 := by
  constructor <;> nlinarith

theorem mul_range_s32_u32 (a b : Int) (ha1 : -0x80000000 ≤ a) (ha2 : a < 0x80000000)
    (hb1 : 0 ≤ b) (hb2 : b < 0x100000000) :
    -0x8000000000000000 ≤ a * b ∧ a * b < 0x8000000000000000 := by
  constructor <;> nlinarith

theorem tdiv_eq_spec_trunc_quot (a b : Int) : Int.tdiv a b = spec_trunc_quot a b := by
  unfold spec_trunc_quot
  rcases Int.eq_nat_or_neg a with ⟨m, rfl | rfl⟩ <;>
  rcases Int.eq_nat_or_neg b with ⟨n, rfl | rfl⟩ <;>
  rcases Nat.eq_zero_or_pos m with rfl | hm <;>
  rcases Nat.eq_zero_or_pos n with rfl | hn <;>
  simp [Int.sign_natCast_of_ne_zero, Nat.pos_iff_ne_zero.mp, *, Int.ofNat_tdiv]
  all_goals exact Int.tdiv_eq_ediv (Int.ofNat_nonneg _) (Int.ofNat_nonneg _)

theorem tmod_neg_left (a b : Int) : Int.tmod (-a) b = -Int.tmod a b := by
  rw [Int.tmod_def, Int.tmod_def, Int.neg_tdiv]; ring

theorem tmod_sign_bound (a b : Int) (hb : b ≠ 0) :
    |Int.tmod a b| < |b| ∧ (0 ≤ a → 0 ≤ Int.tmod a b) ∧ (a ≤ 0 → Int.tmod a b ≤ 0) := by
  have key : ∀ a' : Int, 0 ≤ a' → 0 ≤ Int.tmod a' b ∧ Int.tmod a' b < |b| := by
    intro a' ha'
    refine ⟨Int.tmod_nonneg b ha', ?_⟩
    rcases lt_or_gt_of_ne hb with h | h
    · rw [abs_of_neg h, ← Int.tmod_neg]
      exact Int.tmod_lt_of_pos a' (by omega)
    · rw [abs_of_pos h]
      exact Int.tmod_lt_of_pos a' h
  rcases le_total 0 a with ha | ha
  · obtain ⟨h1, h2⟩ := key a ha
    refine ⟨by rw [abs_of_nonneg h1]; exact h2, fun _ => h1, fun h => ?_⟩
    have : a = 0 := le_antisymm h ha
    subst this
    simp
  · obtain ⟨h1, h2⟩ := key (-a) (by omega)
    rw [tmod_neg_left] at h1 h2
    refine ⟨by rw [abs_of_nonpos (by omega)]; exact h2, fun h => ?_, fun _ => by omega⟩
    have : a = 0 := le_antisymm ha h
    subst this
    simp

theorem tdiv_fits_int32 (a b : Int) (ha1 : -0x80000000 ≤ a) (ha2 : a < 0x80000000)
    (hb : b ≠ 0) (hov : ¬ (a = -0x80000000 ∧ b = -1)) :
    -0x80000000 ≤ Int.tdiv a b ∧ Int.tdiv a b < 0x80000000 := by
  have hq : (Int.tdiv a b).natAbs = a.natAbs / b.natAbs := Int.natAbs_tdiv a b
  have hle : a.natAbs / b.natAbs ≤ a.natAbs := Nat.div_le_self _ _
  have hb0 : 0 < b.natAbs := Int.natAbs_pos.mpr hb
  by_cases h1 : b.natAbs = 1
  · rw [h1, Nat.div_one] at hq
    rcases Int.natAbs_eq b with hb' | hb'
    · rw [h1] at hb'
      have : b = 1 := by simpa using hb'
      subst this
      rw [Int.tdiv_one]
      exact ⟨ha1, ha2⟩
    · rw [h1] at hb'
      have hb1 : b = -1 := by simpa using hb'
      have hne : a ≠ -0x80000000 := fun h => hov ⟨h, hb1⟩
      omega
  · by_cases h0 : a.natAbs = 0
    · rw [h0, Nat.zero_div] at hq
      omega
    · have hlt : a.natAbs / b.natAbs < a.natAbs :=
        Nat.div_lt_self (Nat.pos_of_ne_zero h0) (by omega)
      omega

/-! ## Division and remainder -/

theorem divrem_select_zero (a : Int) : divrem_select a 0 = divrem_arm.by_zero := by
  simp [divrem_select]

theorem divrem_select_host (a b : Int) (ha : a < 0x80000000) (hb : b ≠ 0) :
    divrem_select a b = divrem_arm.host := by
  unfold divrem_select
  rw [if_neg hb, if_neg]
  intro h
  omega

theorem host_sdiv32_overflow : host_sdiv32 (-0x80000000) (-1) = none := by decide

theorem host_srem32_overflow : host_srem32 (-0x80000000) (-1) = none := by decide

theorem div_result_zero (a : Int) : div_result a 0 = some (-1) := by
  unfold div_result
  rw [divrem_select_zero]

theorem rem_result_zero (a : Int) : rem_result a 0 = some a := by
  unfold rem_result
  rw [divrem_select_zero]

theorem div_result_host (a b : Int) (ha : a < 0x80000000) (hb : b ≠ 0) :
    div_result a b = host_sdiv32 a b := by
  unfold div_result
  rw [divrem_select_host a b ha hb]

theorem rem_result_host (a b : Int) (ha : a < 0x80000000) (hb : b ≠ 0) :
    rem_result a b = host_srem32 a b := by
  unfold rem_result
  rw [divrem_select_host a b ha hb]

theorem div_of_rd (c : rv32i_cpu Mem) (d : rv32i_decode_t) (hrd : d.rd ≠ 0) :
    div c d = (div_result (to_int32 (c.state.x d.rs1)) (to_int32 (c.state.x d.rs2))).map
      fun r => increment_pc (c.set_x d.rd (to_uint32 r)) := by
  unfold div
  rw [if_pos hrd]

theorem rem_of_rd (c : rv32i_cpu Mem) (d : rv32i_decode_t) (hrd : d.rd ≠ 0) :
    rem c d = (rem_result (to_int32 (c.state.x d.rs1)) (to_int32 (c.state.x d.rs2))).map
      fun r => increment_pc (c.set_x d.rd (to_uint32 r)) := by
  unfold rem
  rw [if_pos hrd]

theorem divu_of_rd (c : rv32i_cpu Mem) (d : rv32i_decode_t) (hrd : d.rd ≠ 0) :
    divu c d = increment_pc (c.set_x d.rd
      (if c.state.x d.rs2 = 0 then to_uint32 (-1) else c.state.x d.rs1 / c.state.x d.rs2)) := by
  unfold divu
  rw [if_pos hrd]

theorem remu_of_rd (c : rv32i_cpu Mem) (d : rv32i_decode_t) (hrd : d.rd ≠ 0) :
    remu c d = increment_pc (c.set_x d.rd
      (if c.state.x d.rs2 = 0 then c.state.x d.rs1 else c.state.x d.rs1 % c.state.x d.rs2)) := by
  unfold remu
  rw [if_pos hrd]

theorem div_overflow_pair (c : rv32i_cpu Mem) (d : rv32i_decode_t) (hrd : d.rd ≠ 0)
    (h1 : c.state.x d.rs1 = 0x80000000) (h2 : c.state.x d.rs2 = 0xFFFFFFFF) :
    div c d = none ∧ rem c d = none := by
  have hd : div_result (to_int32 (0x80000000 : Nat)) (to_int32 (0xFFFFFFFF : Nat)) = none := by
    decide
  have hr : rem_result (to_int32 (0x80000000 : Nat)) (to_int32 (0xFFFFFFFF : Nat)) = none := by
    decide
  constructor
  · rw [div_of_rd c d hrd, h1, h2, hd, Option.map_none']
  · rw [rem_of_rd c d hrd, h1, h2, hr, Option.map_none']

theorem set_x_same (c : rv32i_cpu Mem) (r : Fin 32) (v : Nat) :
    (increment_pc (c.set_x r v)).state.x r = v := by
  show (if r = r then v else c.state.x r) = v
  rw [if_pos rfl]

theorem div_rem_zero_values (c : rv32i_cpu Mem) (d : rv32i_decode_t) (hrd : d.rd ≠ 0)
    (hx : x_in_range c) (hz : c.state.x d.rs2 = 0) :
    div c d = some (increment_pc (c.set_x d.rd 0xFFFFFFFF)) ∧
    divu c d = increment_pc (c.set_x d.rd 0xFFFFFFFF) ∧
    rem c d = some (increment_pc (c.set_x d.rd (c.state.x d.rs1))) ∧
    remu c d = increment_pc (c.set_x d.rd (c.state.x d.rs1)) := by
  have hb : to_int32 (c.state.x d.rs2) = 0 := by rw [hz]; decide
  have h1 : to_uint32 (-1) = 0xFFFFFFFF := by decide
  refine ⟨?_, ?_, ?_, ?_⟩
  · rw [div_of_rd c d hrd, hb, div_result_zero, Option.map_some', h1]
  · rw [divu_of_rd c d hrd, if_pos hz, h1]
  · rw [rem_of_rd c d hrd, hb, rem_result_zero, Option.map_some',
      to_uint32_to_int32 _ (hx d.rs1)]
  · rw [remu_of_rd c d hrd, if_pos hz]

/-- Claim C1: division by zero.  For every hart state with `uint32_t` registers and
every decoded record with rd ≠ 0 and x[rs2] = 0, DIV and DIVU write 0xFFFFFFFF
to x[rd], and REM and REMU write the dividend x[rs1] to x[rd]; each handler
then advances pc. -/
theorem div_rem_by_zero (c : rv32i_cpu Mem) (d : rv32i_decode_t) (hrd : d.rd ≠ 0)
    (hx : x_in_range c) (hz : c.state.x d.rs2 = 0) :
    div c d = some (increment_pc (c.set_x d.rd 0xFFFFFFFF)) ∧
    divu c d = increment_pc (c.set_x d.rd 0xFFFFFFFF) ∧
    rem c d = some (increment_pc (c.set_x d.rd (c.state.x d.rs1))) ∧
    remu c d = increment_pc (c.set_x d.rd (c.state.x d.rs1)) ∧
    (div c d).map (fun c1 => c1.state.x d.rd) = some 0xFFFFFFFF ∧
    (divu c d).state.x d.rd = 0xFFFFFFFF ∧
    (rem c d).map (fun c1 => c1.state.x d.rd) = some (c.state.x d.rs1) ∧
    (remu c d).state.x d.rd = c.state.x d.rs1 ∧
    (div c d).map (fun c1 => c1.state.pc) = some ((c.state.pc + 4) % 0x100000000) ∧
    (divu c d).state.pc = (c.state.pc + 4) % 0x100000000 ∧
    (rem c d).map (fun c1 => c1.state.pc) = some ((c.state.pc + 4) % 0x100000000) ∧
    (remu c d).state.pc = (c.state.pc + 4) % 0x100000000 := by
  have hwr : ∀ v, (increment_pc (c.set_x d.rd v)).state.x d.rd = v := fun v => by
    show (if d.rd = d.rd then v else c.state.x d.rd) = v
    rw [if_pos rfl]
  obtain ⟨e1, e2, e3, e4⟩ := div_rem_zero_values c d hrd hx hz
  refine ⟨e1, e2, e3, e4, ?_, ?_, ?_, ?_, ?_, ?_, ?_, ?_⟩
  · rw [e1, Option.map_some', hwr]
  · rw [e2, hwr]
  · rw [e3, Option.map_some', hwr]
  · rw [e4, hwr]
  · rw [e1]; rfl
  · rw [e2]; rfl
  · rw [e3]; rfl
  · rw [e4]; rfl

/-- Instance of `div_rem_by_zero` at x5 = 0x12345678, x6 = 0 and the record of
`op x7, x5, x6`. -/
theorem div_rem_by_zero_witness :
    rec_x7_x5_x6.rd ≠ 0 ∧ x_in_range (cpu_x5_x6 0x12345678 0) ∧
    (cpu_x5_x6 0x12345678 0).state.x rec_x7_x5_x6.rs2 = 0 ∧
    (div (cpu_x5_x6 0x12345678 0) rec_x7_x5_x6 =
        some (increment_pc ((cpu_x5_x6 0x12345678 0).set_x rec_x7_x5_x6.rd 0xFFFFFFFF)) ∧
      divu (cpu_x5_x6 0x12345678 0) rec_x7_x5_x6 =
        increment_pc ((cpu_x5_x6 0x12345678 0).set_x rec_x7_x5_x6.rd 0xFFFFFFFF) ∧
      rem (cpu_x5_x6 0x12345678 0) rec_x7_x5_x6 =
        some (increment_pc ((cpu_x5_x6 0x12345678 0).set_x rec_x7_x5_x6.rd
          ((cpu_x5_x6 0x12345678 0).state.x rec_x7_x5_x6.rs1))) ∧
      remu (cpu_x5_x6 0x12345678 0) rec_x7_x5_x6 =
        increment_pc ((cpu_x5_x6 0x12345678 0).set_x rec_x7_x5_x6.rd
          ((cpu_x5_x6 0x12345678 0).state.x rec_x7_x5_x6.rs1)) ∧
      (div (cpu_x5_x6 0x12345678 0) rec_x7_x5_x6).map (fun c1 => c1.state.x rec_x7_x5_x6.rd)
        = some 0xFFFFFFFF ∧
      (divu (cpu_x5_x6 0x12345678 0) rec_x7_x5_x6).state.x rec_x7_x5_x6.rd = 0xFFFFFFFF ∧
      (rem (cpu_x5_x6 0x12345678 0) rec_x7_x5_x6).map (fun c1 => c1.state.x rec_x7_x5_x6.rd)
        = some ((cpu_x5_x6 0x12345678 0).state.x rec_x7_x5_x6.rs1) ∧
      (remu (cpu_x5_x6 0x12345678 0) rec_x7_x5_x6).state.x rec_x7_x5_x6.rd
        = (cpu_x5_x6 0x12345678 0).state.x rec_x7_x5_x6.rs1 ∧
      (div (cpu_x5_x6 0x12345678 0) rec_x7_x5_x6).map (fun c1 => c1.state.pc)
        = some (((cpu_x5_x6 0x12345678 0).state.pc + 4) % 0x100000000) ∧
      (divu (cpu_x5_x6 0x12345678 0) rec_x7_x5_x6).state.pc
        = ((cpu_x5_x6 0x12345678 0).state.pc + 4) % 0x100000000 ∧
      (rem (cpu_x5_x6 0x12345678 0) rec_x7_x5_x6).map (fun c1 => c1.state.pc)
        = some (((cpu_x5_x6 0x12345678 0).state.pc + 4) % 0x100000000) ∧
      (remu (cpu_x5_x6 0x12345678 0) rec_x7_x5_x6).state.pc
        = ((cpu_x5_x6 0x12345678 0).state.pc + 4) % 0x100000000) ∧
    (cpu_x5_x6 0x12345678 0).state.x rec_x7_x5_x6.rs1 = 0x12345678 ∧
    (remu (cpu_x5_x6 0x12345678 0) rec_x7_x5_x6).state.x 7 = 0x12345678 :=
  ⟨by decide, by decide, by decide,
    div_rem_by_zero (cpu_x5_x6 0x12345678 0) rec_x7_x5_x6 (by decide) (by decide) (by decide),
    by decide, by decide⟩

/-- Claim C2: signed overflow.  With x5 = 0x80000000 and x6 = 0xFFFFFFFF the
handlers DIV x7, x5, x6 and REM x7, x5, x6 do not take the overflow arm: they
reach the host `/` and `%`, which have no result on these operands, so no
value is written to x7 and pc is not advanced. -/
theorem div_rem_signed_overflow_no_result :
    div (cpu_x5_x6 0x80000000 0xFFFFFFFF) rec_x7_x5_x6 = none ∧
    rem (cpu_x5_x6 0x80000000 0xFFFFFFFF) rec_x7_x5_x6 = none :=
  ⟨rfl, rfl⟩

/-- Claim C3: arithmetic exceptions.  The zero divisor is diverted, but the
overflowing pair (-2^31, -1), which is what the registers 0x80000000 and
0xFFFFFFFF read as, selects the host arm, where `a / b` and `a % b` have no
result. -/
theorem overflow_pair_selects_host :
    to_int32 0x80000000 = -0x80000000 ∧ to_int32 0xFFFFFFFF = -1 ∧
    divrem_select (to_int32 0x80000000) (to_int32 0xFFFFFFFF) = divrem_arm.host ∧
    div_result (to_int32 0x80000000) (to_int32 0xFFFFFFFF) = none ∧
    rem_result (to_int32 0x80000000) (to_int32 0xFFFFFFFF) = none := by
  decide

theorem div_rem_host_values (c : rv32i_cpu Mem) (d : rv32i_decode_t) (a b : Int)
    (ha : a = to_int32 (c.state.x d.rs1)) (hb : b = to_int32 (c.state.x d.rs2))
    (hrd : d.rd ≠ 0) (hb0 : b ≠ 0) (hov : ¬ (a = -0x80000000 ∧ b = -1)) :
    div c d = some (increment_pc (c.set_x d.rd (to_uint32 (spec_trunc_quot a b)))) ∧
    rem c d = some (increment_pc (c.set_x d.rd (to_uint32 (a - b * spec_trunc_quot a b)))) ∧
    to_int32 (to_uint32 (spec_trunc_quot a b)) = spec_trunc_quot a b ∧
    to_int32 (to_uint32 (a - b * spec_trunc_quot a b)) = a - b * spec_trunc_quot a b ∧
    (a - b * spec_trunc_quot a b = 0 ∨
      (0 < a - b * spec_trunc_quot a b ∧ 0 < a) ∨ (a - b * spec_trunc_quot a b < 0 ∧ a < 0)) ∧
    |a - b * spec_trunc_quot a b| < |b| := by
  have hra : -0x80000000 ≤ a ∧ a < 0x80000000 := by rw [ha]; exact to_int32_range _
  have hrb : -0x80000000 ≤ b ∧ b < 0x80000000 := by rw [hb]; exact to_int32_range _
  have hfit := tdiv_fits_int32 a b hra.1 hra.2 hb0 hov
  have hq : Int.tdiv a b = spec_trunc_quot a b := tdiv_eq_spec_trunc_quot a b
  have hr : Int.tmod a b = a - b * spec_trunc_quot a b := by rw [Int.tmod_def, hq]
  obtain ⟨habs, hpos, hneg⟩ := tmod_sign_bound a b hb0
  have hd : div_result a b = some (Int.tdiv a b) := by
    rw [div_result_host a b hra.2 hb0]
    unfold host_sdiv32
    rw [if_neg hb0, if_pos hfit]
  have hm : rem_result a b = some (Int.tmod a b) := by
    rw [rem_result_host a b hra.2 hb0]
    unfold host_srem32
    rw [if_neg hb0, if_pos hfit]
  have hrange : -0x80000000 ≤ Int.tmod a b ∧ Int.tmod a b < 0x80000000 := by
    have h1 := abs_lt.mp habs
    have h2 : |b| ≤ 0x80000000 := abs_le.mpr ⟨by omega, by omega⟩
    constructor <;> omega
  rw [hq] at hfit hd
  rw [hr] at habs hpos hneg hm hrange
  refine ⟨?_, ?_, to_int32_to_uint32 _ hfit.1 hfit.2,
    to_int32_to_uint32 _ hrange.1 hrange.2, ?_, habs⟩
  · rw [div_of_rd c d hrd, ← ha, ← hb, hd, Option.map_some']
  · rw [rem_of_rd c d hrd, ← ha, ← hb, hm, Option.map_some']
  · rcases lt_trichotomy a 0 with h | h | h
    · have := hneg (le_of_lt h)
      omega
    · have h1 := hneg (le_of_eq h)
      have h2 := hpos (le_of_eq h.symm)
      omega
    · have := hpos (le_of_lt h)
      omega

/-- Claim C4: general signed division.  With a and b the registers x[rs1] and x[rs2]
read as two's-complement 32-bit integers, b ≠ 0, (a, b) ≠ (-2^31, -1) and
rd ≠ 0, DIV writes the quotient of a by b rounded toward zero and REM writes
a - b * trunc(a / b); both fit 32 bits, the remainder is zero or has the sign
of the dividend, and its magnitude is below that of the divisor. -/
theorem div_rem_general (c : rv32i_cpu Mem) (d : rv32i_decode_t) (a b : Int)
    (ha : a = to_int32 (c.state.x d.rs1)) (hb : b = to_int32 (c.state.x d.rs2))
    (hrd : d.rd ≠ 0) (hb0 : b ≠ 0) (hov : ¬ (a = -0x80000000 ∧ b = -1)) :
    div c d = some (increment_pc (c.set_x d.rd (to_uint32 (spec_trunc_quot a b)))) ∧
    rem c d = some (increment_pc (c.set_x d.rd (to_uint32 (a - b * spec_trunc_quot a b)))) ∧
    to_int32 (to_uint32 (spec_trunc_quot a b)) = spec_trunc_quot a b ∧
    to_int32 (to_uint32 (a - b * spec_trunc_quot a b)) = a - b * spec_trunc_quot a b ∧
    (a - b * spec_trunc_quot a b = 0 ∨
      (0 < a - b * spec_trunc_quot a b ∧ 0 < a) ∨ (a - b * spec_trunc_quot a b < 0 ∧ a < 0)) ∧
    |a - b * spec_trunc_quot a b| < |b| ∧
    (div c d).map (fun c1 => c1.state.x d.rd) = some (to_uint32 (spec_trunc_quot a b)) ∧
    (rem c d).map (fun c1 => c1.state.x d.rd)
      = some (to_uint32 (a - b * spec_trunc_quot a b)) ∧
    (div c d).map (fun c1 => to_int32 (c1.state.x d.rd)) = some (spec_trunc_quot a b) ∧
    (rem c d).map (fun c1 => to_int32 (c1.state.x d.rd))
      = some (a - b * spec_trunc_quot a b) := by
  have hwr : ∀ v, (increment_pc (c.set_x d.rd v)).state.x d.rd = v := fun v => by
    show (if d.rd = d.rd then v else c.state.x d.rd) = v
    rw [if_pos rfl]
  obtain ⟨e1, e2, e3, e4, e5, e6⟩ := div_rem_host_values c d a b ha hb hrd hb0 hov
  refine ⟨e1, e2, e3, e4, e5, e6, ?_, ?_, ?_, ?_⟩
  · rw [e1, Option.map_some', hwr]
  · rw [e2, Option.map_some', hwr]
  · rw [e1, Option.map_some', hwr, e3]
  · rw [e2, Option.map_some', hwr, e4]

/-- Instance of `div_rem_general` at x5 = 0xFFFFFFF9 (-7), x6 = 2 and the
record of `op x7, x5, x6`: the quotient is -3 and the remainder -1. -/
theorem div_rem_general_witness :
    (-7 : Int) = to_int32 ((cpu_x5_x6 0xFFFFFFF9 2).state.x rec_x7_x5_x6.rs1) ∧
    (2 : Int) = to_int32 ((cpu_x5_x6 0xFFFFFFF9 2).state.x rec_x7_x5_x6.rs2) ∧
    rec_x7_x5_x6.rd ≠ 0 ∧ (2 : Int) ≠ 0 ∧ ¬ ((-7 : Int) = -0x80000000 ∧ (2 : Int) = -1) ∧
    spec_trunc_quot (-7) 2 = -3 ∧
    (div (cpu_x5_x6 0xFFFFFFF9 2) rec_x7_x5_x6 =
        some (increment_pc ((cpu_x5_x6 0xFFFFFFF9 2).set_x rec_x7_x5_x6.rd
          (to_uint32 (spec_trunc_quot (-7) 2)))) ∧
      rem (cpu_x5_x6 0xFFFFFFF9 2) rec_x7_x5_x6 =
        some (increment_pc ((cpu_x5_x6 0xFFFFFFF9 2).set_x rec_x7_x5_x6.rd
          (to_uint32 (-7 - 2 * spec_trunc_quot (-7) 2)))) ∧
      to_int32 (to_uint32 (spec_trunc_quot (-7) 2)) = spec_trunc_quot (-7) 2 ∧
      to_int32 (to_uint32 (-7 - 2 * spec_trunc_quot (-7) 2)) = -7 - 2 * spec_trunc_quot (-7) 2 ∧
      (-7 - 2 * spec_trunc_quot (-7) 2 = 0 ∨
        (0 < -7 - 2 * spec_trunc_quot (-7) 2 ∧ (0 : Int) < -7) ∨
        (-7 - 2 * spec_trunc_quot (-7) 2 < 0 ∧ (-7 : Int) < 0)) ∧
      |(-7 : Int) - 2 * spec_trunc_quot (-7) 2| < |(2 : Int)| ∧
      (div (cpu_x5_x6 0xFFFFFFF9 2) rec_x7_x5_x6).map (fun c1 => c1.state.x rec_x7_x5_x6.rd)
        = some (to_uint32 (spec_trunc_quot (-7) 2)) ∧
      (rem (cpu_x5_x6 0xFFFFFFF9 2) rec_x7_x5_x6).map (fun c1 => c1.state.x rec_x7_x5_x6.rd)
        = some (to_uint32 (-7 - 2 * spec_trunc_quot (-7) 2)) ∧
      (div (cpu_x5_x6 0xFFFFFFF9 2) rec_x7_x5_x6).map
          (fun c1 => to_int32 (c1.state.x rec_x7_x5_x6.rd))
        = some (spec_trunc_quot (-7) 2) ∧
      (rem (cpu_x5_x6 0xFFFFFFF9 2) rec_x7_x5_x6).map
          (fun c1 => to_int32 (c1.state.x rec_x7_x5_x6.rd))
        = some (-7 - 2 * spec_trunc_quot (-7) 2)) ∧
    (div (cpu_x5_x6 0xFFFFFFF9 2) rec_x7_x5_x6).map (fun c1 => c1.state.x 7)
      = some 0xFFFFFFFD ∧
    (rem (cpu_x5_x6 0xFFFFFFF9 2) rec_x7_x5_x6).map (fun c1 => c1.state.x 7)
      = some 0xFFFFFFFF :=
  ⟨by decide, by decide, by decide, by decide, by decide, by decide,
    div_rem_general (cpu_x5_x6 0xFFFFFFF9 2) rec_x7_x5_x6 (-7) 2
      (by decide) (by decide) (by decide) (by decide) (by decide),
    by decide, by decide⟩

/-! ## Multiplication -/

theorem to_uint32_natCast (n : Nat) : to_uint32 (n : Int) = n % 0x100000000 := by
  unfold to_uint32; omega

theorem high_word_of_shift (p : Int) :
    to_uint32 ((to_uint64 (p >>> (32 : Nat)) &&& 0xffffffff : Nat) : Int) = bits_63_32 p := by
  rw [land_mask32, to_uint32_natCast, Int.shiftRight_eq_div_pow]
  unfold bits_63_32 to_uint64
  norm_num
  omega

theorem mul_of_rd (c : rv32i_cpu Mem) (d : rv32i_decode_t) (hrd : d.rd ≠ 0) :
    mul c d = increment_pc (c.set_x d.rd (to_uint32
      ((to_uint64 (mul_product (c.state.x d.rs1) (c.state.x d.rs2)) &&& 0xffffffff : Nat) : Int))) := by
  unfold mul
  rw [if_pos hrd]

theorem mulh_of_rd (c : rv32i_cpu Mem) (d : rv32i_decode_t) (hrd : d.rd ≠ 0) :
    mulh c d = increment_pc (c.set_x d.rd (to_uint32
      ((to_uint64 (mulh_product (c.state.x d.rs1) (c.state.x d.rs2) >>> (32 : Nat)) &&& 0xffffffff : Nat)
        : Int))) := by
  unfold mulh
  rw [if_pos hrd]

theorem mulhsu_of_rd (c : rv32i_cpu Mem) (d : rv32i_decode_t) (hrd : d.rd ≠ 0) :
    mulhsu c d = increment_pc (c.set_x d.rd (to_uint32
      ((to_uint64 (mulhsu_product (c.state.x d.rs1) (c.state.x d.rs2) >>> (32 : Nat)) &&& 0xffffffff : Nat)
        : Int))) := by
  unfold mulhsu
  rw [if_pos hrd]

theorem mulhu_of_rd (c : rv32i_cpu Mem) (d : rv32i_decode_t) (hrd : d.rd ≠ 0) :
    mulhu c d = increment_pc (c.set_x d.rd (to_uint32
      (((mulhu_product (c.state.x d.rs1) (c.state.x d.rs2) >>> 32) &&& 0xffffffff : Nat)
        : Int))) := by
  unfold mulhu
  rw [if_pos hrd]

theorem mul_product_modEq (x1 x2 : Nat) :
    mul_product x1 x2 ≡ (x1 : Int) * (x2 : Int) [ZMOD 0x10000000000000000] := by
  unfold mul_product
  exact (to_int64_modEq _).trans ((to_int64_modEq _).mul (to_int64_modEq _))

theorem mul_value (x1 x2 : Nat) :
    to_uint32 ((to_uint64 (mul_product x1 x2) &&& 0xffffffff : Nat) : Int)
      = (x1 * x2) % 0x100000000 := by
  rw [land_mask32, to_uint32_natCast, Nat.mod_mod]
  have h1 : ((to_uint64 (mul_product x1 x2) : Nat) : Int) ≡ ((x1 * x2 : Nat) : Int)
      [ZMOD 0x100000000] := by
    push_cast
    exact modEq_64_32 ((to_uint64_modEq _).trans (mul_product_modEq x1 x2))
  unfold Int.ModEq at h1
  omega

theorem mulh_product_exact (x1 x2 : Nat) :
    mulh_product x1 x2 = to_int32 x1 * to_int32 x2 ∧
    -0x8000000000000000 ≤ to_int32 x1 * to_int32 x2 ∧
    to_int32 x1 * to_int32 x2 < 0x8000000000000000 := by
  have h1 := to_int32_range x1
  have h2 := to_int32_range x2
  have hr := mul_range_s32_s32 _ _ h1.1 h1.2 h2.1 h2.2
  refine ⟨?_, hr⟩
  unfold mulh_product
  exact to_int64_eq_of_modEq ((to_int64_modEq _).mul (to_int64_modEq _)) hr.1 hr.2

theorem mulhsu_product_exact (x1 x2 : Nat) (h2 : x2 < 0x100000000) :
    mulhsu_product x1 x2 = to_int32 x1 * (x2 : Int) ∧
    -0x8000000000000000 ≤ to_int32 x1 * (x2 : Int) ∧
    to_int32 x1 * (x2 : Int) < 0x8000000000000000 := by
  have h1 := to_int32_range x1
  have hr := mul_range_s32_u32 _ (x2 : Int) h1.1 h1.2 (by omega) (by omega)
  refine ⟨?_, hr⟩
  unfold mulhsu_product
  refine to_int64_eq_of_modEq ?_ hr.1 hr.2
  refine (to_uint64_modEq _).trans ?_
  refine Int.ModEq.mul ((to_uint64_modEq _).trans (to_int64_modEq _)) ?_
  exact to_uint64_modEq _

theorem mulhu_product_eq (x1 x2 : Nat) :
    mulhu_product x1 x2 = to_uint64 ((x1 : Int) * (x2 : Int)) := by
  unfold mulhu_product
  exact to_uint64_congr ((to_uint64_modEq _).mul (to_uint64_modEq _))

theorem mulhu_value (x1 x2 : Nat) :
    to_uint32 (((mulhu_product x1 x2 >>> 32) &&& 0xffffffff : Nat) : Int)
      = bits_63_32 ((x1 : Int) * (x2 : Int)) := by
  rw [land_mask32, to_uint32_natCast, Nat.mod_mod, mulhu_product_eq, Nat.shiftRight_eq_div_pow]
  unfold bits_63_32
  norm_num

/-- Claim C5: MUL.  For every pair of register values a = x[rs1], b = x[rs2] and
rd ≠ 0, MUL writes (a * b) mod 2^32 to x[rd]; this is the low word of the
64-bit product of the operands read as unsigned and also of the operands read
as signed 32-bit integers. -/
theorem mul_low_word (c : rv32i_cpu Mem) (d : rv32i_decode_t) (hrd : d.rd ≠ 0) :
    mul c d = increment_pc (c.set_x d.rd ((c.state.x d.rs1 * c.state.x d.rs2) % 0x100000000)) ∧
    (c.state.x d.rs1 * c.state.x d.rs2) % 0x100000000
      = to_uint64 ((c.state.x d.rs1 : Int) * (c.state.x d.rs2 : Int)) % 0x100000000 ∧
    (c.state.x d.rs1 * c.state.x d.rs2) % 0x100000000
      = to_uint64 (to_int32 (c.state.x d.rs1) * to_int32 (c.state.x d.rs2)) % 0x100000000 ∧
    (mul c d).state.x d.rd = (c.state.x d.rs1 * c.state.x d.rs2) % 0x100000000 := by
  have hwr : ∀ v, (increment_pc (c.set_x d.rd v)).state.x d.rd = v := fun v => by
    show (if d.rd = d.rd then v else c.state.x d.rd) = v
    rw [if_pos rfl]
  have e1 : mul c d
      = increment_pc (c.set_x d.rd ((c.state.x d.rs1 * c.state.x d.rs2) % 0x100000000)) := by
    rw [mul_of_rd c d hrd, mul_value]
  refine ⟨e1, ?_, ?_, by rw [e1, hwr]⟩
  · have h := modEq_64_32 (to_uint64_modEq ((c.state.x d.rs1 : Int) * (c.state.x d.rs2 : Int)))
    unfold Int.ModEq at h
    have h' : (((c.state.x d.rs1 * c.state.x d.rs2 : Nat) : Int)) =
        (c.state.x d.rs1 : Int) * (c.state.x d.rs2 : Int) := by push_cast; rfl
    omega
  · have h := modEq_64_32 (to_uint64_modEq
      (to_int32 (c.state.x d.rs1) * to_int32 (c.state.x d.rs2)))
    have h2 : to_int32 (c.state.x d.rs1) * to_int32 (c.state.x d.rs2) ≡
        (c.state.x d.rs1 : Int) * (c.state.x d.rs2 : Int) [ZMOD 0x100000000] :=
      (to_int32_modEq _).mul (to_int32_modEq _)
    have h3 := h.trans h2
    unfold Int.ModEq at h3
    have h' : (((c.state.x d.rs1 * c.state.x d.rs2 : Nat) : Int)) =
        (c.state.x d.rs1 : Int) * (c.state.x d.rs2 : Int) := by push_cast; rfl
    omega

/-- Instance of `mul_low_word` at x5 = 0x80000000, x6 = 0xFFFFFFFF and the
record of `mul x7, x5, x6`. -/
theorem mul_low_word_witness :
    rec_x7_x5_x6.rd ≠ 0 ∧
    (mul (cpu_x5_x6 0x80000000 0xFFFFFFFF) rec_x7_x5_x6 =
        increment_pc ((cpu_x5_x6 0x80000000 0xFFFFFFFF).set_x rec_x7_x5_x6.rd
          (((cpu_x5_x6 0x80000000 0xFFFFFFFF).state.x rec_x7_x5_x6.rs1 *
            (cpu_x5_x6 0x80000000 0xFFFFFFFF).state.x rec_x7_x5_x6.rs2) % 0x100000000)) ∧
      ((cpu_x5_x6 0x80000000 0xFFFFFFFF).state.x rec_x7_x5_x6.rs1 *
          (cpu_x5_x6 0x80000000 0xFFFFFFFF).state.x rec_x7_x5_x6.rs2) % 0x100000000
        = to_uint64 (((cpu_x5_x6 0x80000000 0xFFFFFFFF).state.x rec_x7_x5_x6.rs1 : Int) *
            ((cpu_x5_x6 0x80000000 0xFFFFFFFF).state.x rec_x7_x5_x6.rs2 : Int)) % 0x100000000 ∧
      ((cpu_x5_x6 0x80000000 0xFFFFFFFF).state.x rec_x7_x5_x6.rs1 *
          (cpu_x5_x6 0x80000000 0xFFFFFFFF).state.x rec_x7_x5_x6.rs2) % 0x100000000
        = to_uint64 (to_int32 ((cpu_x5_x6 0x80000000 0xFFFFFFFF).state.x rec_x7_x5_x6.rs1) *
            to_int32 ((cpu_x5_x6 0x80000000 0xFFFFFFFF).state.x rec_x7_x5_x6.rs2))
          % 0x100000000 ∧
      (mul (cpu_x5_x6 0x80000000 0xFFFFFFFF) rec_x7_x5_x6).state.x rec_x7_x5_x6.rd
        = ((cpu_x5_x6 0x80000000 0xFFFFFFFF).state.x rec_x7_x5_x6.rs1 *
            (cpu_x5_x6 0x80000000 0xFFFFFFFF).state.x rec_x7_x5_x6.rs2) % 0x100000000) ∧
    (mul (cpu_x5_x6 0x80000000 0xFFFFFFFF) rec_x7_x5_x6).state.x 7 = 0x80000000 :=
  ⟨by decide, mul_low_word (cpu_x5_x6 0x80000000 0xFFFFFFFF) rec_x7_x5_x6 (by decide),
    by decide⟩

/-- Claim C6: MULH and MULHU.  For every pair of register values and rd ≠ 0, MULH
writes bits 63:32 of the exact product of the operands read as signed 32-bit
integers (the product fits 64 bits), and MULHU writes bits 63:32 of the exact
product of the operands read as unsigned integers. -/
theorem mulh_mulhu_high_word (c : rv32i_cpu Mem) (d : rv32i_decode_t) (hrd : d.rd ≠ 0) :
    mulh c d = increment_pc (c.set_x d.rd
      (bits_63_32 (to_int32 (c.state.x d.rs1) * to_int32 (c.state.x d.rs2)))) ∧
    (-0x8000000000000000 ≤ to_int32 (c.state.x d.rs1) * to_int32 (c.state.x d.rs2) ∧
      to_int32 (c.state.x d.rs1) * to_int32 (c.state.x d.rs2) < 0x8000000000000000) ∧
    mulhu c d = increment_pc (c.set_x d.rd
      (bits_63_32 ((c.state.x d.rs1 : Int) * (c.state.x d.rs2 : Int)))) ∧
    (mulh c d).state.x d.rd
      = bits_63_32 (to_int32 (c.state.x d.rs1) * to_int32 (c.state.x d.rs2)) ∧
    (mulhu c d).state.x d.rd
      = bits_63_32 ((c.state.x d.rs1 : Int) * (c.state.x d.rs2 : Int)) := by
  have hwr : ∀ v, (increment_pc (c.set_x d.rd v)).state.x d.rd = v := fun v => by
    show (if d.rd = d.rd then v else c.state.x d.rd) = v
    rw [if_pos rfl]
  have h := mulh_product_exact (c.state.x d.rs1) (c.state.x d.rs2)
  have e1 : mulh c d = increment_pc (c.set_x d.rd
      (bits_63_32 (to_int32 (c.state.x d.rs1) * to_int32 (c.state.x d.rs2)))) := by
    rw [mulh_of_rd c d hrd, high_word_of_shift, h.1]
  have e2 : mulhu c d = increment_pc (c.set_x d.rd
      (bits_63_32 ((c.state.x d.rs1 : Int) * (c.state.x d.rs2 : Int)))) := by
    rw [mulhu_of_rd c d hrd, mulhu_value]
  exact ⟨e1, h.2, e2, by rw [e1, hwr], by rw [e2, hwr]⟩

/-- Instance of `mulh_mulhu_high_word` at x5 = x6 = 0xFFFFFFFF and the record
of `op x7, x5, x6`: MULH gives 0x00000000 and MULHU gives 0xFFFFFFFE. -/
theorem mulh_mulhu_high_word_witness :
    rec_x7_x5_x6.rd ≠ 0 ∧
    bits_63_32 (to_int32 (0xFFFFFFFF : Nat) * to_int32 (0xFFFFFFFF : Nat)) = 0x00000000 ∧
    bits_63_32 (((0xFFFFFFFF : Nat) : Int) * ((0xFFFFFFFF : Nat) : Int)) = 0xFFFFFFFE ∧
    (mulh (cpu_x5_x6 0xFFFFFFFF 0xFFFFFFFF) rec_x7_x5_x6 =
        increment_pc ((cpu_x5_x6 0xFFFFFFFF 0xFFFFFFFF).set_x rec_x7_x5_x6.rd
          (bits_63_32 (to_int32 ((cpu_x5_x6 0xFFFFFFFF 0xFFFFFFFF).state.x rec_x7_x5_x6.rs1) *
            to_int32 ((cpu_x5_x6 0xFFFFFFFF 0xFFFFFFFF).state.x rec_x7_x5_x6.rs2)))) ∧
      (-0x8000000000000000 ≤
          to_int32 ((cpu_x5_x6 0xFFFFFFFF 0xFFFFFFFF).state.x rec_x7_x5_x6.rs1) *
            to_int32 ((cpu_x5_x6 0xFFFFFFFF 0xFFFFFFFF).state.x rec_x7_x5_x6.rs2) ∧
        to_int32 ((cpu_x5_x6 0xFFFFFFFF 0xFFFFFFFF).state.x rec_x7_x5_x6.rs1) *
            to_int32 ((cpu_x5_x6 0xFFFFFFFF 0xFFFFFFFF).state.x rec_x7_x5_x6.rs2)
          < 0x8000000000000000) ∧
      mulhu (cpu_x5_x6 0xFFFFFFFF 0xFFFFFFFF) rec_x7_x5_x6 =
        increment_pc ((cpu_x5_x6 0xFFFFFFFF 0xFFFFFFFF).set_x rec_x7_x5_x6.rd
          (bits_63_32 (((cpu_x5_x6 0xFFFFFFFF 0xFFFFFFFF).state.x rec_x7_x5_x6.rs1 : Int) *
            ((cpu_x5_x6 0xFFFFFFFF 0xFFFFFFFF).state.x rec_x7_x5_x6.rs2 : Int)))) ∧
      (mulh (cpu_x5_x6 0xFFFFFFFF 0xFFFFFFFF) rec_x7_x5_x6).state.x rec_x7_x5_x6.rd
        = bits_63_32 (to_int32 ((cpu_x5_x6 0xFFFFFFFF 0xFFFFFFFF).state.x rec_x7_x5_x6.rs1) *
            to_int32 ((cpu_x5_x6 0xFFFFFFFF 0xFFFFFFFF).state.x rec_x7_x5_x6.rs2)) ∧
      (mulhu (cpu_x5_x6 0xFFFFFFFF 0xFFFFFFFF) rec_x7_x5_x6).state.x rec_x7_x5_x6.rd
        = bits_63_32 (((cpu_x5_x6 0xFFFFFFFF 0xFFFFFFFF).state.x rec_x7_x5_x6.rs1 : Int) *
            ((cpu_x5_x6 0xFFFFFFFF 0xFFFFFFFF).state.x rec_x7_x5_x6.rs2 : Int))) ∧
    (mulh (cpu_x5_x6 0xFFFFFFFF 0xFFFFFFFF) rec_x7_x5_x6).state.x 7 = 0x00000000 ∧
    (mulhu (cpu_x5_x6 0xFFFFFFFF 0xFFFFFFFF) rec_x7_x5_x6).state.x 7 = 0xFFFFFFFE :=
  ⟨by decide, by decide, by decide,
    mulh_mulhu_high_word (cpu_x5_x6 0xFFFFFFFF 0xFFFFFFFF) rec_x7_x5_x6 (by decide),
    by decide, by decide⟩

/-- Claim C7: MULHSU.  For every hart state with `uint32_t` registers and rd ≠ 0,
the 64-bit `product` computed by the handler (signed operand converted to
unsigned 64-bit, multiplied modulo 2^64, reinterpreted as signed) is the exact
product of x[rs1] read as a signed and x[rs2] read as an unsigned 32-bit
integer, which fits 64 bits, and MULHSU writes its bits 63:32 to x[rd]. -/
theorem mulhsu_high_word (c : rv32i_cpu Mem) (d : rv32i_decode_t) (hrd : d.rd ≠ 0)
    (hx : x_in_range c) :
    mulhsu_product (c.state.x d.rs1) (c.state.x d.rs2)
      = to_int32 (c.state.x d.rs1) * (c.state.x d.rs2 : Int) ∧
    (-0x8000000000000000 ≤ to_int32 (c.state.x d.rs1) * (c.state.x d.rs2 : Int) ∧
      to_int32 (c.state.x d.rs1) * (c.state.x d.rs2 : Int) < 0x8000000000000000) ∧
    mulhsu c d = increment_pc (c.set_x d.rd
      (bits_63_32 (to_int32 (c.state.x d.rs1) * (c.state.x d.rs2 : Int)))) ∧
    (mulhsu c d).state.x d.rd
      = bits_63_32 (to_int32 (c.state.x d.rs1) * (c.state.x d.rs2 : Int)) := by
  have hwr : ∀ v, (increment_pc (c.set_x d.rd v)).state.x d.rd = v := fun v => by
    show (if d.rd = d.rd then v else c.state.x d.rd) = v
    rw [if_pos rfl]
  have h := mulhsu_product_exact (c.state.x d.rs1) (c.state.x d.rs2) (hx d.rs2)
  have e1 : mulhsu c d = increment_pc (c.set_x d.rd
      (bits_63_32 (to_int32 (c.state.x d.rs1) * (c.state.x d.rs2 : Int)))) := by
    rw [mulhsu_of_rd c d hrd, high_word_of_shift, h.1]
  exact ⟨h.1, h.2, e1, by rw [e1, hwr]⟩

/-- Instance of `mulhsu_high_word` at x5 = 0x80000000 (-2^31), x6 = 0xFFFFFFFF
and the record of `mulhsu x7, x5, x6`: the high word is 0x80000000. -/
theorem mulhsu_high_word_witness :
    rec_x7_x5_x6.rd ≠ 0 ∧ x_in_range (cpu_x5_x6 0x80000000 0xFFFFFFFF) ∧
    bits_63_32 (to_int32 (0x80000000 : Nat) * ((0xFFFFFFFF : Nat) : Int)) = 0x80000000 ∧
    (mulhsu_product ((cpu_x5_x6 0x80000000 0xFFFFFFFF).state.x rec_x7_x5_x6.rs1)
          ((cpu_x5_x6 0x80000000 0xFFFFFFFF).state.x rec_x7_x5_x6.rs2)
        = to_int32 ((cpu_x5_x6 0x80000000 0xFFFFFFFF).state.x rec_x7_x5_x6.rs1) *
            ((cpu_x5_x6 0x80000000 0xFFFFFFFF).state.x rec_x7_x5_x6.rs2 : Int) ∧
      (-0x8000000000000000 ≤
          to_int32 ((cpu_x5_x6 0x80000000 0xFFFFFFFF).state.x rec_x7_x5_x6.rs1) *
            ((cpu_x5_x6 0x80000000 0xFFFFFFFF).state.x rec_x7_x5_x6.rs2 : Int) ∧
        to_int32 ((cpu_x5_x6 0x80000000 0xFFFFFFFF).state.x rec_x7_x5_x6.rs1) *
            ((cpu_x5_x6 0x80000000 0xFFFFFFFF).state.x rec_x7_x5_x6.rs2 : Int)
          < 0x8000000000000000) ∧
      mulhsu (cpu_x5_x6 0x80000000 0xFFFFFFFF) rec_x7_x5_x6 =
        increment_pc ((cpu_x5_x6 0x80000000 0xFFFFFFFF).set_x rec_x7_x5_x6.rd
          (bits_63_32 (to_int32 ((cpu_x5_x6 0x80000000 0xFFFFFFFF).state.x rec_x7_x5_x6.rs1) *
            ((cpu_x5_x6 0x80000000 0xFFFFFFFF).state.x rec_x7_x5_x6.rs2 : Int)))) ∧
      (mulhsu (cpu_x5_x6 0x80000000 0xFFFFFFFF) rec_x7_x5_x6).state.x rec_x7_x5_x6.rd
        = bits_63_32 (to_int32 ((cpu_x5_x6 0x80000000 0xFFFFFFFF).state.x rec_x7_x5_x6.rs1) *
            ((cpu_x5_x6 0x80000000 0xFFFFFFFF).state.x rec_x7_x5_x6.rs2 : Int))) ∧
    (mulhsu (cpu_x5_x6 0x80000000 0xFFFFFFFF) rec_x7_x5_x6).state.x 7 = 0x80000000 :=
  ⟨by decide, by decide, by decide,
    mulhsu_high_word (cpu_x5_x6 0x80000000 0xFFFFFFFF) rec_x7_x5_x6 (by decide) (by decide),
    by decide⟩

/-! ## Shape of the post-state -/

theorem m_total_shape (h : rv32i_cpu Mem → rv32i_decode_t → rv32i_cpu Mem)
    (hh : h ∈ m_total_handlers) (c : rv32i_cpu Mem) (d : rv32i_decode_t) :
    rd_write_shape c (h c d) d := by
  unfold rd_write_shape
  by_cases hrd : d.rd = 0
  · left
    refine ⟨hrd, ?_⟩
    simp only [m_total_handlers, List.mem_cons, List.mem_singleton, List.not_mem_nil,
      or_false] at hh
    rcases hh with rfl | rfl | rfl | rfl | rfl | rfl
    · unfold mul; rw [if_neg (not_not.mpr hrd)]
    · unfold mulh; rw [if_neg (not_not.mpr hrd)]
    · unfold mulhsu; rw [if_neg (not_not.mpr hrd)]
    · unfold mulhu; rw [if_neg (not_not.mpr hrd)]
    · unfold divu; rw [if_neg (not_not.mpr hrd)]
    · unfold remu; rw [if_neg (not_not.mpr hrd)]
  · right
    refine ⟨hrd, ?_⟩
    simp only [m_total_handlers, List.mem_cons, List.mem_singleton, List.not_mem_nil,
      or_false] at hh
    rcases hh with rfl | rfl | rfl | rfl | rfl | rfl
    · exact ⟨_, mul_of_rd c d hrd⟩
    · exact ⟨_, mulh_of_rd c d hrd⟩
    · exact ⟨_, mulhsu_of_rd c d hrd⟩
    · exact ⟨_, mulhu_of_rd c d hrd⟩
    · exact ⟨_, divu_of_rd c d hrd⟩
    · exact ⟨_, remu_of_rd c d hrd⟩

theorem div_of_rd_zero (c : rv32i_cpu Mem) (d : rv32i_decode_t) (hrd : d.rd = 0) :
    div c d = some (increment_pc c) := by
  unfold div; rw [if_neg (not_not.mpr hrd)]

theorem rem_of_rd_zero (c : rv32i_cpu Mem) (d : rv32i_decode_t) (hrd : d.rd = 0) :
    rem c d = some (increment_pc c) := by
  unfold rem; rw [if_neg (not_not.mpr hrd)]

theorem m_host_shape (h : rv32i_cpu Mem → rv32i_decode_t → Option (rv32i_cpu Mem))
    (hh : h ∈ m_host_handlers) (c : rv32i_cpu Mem) (d : rv32i_decode_t)
    (c1 : rv32i_cpu Mem) (hc : h c d = some c1) : rd_write_shape c c1 d := by
  unfold rd_write_shape
  simp only [m_host_handlers, List.mem_cons, List.mem_singleton, List.not_mem_nil,
    or_false] at hh
  by_cases hrd : d.rd = 0
  · left
    refine ⟨hrd, ?_⟩
    rcases hh with rfl | rfl
    · rw [div_of_rd_zero c d hrd] at hc; exact (Option.some.inj hc).symm
    · rw [rem_of_rd_zero c d hrd] at hc; exact (Option.some.inj hc).symm
  · right
    refine ⟨hrd, ?_⟩
    rcases hh with rfl | rfl
    · rw [div_of_rd c d hrd] at hc
      obtain ⟨r, _, hr⟩ := Option.map_eq_some'.mp hc
      exact ⟨_, hr.symm⟩
    · rw [rem_of_rd c d hrd] at hc
      obtain ⟨r, _, hr⟩ := Option.map_eq_some'.mp hc
      exact ⟨_, hr.symm⟩

theorem m_host_defined (h : rv32i_cpu Mem → rv32i_decode_t → Option (rv32i_cpu Mem))
    (hh : h ∈ m_host_handlers) (c : rv32i_cpu Mem) (d : rv32i_decode_t) :
    h c d = none ↔ signed_overflow_operands c d := by
  unfold signed_overflow_operands
  simp only [m_host_handlers, List.mem_cons, List.mem_singleton, List.not_mem_nil,
    or_false] at hh
  have hra := to_int32_range (c.state.x d.rs1)
  by_cases hrd : d.rd = 0
  · rcases hh with rfl | rfl
    · rw [div_of_rd_zero c d hrd]
      exact ⟨fun h => (by cases h), fun h => absurd hrd h.1⟩
    · rw [rem_of_rd_zero c d hrd]
      exact ⟨fun h => (by cases h), fun h => absurd hrd h.1⟩
  · by_cases hb : to_int32 (c.state.x d.rs2) = 0
    · rcases hh with rfl | rfl
      · rw [div_of_rd c d hrd, hb, div_result_zero, Option.map_some']
        exact ⟨fun h => (by cases h), fun h => by omega⟩
      · rw [rem_of_rd c d hrd, hb, rem_result_zero, Option.map_some']
        exact ⟨fun h => (by cases h), fun h => by omega⟩
    · by_cases hov : to_int32 (c.state.x d.rs1) = -0x80000000 ∧ to_int32 (c.state.x d.rs2) = -1
      · have hd : div_result (-0x80000000) (-1) = none := by decide
        have hr : rem_result (-0x80000000) (-1) = none := by decide
        rcases hh with rfl | rfl
        · rw [div_of_rd c d hrd, hov.1, hov.2, hd, Option.map_none']
          exact ⟨fun _ => ⟨hrd, rfl, rfl⟩, fun _ => rfl⟩
        · rw [rem_of_rd c d hrd, hov.1, hov.2, hr, Option.map_none']
          exact ⟨fun _ => ⟨hrd, rfl, rfl⟩, fun _ => rfl⟩
      · have hg := div_rem_host_values c d _ _ rfl rfl hrd hb hov
        rcases hh with rfl | rfl
        · rw [hg.1]
          exact ⟨fun h => (by cases h), fun h => absurd ⟨h.2.1, h.2.2⟩ hov⟩
        · rw [hg.2.1]
          exact ⟨fun h => (by cases h), fun h => absurd ⟨h.2.1, h.2.2⟩ hov⟩

/-! ## Frame, x0 and pc -/

theorem frame_of_shape (c c1 : rv32i_cpu Mem) (d : rv32i_decode_t)
    (h : rd_write_shape c c1 d) : x_rd_frame c c1 d := by
  rcases h with ⟨hrd, rfl⟩ | ⟨hrd, v, rfl⟩
  · exact ⟨fun _ _ => rfl, fun _ => rfl, rfl, rfl⟩
  · refine ⟨fun i hi => ?_, fun h => absurd h hrd, rfl, rfl⟩
    show (if i = d.rd then v else c.state.x i) = c.state.x i
    rw [if_neg hi]

theorem pc_of_shape (c c1 : rv32i_cpu Mem) (d : rv32i_decode_t)
    (h : rd_write_shape c c1 d) : c1.state.pc = (c.state.pc + 4) % 0x100000000 := by
  rcases h with ⟨_, rfl⟩ | ⟨_, v, rfl⟩ <;> rfl

theorem x0_of_shape (c c1 : rv32i_cpu Mem) (d : rv32i_decode_t)
    (h : rd_write_shape c c1 d) : c1.state.x 0 = c.state.x 0 := by
  by_cases hrd : d.rd = 0
  · exact congrFun ((frame_of_shape c c1 d h).2.1 hrd) 0
  · exact (frame_of_shape c c1 d h).1 0 (fun h0 => hrd h0.symm)

theorem flw_x (M : mem_if Mem) (c : rv32i_cpu Mem) (d : rv32i_decode_t) :
    (flw M c d).state.x = c.state.x := by
  unfold flw
  dsimp only
  split_ifs <;> rfl

theorem fsw_x (M : mem_if Mem) (c : rv32i_cpu Mem) (d : rv32i_decode_t) :
    (fsw M c d).state.x = c.state.x := by
  unfold fsw
  dsimp only
  split_ifs <;> rfl

theorem fmadd_eq (h : rv32i_cpu Mem → rv32i_decode_t → rv32i_cpu Mem)
    (hh : h ∈ fmadd_handlers) (c : rv32i_cpu Mem) (d : rv32i_decode_t) :
    h c d = increment_pc c := by
  simp only [fmadd_handlers, List.mem_cons, List.mem_singleton, List.not_mem_nil,
    or_false] at hh
  rcases hh with rfl | rfl | rfl | rfl <;> rfl

theorem op_fp_eq (h : rv32i_cpu Mem → rv32i_decode_t → rv32i_cpu Mem)
    (hh : h ∈ op_fp_handlers) (c : rv32i_cpu Mem) (d : rv32i_decode_t) :
    h c d = increment_pc c := by
  simp only [op_fp_handlers, List.mem_cons, List.mem_singleton, List.not_mem_nil,
    or_false] at hh
  rcases hh with rfl | rfl | rfl | rfl | rfl | rfl | rfl | rfl | rfl | rfl | rfl | rfl |
    rfl | rfl | rfl | rfl | rfl | rfl <;> rfl

/-- Apart from DIV and REM on the signed-overflow operands, every M-extension
handler and every non-memory F-extension handler sets pc to (pc + 4) mod 2^32. -/
theorem pc_advance_where_defined (c : rv32i_cpu Mem) (d : rv32i_decode_t) :
    (∀ h ∈ m_total_handlers, (h c d).state.pc = (c.state.pc + 4) % 0x100000000) ∧
    (∀ h ∈ m_host_handlers,
      (h c d = none ↔ signed_overflow_operands c d) ∧
      ∀ c1, h c d = some c1 → c1.state.pc = (c.state.pc + 4) % 0x100000000) ∧
    (∀ h ∈ fmadd_handlers, (h c d).state.pc = (c.state.pc + 4) % 0x100000000) ∧
    (∀ h ∈ op_fp_handlers, (h c d).state.pc = (c.state.pc + 4) % 0x100000000) := by
  refine ⟨fun h hh => pc_of_shape c _ d (m_total_shape h hh c d),
    fun h hh => ⟨m_host_defined h hh c d,
      fun c1 hc => pc_of_shape c c1 d (m_host_shape h hh c d c1 hc)⟩,
    fun h hh => ?_, fun h hh => ?_⟩
  · rw [fmadd_eq h hh c d]; rfl
  · rw [op_fp_eq h hh c d]; rfl

/-- Claim C8: register-write frame of the M extension.  For each of MUL, MULH,
MULHSU, MULHU, DIVU, REMU, and for DIV and REM whenever they have a post-state
(they have one on all operands but the signed-overflow pair with rd ≠ 0), the
only integer register that can differ afterwards is x[rd]; with rd = 0 the
integer register file is unchanged; the f registers and the CSRs are
unchanged. -/
theorem m_extension_register_frame (c : rv32i_cpu Mem) (d : rv32i_decode_t) :
    (∀ h ∈ m_total_handlers, x_rd_frame c (h c d) d) ∧
    (∀ h ∈ m_host_handlers,
      (h c d = none ↔ signed_overflow_operands c d) ∧
      ∀ c1, h c d = some c1 → x_rd_frame c c1 d) :=
  ⟨fun h hh => frame_of_shape c _ d (m_total_shape h hh c d),
    fun h hh => ⟨m_host_defined h hh c d,
      fun c1 hc => frame_of_shape c c1 d (m_host_shape h hh c d c1 hc)⟩⟩

/-- Instance of `m_extension_register_frame` at x5 = 0x12345678, x6 = 0 and the
record of `op x7, x5, x6`, for MUL and for DIV (which has a post-state). -/
theorem m_extension_register_frame_witness :
    x_rd_frame (cpu_x5_x6 0x12345678 0) (mul (cpu_x5_x6 0x12345678 0) rec_x7_x5_x6)
      rec_x7_x5_x6 ∧
    div (cpu_x5_x6 0x12345678 0) rec_x7_x5_x6 =
      some (increment_pc ((cpu_x5_x6 0x12345678 0).set_x 7 0xFFFFFFFF)) ∧
    x_rd_frame (cpu_x5_x6 0x12345678 0)
      (increment_pc ((cpu_x5_x6 0x12345678 0).set_x 7 0xFFFFFFFF)) rec_x7_x5_x6 :=
  ⟨(m_extension_register_frame (cpu_x5_x6 0x12345678 0) rec_x7_x5_x6).1 mul
      (List.Mem.head _),
    rfl,
    ((m_extension_register_frame (cpu_x5_x6 0x12345678 0) rec_x7_x5_x6).2 div
      (List.Mem.head _)).2 _ rfl⟩

/-- Claim C9: x[0] = 0 is an invariant of the handlers.  From a state with x[0] = 0,
for every decoded record, the state after any M-extension handler (for DIV and
REM: whenever there is one), after FLW and FSW over any memory interface,
after any FMADD-family handler and after any OP-FP handler has x[0] = 0. -/
theorem x0_invariant (M : mem_if Mem) (c : rv32i_cpu Mem) (d : rv32i_decode_t)
    (h0 : c.state.x 0 = 0) :
    (∀ h ∈ m_total_handlers, (h c d).state.x 0 = 0) ∧
    (∀ h ∈ m_host_handlers, ∀ c1, h c d = some c1 → c1.state.x 0 = 0) ∧
    (flw M c d).state.x 0 = 0 ∧ (fsw M c d).state.x 0 = 0 ∧
    (∀ h ∈ fmadd_handlers, (h c d).state.x 0 = 0) ∧
    (∀ h ∈ op_fp_handlers, (h c d).state.x 0 = 0) := by
  refine ⟨fun h hh => ?_, fun h hh c1 hc => ?_, ?_, ?_, fun h hh => ?_, fun h hh => ?_⟩
  · rw [x0_of_shape c _ d (m_total_shape h hh c d), h0]
  · rw [x0_of_shape c c1 d (m_host_shape h hh c d c1 hc), h0]
  · rw [flw_x, h0]
  · rw [fsw_x, h0]
  · rw [fmadd_eq h hh c d]; exact h0
  · rw [op_fp_eq h hh c d]; exact h0

/-- Instance of `x0_invariant` at x5 = 0x12345678, x6 = 0, the record of
`op x7, x5, x6` and the memory interface without faults. -/
theorem x0_invariant_witness :
    (cpu_x5_x6 0x12345678 0).state.x 0 = 0 ∧
    ((∀ h ∈ m_total_handlers, (h (cpu_x5_x6 0x12345678 0) rec_x7_x5_x6).state.x 0 = 0) ∧
      (∀ h ∈ m_host_handlers, ∀ c1, h (cpu_x5_x6 0x12345678 0) rec_x7_x5_x6 = some c1 →
        c1.state.x 0 = 0) ∧
      (flw null_mem_if (cpu_x5_x6 0x12345678 0) rec_x7_x5_x6).state.x 0 = 0 ∧
      (fsw null_mem_if (cpu_x5_x6 0x12345678 0) rec_x7_x5_x6).state.x 0 = 0 ∧
      (∀ h ∈ fmadd_handlers, (h (cpu_x5_x6 0x12345678 0) rec_x7_x5_x6).state.x 0 = 0) ∧
      (∀ h ∈ op_fp_handlers, (h (cpu_x5_x6 0x12345678 0) rec_x7_x5_x6).state.x 0 = 0)) :=
  ⟨by decide, x0_invariant null_mem_if (cpu_x5_x6 0x12345678 0) rec_x7_x5_x6 (by decide)⟩

/-- Claim C10: straight-line pc advance.  With x5 = 0x80000000 and x6 = 0xFFFFFFFF
(the signed-overflow operands) and rd = x7, neither DIV nor REM reaches a
post-state whose pc is (pc + 4) mod 2^32. -/
theorem div_rem_overflow_pc_not_advanced :
    (¬ ∃ c1, div (cpu_x5_x6 0x80000000 0xFFFFFFFF) rec_x7_x5_x6 = some c1 ∧
      c1.state.pc = ((cpu_x5_x6 0x80000000 0xFFFFFFFF).state.pc + 4) % 0x100000000) ∧
    (¬ ∃ c1, rem (cpu_x5_x6 0x80000000 0xFFFFFFFF) rec_x7_x5_x6 = some c1 ∧
      c1.state.pc = ((cpu_x5_x6 0x80000000 0xFFFFFFFF).state.pc + 4) % 0x100000000) := by
  have h := div_overflow_pair (cpu_x5_x6 0x80000000 0xFFFFFFFF) rec_x7_x5_x6
    (by decide) rfl rfl
  constructor
  · rintro ⟨c1, hc, _⟩
    rw [h.1] at hc
    cases hc
  · rintro ⟨c1, hc, _⟩
    rw [h.2] at hc
    cases hc

/-! ## F extension CSRs -/

theorem testBit_mask5 (i : Nat) : (0x1F : Nat).testBit i = decide (i < 5) :=
  Nat.testBit_two_pow_sub_one 5 i

theorem testBit_mask3 (i : Nat) : (0x7 : Nat).testBit i = decide (i < 3) :=
  Nat.testBit_two_pow_sub_one 3 i

theorem testBit_mask8 (i : Nat) : (0xFF : Nat).testBit i = decide (i < 8) :=
  Nat.testBit_two_pow_sub_one 8 i

theorem testBit_mask32 (i : Nat) : (0xFFFFFFFF : Nat).testBit i = decide (i < 32) :=
  Nat.testBit_two_pow_sub_one 32 i

theorem testBit_fflags_mask (i : Nat) : RV32CSR_FFLAGS_WR_MASK.testBit i = decide (i < 5) :=
  Nat.testBit_two_pow_sub_one 5 i

theorem testBit_frm_mask (i : Nat) : RV32CSR_FRM_WR_MASK.testBit i = decide (i < 3) :=
  Nat.testBit_two_pow_sub_one 3 i

theorem testBit_not_mask5 (i : Nat) :
    (bit_not32 RV32CSR_FFLAGS_WR_MASK).testBit i = decide (5 ≤ i ∧ i < 32) := by
  unfold bit_not32 RV32CSR_FFLAGS_WR_MASK
  rw [Nat.testBit_xor, testBit_mask32, testBit_mask5]
  by_cases h1 : i < 32 <;> by_cases h2 : i < 5 <;> simp [h1, h2] <;> omega

theorem testBit_not_mask_frm (i : Nat) :
    (bit_not32 (RV32CSR_FRM_WR_MASK <<< 5)).testBit i = decide ((i < 5 ∨ 8 ≤ i) ∧ i < 32) := by
  unfold bit_not32 RV32CSR_FRM_WR_MASK
  rw [Nat.testBit_xor, testBit_mask32, Nat.testBit_shiftLeft, testBit_mask3]
  by_cases h1 : i < 32 <;> by_cases h2 : i < 5 <;> by_cases h3 : 8 ≤ i <;>
    simp [h1, h2, h3] <;> omega

theorem merge_fflags_low (a b : Nat) :
    ((a &&& bit_not32 RV32CSR_FFLAGS_WR_MASK) ||| (b &&& RV32CSR_FFLAGS_WR_MASK)) &&& 0x1F
      = b &&& 0x1F := by
  apply Nat.eq_of_testBit_eq
  intro i
  simp only [Nat.testBit_and, Nat.testBit_or, testBit_not_mask5, testBit_fflags_mask, testBit_mask5]
  by_cases h : i < 5 <;> simp [h]

theorem merge_fflags_other (a b i : Nat) (h5 : 5 ≤ i) (h32 : i < 32) :
    ((a &&& bit_not32 RV32CSR_FFLAGS_WR_MASK) ||| (b &&& RV32CSR_FFLAGS_WR_MASK)).testBit i
      = a.testBit i := by
  simp only [Nat.testBit_and, Nat.testBit_or, testBit_not_mask5, testBit_fflags_mask, testBit_mask5]
  have h : ¬ i < 5 := by omega
  simp [h, h5, h32]

theorem merge_fflags_frm_field (a b : Nat) :
    (((a &&& bit_not32 RV32CSR_FFLAGS_WR_MASK) ||| (b &&& RV32CSR_FFLAGS_WR_MASK)) >>> 5) &&& 0x7
      = (a >>> 5) &&& 0x7 := by
  apply Nat.eq_of_testBit_eq
  intro i
  simp only [Nat.testBit_and, Nat.testBit_or, Nat.testBit_shiftRight, testBit_not_mask5,
    testBit_fflags_mask, testBit_mask5, testBit_mask3]
  by_cases h : i < 3 <;> simp [h]
  omega

theorem merge_frm_field (a b : Nat) :
    (((a &&& bit_not32 (RV32CSR_FRM_WR_MASK <<< 5)) |||
        ((b &&& RV32CSR_FRM_WR_MASK) <<< 5)) >>> 5) &&& 0x7 = b &&& 0x7 := by
  apply Nat.eq_of_testBit_eq
  intro i
  simp only [Nat.testBit_and, Nat.testBit_or, Nat.testBit_shiftRight, Nat.testBit_shiftLeft,
    testBit_not_mask_frm, testBit_frm_mask, testBit_mask3]
  by_cases h : i < 3 <;> simp [h]
  omega

theorem merge_frm_other (a b i : Nat) (h : i < 5 ∨ 8 ≤ i) (h32 : i < 32) :
    ((a &&& bit_not32 (RV32CSR_FRM_WR_MASK <<< 5)) |||
        ((b &&& RV32CSR_FRM_WR_MASK) <<< 5)).testBit i = a.testBit i := by
  simp only [Nat.testBit_and, Nat.testBit_or, Nat.testBit_shiftLeft,
    testBit_not_mask_frm, testBit_frm_mask, testBit_mask3]
  rcases h with h | h
  · have h' : ¬ 5 ≤ i := by omega
    simp [h, h', h32]
  · have h' : ¬ i - 5 < 3 := by omega
    simp [h, h', h32]

theorem merge_frm_low (a b : Nat) :
    ((a &&& bit_not32 (RV32CSR_FRM_WR_MASK <<< 5)) |||
        ((b &&& RV32CSR_FRM_WR_MASK) <<< 5)) &&& 0x1F = a &&& 0x1F := by
  apply Nat.eq_of_testBit_eq
  intro i
  simp only [Nat.testBit_and, Nat.testBit_or, Nat.testBit_shiftLeft,
    testBit_not_mask_frm, testBit_frm_mask, testBit_mask3, testBit_mask5]
  by_cases h : i < 5
  · have h1 : i < 32 := by omega
    have h2 : ¬ 5 ≤ i := by omega
    simp [h, h1, h2]
  · simp [h]

theorem access_csr_error (anc : rv32i_cpu Mem → Nat → Nat → Nat → Nat → rv32i_cpu Mem × Nat)
    (c : rv32i_cpu Mem) (funct3 addr rd v : Nat) :
    (access_csr anc c funct3 addr rd v).2 = (anc c funct3 addr rd v).2 := by
  unfold access_csr
  dsimp only
  split_ifs <;> rfl

theorem access_csr_of_error (anc : rv32i_cpu Mem → Nat → Nat → Nat → Nat → rv32i_cpu Mem × Nat)
    (c : rv32i_cpu Mem) (funct3 addr rd v : Nat) (h : (anc c funct3 addr rd v).2 ≠ 0) :
    (access_csr anc c funct3 addr rd v).1 = (anc c funct3 addr rd v).1 := by
  unfold access_csr
  dsimp only
  rw [if_neg h]

theorem access_csr_fflags (anc : rv32i_cpu Mem → Nat → Nat → Nat → Nat → rv32i_cpu Mem × Nat)
    (c : rv32i_cpu Mem) (funct3 rd v : Nat)
    (h : (anc c funct3 RV32CSR_ADDR_FFLAGS rd v).2 = 0) :
    (access_csr anc c funct3 RV32CSR_ADDR_FFLAGS rd v).1 =
      (anc c funct3 RV32CSR_ADDR_FFLAGS rd v).1.set_csr RV32CSR_ADDR_FCSR
        (((anc c funct3 RV32CSR_ADDR_FFLAGS rd v).1.state.csr RV32CSR_ADDR_FCSR &&&
            bit_not32 RV32CSR_FFLAGS_WR_MASK) |||
          ((anc c funct3 RV32CSR_ADDR_FFLAGS rd v).1.state.csr RV32CSR_ADDR_FFLAGS &&&
            RV32CSR_FFLAGS_WR_MASK)) := by
  unfold access_csr
  dsimp only
  rw [if_pos h, if_pos rfl]

theorem access_csr_frm (anc : rv32i_cpu Mem → Nat → Nat → Nat → Nat → rv32i_cpu Mem × Nat)
    (c : rv32i_cpu Mem) (funct3 rd v : Nat)
    (h : (anc c funct3 RV32CSR_ADDR_FRM rd v).2 = 0) :
    (access_csr anc c funct3 RV32CSR_ADDR_FRM rd v).1 =
      (anc c funct3 RV32CSR_ADDR_FRM rd v).1.set_csr RV32CSR_ADDR_FCSR
        (((anc c funct3 RV32CSR_ADDR_FRM rd v).1.state.csr RV32CSR_ADDR_FCSR &&&
            bit_not32 (RV32CSR_FRM_WR_MASK <<< 5)) |||
          (((anc c funct3 RV32CSR_ADDR_FRM rd v).1.state.csr RV32CSR_ADDR_FRM &&&
            RV32CSR_FRM_WR_MASK) <<< 5)) := by
  unfold access_csr
  dsimp only
  rw [if_pos h, if_neg (by decide), if_pos rfl]

theorem access_csr_fcsr (anc : rv32i_cpu Mem → Nat → Nat → Nat → Nat → rv32i_cpu Mem × Nat)
    (c : rv32i_cpu Mem) (funct3 rd v : Nat)
    (h : (anc c funct3 RV32CSR_ADDR_FCSR rd v).2 = 0) :
    (access_csr anc c funct3 RV32CSR_ADDR_FCSR rd v).1 =
      (((anc c funct3 RV32CSR_ADDR_FCSR rd v).1.set_csr RV32CSR_ADDR_FFLAGS
          ((anc c funct3 RV32CSR_ADDR_FCSR rd v).1.state.csr RV32CSR_ADDR_FCSR &&&
            RV32CSR_FFLAGS_WR_MASK)).set_csr RV32CSR_ADDR_FRM
        (((anc c funct3 RV32CSR_ADDR_FCSR rd v).1.state.csr RV32CSR_ADDR_FCSR >>> 5) &&&
          RV32CSR_FRM_WR_MASK)) := by
  unfold access_csr
  dsimp only
  rw [if_pos h, if_neg (by decide), if_neg (by decide), if_pos rfl]
  rfl

theorem access_csr_other (anc : rv32i_cpu Mem → Nat → Nat → Nat → Nat → rv32i_cpu Mem × Nat)
    (c : rv32i_cpu Mem) (funct3 addr rd v : Nat)
    (h1 : addr ≠ RV32CSR_ADDR_FFLAGS) (h2 : addr ≠ RV32CSR_ADDR_FRM)
    (h3 : addr ≠ RV32CSR_ADDR_FCSR) :
    (access_csr anc c funct3 addr rd v).1 = (anc c funct3 addr rd v).1 := by
  unfold access_csr
  dsimp only
  split_ifs <;> rfl

theorem set_csr_same (c : rv32i_cpu Mem) (a v : Nat) : (c.set_csr a v).state.csr a = v := by
  show (if a = a then v else c.state.csr a) = v
  rw [if_pos rfl]

theorem set_csr_other (c : rv32i_cpu Mem) (a b v : Nat) (h : b ≠ a) :
    (c.set_csr a v).state.csr b = c.state.csr b := by
  show (if b = a then v else c.state.csr b) = c.state.csr b
  rw [if_neg h]

theorem fcsr_sync_values (anc : rv32i_cpu Mem → Nat → Nat → Nat → Nat → rv32i_cpu Mem × Nat)
    (c : rv32i_cpu Mem) (funct3 rd v : Nat)
    (hok : (anc c funct3 RV32CSR_ADDR_FCSR rd v).2 = 0) :
    (access_csr anc c funct3 RV32CSR_ADDR_FCSR rd v).1.state.csr RV32CSR_ADDR_FCSR
      = (anc c funct3 RV32CSR_ADDR_FCSR rd v).1.state.csr RV32CSR_ADDR_FCSR ∧
    (access_csr anc c funct3 RV32CSR_ADDR_FCSR rd v).1.state.csr RV32CSR_ADDR_FFLAGS
      = (anc c funct3 RV32CSR_ADDR_FCSR rd v).1.state.csr RV32CSR_ADDR_FCSR &&& 0x1F ∧
    (access_csr anc c funct3 RV32CSR_ADDR_FCSR rd v).1.state.csr RV32CSR_ADDR_FRM
      = ((anc c funct3 RV32CSR_ADDR_FCSR rd v).1.state.csr RV32CSR_ADDR_FCSR >>> 5) &&& 0x7 := by
  rw [access_csr_fcsr anc c funct3 rd v hok]
  refine ⟨?_, ?_, ?_⟩
  · rw [set_csr_other _ _ _ _ (by decide), set_csr_other _ _ _ _ (by decide)]
  · rw [set_csr_other _ _ _ _ (by decide), set_csr_same]
    rfl
  · rw [set_csr_same]
    rfl

/-- Claim C11: FCSR write-through.  From every prior state, after an access to
FCSR (0x003) through `rv32f_cpu::access_csr` that returns no error, csr[FCSR]
is the value left by the underlying CSR operation, csr[FFLAGS] equals
csr[FCSR] & 0x1F and csr[FRM] equals (csr[FCSR] >> 5) & 0x7. -/
theorem fcsr_write_through
    (anc : rv32i_cpu Mem → Nat → Nat → Nat → Nat → rv32i_cpu Mem × Nat)
    (c : rv32i_cpu Mem) (funct3 rd v : Nat)
    (hok : (access_csr anc c funct3 RV32CSR_ADDR_FCSR rd v).2 = 0) :
    (access_csr anc c funct3 RV32CSR_ADDR_FCSR rd v).1.state.csr RV32CSR_ADDR_FCSR
      = (anc c funct3 RV32CSR_ADDR_FCSR rd v).1.state.csr RV32CSR_ADDR_FCSR ∧
    (access_csr anc c funct3 RV32CSR_ADDR_FCSR rd v).1.state.csr RV32CSR_ADDR_FFLAGS
      = (access_csr anc c funct3 RV32CSR_ADDR_FCSR rd v).1.state.csr RV32CSR_ADDR_FCSR
          &&& 0x1F ∧
    (access_csr anc c funct3 RV32CSR_ADDR_FCSR rd v).1.state.csr RV32CSR_ADDR_FRM
      = ((access_csr anc c funct3 RV32CSR_ADDR_FCSR rd v).1.state.csr RV32CSR_ADDR_FCSR
          >>> 5) &&& 0x7 := by
  rw [access_csr_error] at hok
  obtain ⟨h1, h2, h3⟩ := fcsr_sync_values anc c funct3 rd v hok
  exact ⟨h1, by rw [h2, h1], by rw [h3, h1]⟩

/-- Instance of `fcsr_write_through`: writing 0xFF to FCSR from the all-zero
CSR state through the sample CSRRW operation leaves FCSR = 0xFF,
FFLAGS = 0x1F and FRM = 0x7. -/
theorem fcsr_write_through_witness :
    (access_csr sample_csr_access (cpu_fcsr 0) 1 RV32CSR_ADDR_FCSR 0 0xFF).2 = 0 ∧
    (access_csr sample_csr_access (cpu_fcsr 0) 1 RV32CSR_ADDR_FCSR 0 0xFF).1.state.csr
      RV32CSR_ADDR_FCSR = 0xFF ∧
    (access_csr sample_csr_access (cpu_fcsr 0) 1 RV32CSR_ADDR_FCSR 0 0xFF).1.state.csr
      RV32CSR_ADDR_FFLAGS = 0x1F ∧
    (access_csr sample_csr_access (cpu_fcsr 0) 1 RV32CSR_ADDR_FCSR 0 0xFF).1.state.csr
      RV32CSR_ADDR_FRM = 0x7 ∧
    ((access_csr sample_csr_access (cpu_fcsr 0) 1 RV32CSR_ADDR_FCSR 0 0xFF).1.state.csr
        RV32CSR_ADDR_FCSR
      = (sample_csr_access (cpu_fcsr 0) 1 RV32CSR_ADDR_FCSR 0 0xFF).1.state.csr
          RV32CSR_ADDR_FCSR ∧
    (access_csr sample_csr_access (cpu_fcsr 0) 1 RV32CSR_ADDR_FCSR 0 0xFF).1.state.csr
        RV32CSR_ADDR_FFLAGS
      = (access_csr sample_csr_access (cpu_fcsr 0) 1 RV32CSR_ADDR_FCSR 0 0xFF).1.state.csr
          RV32CSR_ADDR_FCSR &&& 0x1F ∧
    (access_csr sample_csr_access (cpu_fcsr 0) 1 RV32CSR_ADDR_FCSR 0 0xFF).1.state.csr
        RV32CSR_ADDR_FRM
      = ((access_csr sample_csr_access (cpu_fcsr 0) 1 RV32CSR_ADDR_FCSR 0 0xFF).1.state.csr
          RV32CSR_ADDR_FCSR >>> 5) &&& 0x7) :=
  ⟨by decide, by decide, by decide, by decide,
    fcsr_write_through sample_csr_access (cpu_fcsr 0) 1 0 0xFF (by decide)⟩

theorem testBit_masked_write (old v mask i : Nat) (h : mask.testBit i = false) :
    (masked_write old v mask).testBit i = old.testBit i := by
  unfold masked_write
  rw [Nat.testBit_xor, Nat.testBit_and, h]
  simp

theorem refusing_keeps_footprint : keeps_footprint f_wr_mask refusing_csr_access := by
  intro c funct3 addr rd v
  refine ⟨fun a ha => set_csr_other _ _ _ _ ha, fun i hi => ?_⟩
  show ((c.set_csr addr _).state.csr addr).testBit i = _
  rw [set_csr_same, testBit_masked_write _ _ _ _ hi]

theorem sample_keeps_footprint : keeps_footprint f_wr_mask sample_csr_access := by
  intro c funct3 addr rd v
  unfold sample_csr_access
  split_ifs
  · exact ⟨fun _ _ => rfl, fun _ _ => rfl⟩
  · refine ⟨fun a ha => set_csr_other _ _ _ _ ha, fun i hi => ?_⟩
    show ((c.set_csr addr _).state.csr addr).testBit i = _
    rw [set_csr_same, testBit_masked_write _ _ _ _ hi]

theorem sample_error_keeps_f_csrs : error_keeps_f_csrs sample_csr_access := by
  intro c funct3 addr rd v h
  unfold sample_csr_access at h ⊢
  split_ifs at h ⊢
  · exact ⟨rfl, rfl, rfl⟩
  · exact absurd rfl h

theorem scratch_keeps_footprint :
    keeps_footprint (cpu_wr_mask scratch_anc_wr_mask) scratch_csr_access := by
  intro c funct3 addr rd v
  unfold scratch_csr_access
  split_ifs
  · exact ⟨fun _ _ => rfl, fun _ _ => rfl⟩
  · refine ⟨fun a ha => set_csr_other _ _ _ _ ha, fun i hi => ?_⟩
    show ((c.set_csr addr _).state.csr addr).testBit i = _
    rw [set_csr_same, testBit_masked_write _ _ _ _ hi]

theorem scratch_error_keeps_f_csrs : error_keeps_f_csrs scratch_csr_access := by
  intro c funct3 addr rd v h
  unfold scratch_csr_access at h ⊢
  split_ifs at h ⊢
  · exact ⟨rfl, rfl, rfl⟩
  · exact absurd rfl h

/-- Claim C12: field write-through into FCSR.  After an access to FFLAGS
(0x001) that returns no error, FCSR[4:0] equals FFLAGS[4:0], and every other
bit of FCSR, the FFLAGS register and the FRM register are as the underlying
CSR operation left them, hence as they were before the access when that
operation alters no CSR other than FFLAGS; after an access to FRM (0x002)
that returns no error, FCSR[7:5] equals FRM[2:0], and every other bit of
FCSR, the FRM register and the FFLAGS register are as the underlying CSR
operation left them, hence as they were before the access when that operation
alters no CSR other than FRM. -/
theorem fflags_frm_write_through
    (anc : rv32i_cpu Mem → Nat → Nat → Nat → Nat → rv32i_cpu Mem × Nat)
    (c : rv32i_cpu Mem) (funct3 rd v : Nat) :
    ((access_csr anc c funct3 RV32CSR_ADDR_FFLAGS rd v).2 = 0 →
      (access_csr anc c funct3 RV32CSR_ADDR_FFLAGS rd v).1.state.csr RV32CSR_ADDR_FCSR &&& 0x1F
        = (access_csr anc c funct3 RV32CSR_ADDR_FFLAGS rd v).1.state.csr RV32CSR_ADDR_FFLAGS
            &&& 0x1F ∧
      (∀ i, 5 ≤ i → i < 32 →
        ((access_csr anc c funct3 RV32CSR_ADDR_FFLAGS rd v).1.state.csr
            RV32CSR_ADDR_FCSR).testBit i
          = ((anc c funct3 RV32CSR_ADDR_FFLAGS rd v).1.state.csr RV32CSR_ADDR_FCSR).testBit i) ∧
      (access_csr anc c funct3 RV32CSR_ADDR_FFLAGS rd v).1.state.csr RV32CSR_ADDR_FFLAGS
        = (anc c funct3 RV32CSR_ADDR_FFLAGS rd v).1.state.csr RV32CSR_ADDR_FFLAGS ∧
      (access_csr anc c funct3 RV32CSR_ADDR_FFLAGS rd v).1.state.csr RV32CSR_ADDR_FRM
        = (anc c funct3 RV32CSR_ADDR_FFLAGS rd v).1.state.csr RV32CSR_ADDR_FRM ∧
      ((∀ a, a ≠ RV32CSR_ADDR_FFLAGS →
          (anc c funct3 RV32CSR_ADDR_FFLAGS rd v).1.state.csr a = c.state.csr a) →
        (∀ i, 5 ≤ i → i < 32 →
          ((access_csr anc c funct3 RV32CSR_ADDR_FFLAGS rd v).1.state.csr
              RV32CSR_ADDR_FCSR).testBit i = (c.state.csr RV32CSR_ADDR_FCSR).testBit i) ∧
        (access_csr anc c funct3 RV32CSR_ADDR_FFLAGS rd v).1.state.csr RV32CSR_ADDR_FRM
          = c.state.csr RV32CSR_ADDR_FRM)) ∧
    ((access_csr anc c funct3 RV32CSR_ADDR_FRM rd v).2 = 0 →
      ((access_csr anc c funct3 RV32CSR_ADDR_FRM rd v).1.state.csr RV32CSR_ADDR_FCSR >>> 5)
          &&& 0x7
        = (access_csr anc c funct3 RV32CSR_ADDR_FRM rd v).1.state.csr RV32CSR_ADDR_FRM
            &&& 0x7 ∧
      (∀ i, i < 5 ∨ 8 ≤ i → i < 32 →
        ((access_csr anc c funct3 RV32CSR_ADDR_FRM rd v).1.state.csr
            RV32CSR_ADDR_FCSR).testBit i
          = ((anc c funct3 RV32CSR_ADDR_FRM rd v).1.state.csr RV32CSR_ADDR_FCSR).testBit i) ∧
      (access_csr anc c funct3 RV32CSR_ADDR_FRM rd v).1.state.csr RV32CSR_ADDR_FRM
        = (anc c funct3 RV32CSR_ADDR_FRM rd v).1.state.csr RV32CSR_ADDR_FRM ∧
      (access_csr anc c funct3 RV32CSR_ADDR_FRM rd v).1.state.csr RV32CSR_ADDR_FFLAGS
        = (anc c funct3 RV32CSR_ADDR_FRM rd v).1.state.csr RV32CSR_ADDR_FFLAGS ∧
      ((∀ a, a ≠ RV32CSR_ADDR_FRM →
          (anc c funct3 RV32CSR_ADDR_FRM rd v).1.state.csr a = c.state.csr a) →
        (∀ i, i < 5 ∨ 8 ≤ i → i < 32 →
          ((access_csr anc c funct3 RV32CSR_ADDR_FRM rd v).1.state.csr
              RV32CSR_ADDR_FCSR).testBit i = (c.state.csr RV32CSR_ADDR_FCSR).testBit i) ∧
        (access_csr anc c funct3 RV32CSR_ADDR_FRM rd v).1.state.csr RV32CSR_ADDR_FFLAGS
          = c.state.csr RV32CSR_ADDR_FFLAGS)) := by
  constructor
  · intro hok
    rw [access_csr_error] at hok
    rw [access_csr_fflags anc c funct3 rd v hok]
    refine ⟨?_, fun i h5 h32 => ?_, ?_, ?_, fun hoth => ⟨fun i h5 h32 => ?_, ?_⟩⟩
    · rw [set_csr_same, set_csr_other _ _ _ _ (by decide), merge_fflags_low]
    · rw [set_csr_same, merge_fflags_other _ _ i h5 h32]
    · rw [set_csr_other _ _ _ _ (by decide)]
    · rw [set_csr_other _ _ _ _ (by decide)]
    · rw [set_csr_same, merge_fflags_other _ _ i h5 h32, hoth RV32CSR_ADDR_FCSR (by decide)]
    · rw [set_csr_other _ _ _ _ (by decide), hoth RV32CSR_ADDR_FRM (by decide)]
  · intro hok
    rw [access_csr_error] at hok
    rw [access_csr_frm anc c funct3 rd v hok]
    refine ⟨?_, fun i h hi => ?_, ?_, ?_, fun hoth => ⟨fun i h hi => ?_, ?_⟩⟩
    · rw [set_csr_same, set_csr_other _ _ _ _ (by decide), merge_frm_field]
    · rw [set_csr_same, merge_frm_other _ _ i h hi]
    · rw [set_csr_other _ _ _ _ (by decide)]
    · rw [set_csr_other _ _ _ _ (by decide)]
    · rw [set_csr_same, merge_frm_other _ _ i h hi, hoth RV32CSR_ADDR_FCSR (by decide)]
    · rw [set_csr_other _ _ _ _ (by decide), hoth RV32CSR_ADDR_FFLAGS (by decide)]

/-- Instance of `fflags_frm_write_through` at FCSR = 0xFF with the sample
CSRRW operation: writing 0x00 to FFLAGS gives FCSR = 0xE0, and writing 0x2 to
FRM gives FCSR = 0x5F. -/
theorem fflags_frm_write_through_witness :
    (access_csr sample_csr_access (cpu_fcsr 0xFF) 1 RV32CSR_ADDR_FFLAGS 0 0x00).2 = 0 ∧
    (access_csr sample_csr_access (cpu_fcsr 0xFF) 1 RV32CSR_ADDR_FFLAGS 0 0x00).1.state.csr
      RV32CSR_ADDR_FCSR = 0xE0 ∧
    (access_csr sample_csr_access (cpu_fcsr 0xFF) 1 RV32CSR_ADDR_FRM 0 0x2).2 = 0 ∧
    (access_csr sample_csr_access (cpu_fcsr 0xFF) 1 RV32CSR_ADDR_FRM 0 0x2).1.state.csr
      RV32CSR_ADDR_FCSR = 0x5F ∧
    (access_csr sample_csr_access (cpu_fcsr 0xFF) 1 RV32CSR_ADDR_FFLAGS 0 0x00).1.state.csr
        RV32CSR_ADDR_FCSR &&& 0x1F
      = (access_csr sample_csr_access (cpu_fcsr 0xFF) 1 RV32CSR_ADDR_FFLAGS 0 0x00).1.state.csr
          RV32CSR_ADDR_FFLAGS &&& 0x1F ∧
    ((access_csr sample_csr_access (cpu_fcsr 0xFF) 1 RV32CSR_ADDR_FRM 0 0x2).1.state.csr
        RV32CSR_ADDR_FCSR >>> 5) &&& 0x7
      = (access_csr sample_csr_access (cpu_fcsr 0xFF) 1 RV32CSR_ADDR_FRM 0 0x2).1.state.csr
          RV32CSR_ADDR_FRM &&& 0x7 ∧
    (access_csr sample_csr_access (cpu_fcsr 0xFF) 1 RV32CSR_ADDR_FFLAGS 0 0x00).1.state.csr
        RV32CSR_ADDR_FRM
      = (cpu_fcsr 0xFF).state.csr RV32CSR_ADDR_FRM :=
  ⟨by decide, by decide, by decide, by decide,
    ((fflags_frm_write_through sample_csr_access (cpu_fcsr 0xFF) 1 0 0x00).1 (by decide)).1,
    ((fflags_frm_write_through sample_csr_access (cpu_fcsr 0xFF) 1 0 0x2).2 (by decide)).1,
    (((fflags_frm_write_through sample_csr_access (cpu_fcsr 0xFF) 1 0 0x00).1
      (by decide)).2.2.2.2
      (sample_keeps_footprint (cpu_fcsr 0xFF) 1 RV32CSR_ADDR_FFLAGS 0 0x00).1).2⟩

/-! ## F extension write masks -/

/-- Claim C14: F-extension write masks.  For an address that the ancestor
reports as unimplemented, `rv32f_cpu::csr_wr_mask` returns 0x1F for FFLAGS
(0x001), 0x7 for FRM (0x002) and 0xFF for FCSR (0x003), each with unimp
false, and mask 0 with unimp true for every other address; for an address
the ancestor implements, the ancestor's mask is returned with unimp false. -/
theorem csr_wr_mask_table (anc : Nat → Bool → Nat × Bool) (addr : Nat) (unimp : Bool) :
    ((anc addr unimp).2 = true →
      (addr = 0x001 → csr_wr_mask anc addr unimp = (0x1F, false)) ∧
      (addr = 0x002 → csr_wr_mask anc addr unimp = (0x7, false)) ∧
      (addr = 0x003 → csr_wr_mask anc addr unimp = (0xFF, false)) ∧
      (addr ≠ 0x001 → addr ≠ 0x002 → addr ≠ 0x003 → csr_wr_mask anc addr unimp = (0, true))) ∧
    ((anc addr unimp).2 = false →
      csr_wr_mask anc addr unimp = ((anc addr unimp).1, false)) := by
  constructor
  · intro h
    refine ⟨fun ha => ?_, fun ha => ?_, fun ha => ?_, fun h1 h2 h3 => ?_⟩
    · subst ha
      unfold csr_wr_mask
      dsimp only
      rw [if_pos h]
      rfl
    · subst ha
      unfold csr_wr_mask
      dsimp only
      rw [if_pos h]
      rfl
    · subst ha
      unfold csr_wr_mask
      dsimp only
      rw [if_pos h]
      rfl
    · unfold csr_wr_mask
      dsimp only
      rw [if_pos h, if_neg (show ¬ addr = RV32CSR_ADDR_FFLAGS from h1),
        if_neg (show ¬ addr = RV32CSR_ADDR_FRM from h2),
        if_neg (show ¬ addr = RV32CSR_ADDR_FCSR from h3)]
  · intro h
    unfold csr_wr_mask
    dsimp only
    rw [if_neg (by rw [h]; decide), h]

/-- Instance of `csr_wr_mask_table`: over the base-class placeholder the
address 0x001 gets mask 0x1F and the address 0x301 is unimplemented; over an
ancestor that implements 0x301 its mask is returned. -/
theorem csr_wr_mask_table_witness :
    (rv32i_cpu.csr_wr_mask 0x001 false).2 = true ∧
    csr_wr_mask rv32i_cpu.csr_wr_mask 0x001 false = (0x1F, false) ∧
    (rv32i_cpu.csr_wr_mask 0x301 false).2 = true ∧
    csr_wr_mask rv32i_cpu.csr_wr_mask 0x301 false = (0, true) ∧
    (sample_anc_wr_mask 0x301 false).2 = false ∧
    csr_wr_mask sample_anc_wr_mask 0x301 false = ((sample_anc_wr_mask 0x301 false).1, false) :=
  ⟨rfl, ((csr_wr_mask_table rv32i_cpu.csr_wr_mask 0x001 false).1 rfl).1 rfl,
    rfl, ((csr_wr_mask_table rv32i_cpu.csr_wr_mask 0x301 false).1 rfl).2.2.2
      (by decide) (by decide) (by decide),
    rfl, (csr_wr_mask_table sample_anc_wr_mask 0x301 false).2 rfl⟩

/-! ## Alias consistency -/

theorem f_wr_mask_fflags : f_wr_mask RV32CSR_ADDR_FFLAGS = 0x1F := rfl

theorem f_wr_mask_frm : f_wr_mask RV32CSR_ADDR_FRM = 0x7 := rfl

theorem f_wr_mask_fcsr : f_wr_mask RV32CSR_ADDR_FCSR = 0xFF := rfl

theorem within_mask5 (u c x : Nat) (hc : c = x &&& 0x1F)
    (h : ∀ i, (0x1F : Nat).testBit i = false → u.testBit i = c.testBit i) :
    u &&& 0x1F = u := by
  apply Nat.eq_of_testBit_eq
  intro i
  rw [Nat.testBit_and, testBit_mask5]
  by_cases hi : i < 5
  · simp [hi]
  · have h1 := h i (by rw [testBit_mask5]; simp [hi])
    rw [hc, Nat.testBit_and, testBit_mask5] at h1
    simp [hi] at h1
    simp [hi, h1]

theorem within_mask3 (u c x : Nat) (hc : c = x &&& 0x7)
    (h : ∀ i, (0x7 : Nat).testBit i = false → u.testBit i = c.testBit i) :
    u &&& 0x7 = u := by
  apply Nat.eq_of_testBit_eq
  intro i
  rw [Nat.testBit_and, testBit_mask3]
  by_cases hi : i < 3
  · simp [hi]
  · have h1 := h i (by rw [testBit_mask3]; simp [hi])
    rw [hc, Nat.testBit_and, testBit_mask3] at h1
    simp [hi] at h1
    simp [hi, h1]

theorem alias_cons_of_readback (c : rv32i_cpu Mem) (h : alias_readback c) : alias_cons c := by
  obtain ⟨h1, h2⟩ := h
  constructor
  · rw [h1, Nat.and_assoc, Nat.and_self]
  · rw [h2, Nat.and_assoc, Nat.and_self]

theorem alias_cons_step (wr_mask : Nat → Nat)
    (anc : rv32i_cpu Mem → Nat → Nat → Nat → Nat → rv32i_cpu Mem × Nat)
    (hfp : keeps_footprint wr_mask anc) (herr : error_keeps_f_csrs anc)
    (c : rv32i_cpu Mem) (funct3 addr rd v : Nat) (hc : alias_cons c) :
    alias_cons (access_csr anc c funct3 addr rd v).1 := by
  obtain ⟨hc1, hc2⟩ := hc
  by_cases hok : (anc c funct3 addr rd v).2 = 0
  · obtain ⟨hoth, _⟩ := hfp c funct3 addr rd v
    by_cases h1 : addr = RV32CSR_ADDR_FFLAGS
    · subst h1
      rw [access_csr_fflags anc c funct3 rd v hok]
      unfold alias_cons
      rw [set_csr_same, set_csr_other _ _ _ _ (by decide), set_csr_other _ _ _ _ (by decide),
        merge_fflags_low, merge_fflags_frm_field, hoth RV32CSR_ADDR_FCSR (by decide),
        hoth RV32CSR_ADDR_FRM (by decide)]
      exact ⟨rfl, hc2⟩
    · by_cases h2 : addr = RV32CSR_ADDR_FRM
      · subst h2
        rw [access_csr_frm anc c funct3 rd v hok]
        unfold alias_cons
        rw [set_csr_same, set_csr_other _ _ _ _ (by decide),
          set_csr_other _ _ _ _ (by decide), merge_frm_low, merge_frm_field,
          hoth RV32CSR_ADDR_FCSR (by decide), hoth RV32CSR_ADDR_FFLAGS (by decide)]
        exact ⟨hc1, rfl⟩
      · by_cases h3 : addr = RV32CSR_ADDR_FCSR
        · subst h3
          obtain ⟨e1, e2, e3⟩ := fcsr_sync_values anc c funct3 rd v hok
          unfold alias_cons
          rw [e1, e2, e3, Nat.and_assoc, Nat.and_self, Nat.and_assoc, Nat.and_self]
          exact ⟨rfl, rfl⟩
        · rw [access_csr_other anc c funct3 addr rd v h1 h2 h3]
          unfold alias_cons
          rw [hoth _ (Ne.symm h1), hoth _ (Ne.symm h2), hoth _ (Ne.symm h3)]
          exact ⟨hc1, hc2⟩
  · rw [access_csr_of_error anc c funct3 addr rd v hok]
    obtain ⟨e1, e2, e3⟩ := herr c funct3 addr rd v hok
    unfold alias_cons
    rw [e1, e2, e3]
    exact ⟨hc1, hc2⟩

theorem alias_readback_step (wr_mask : Nat → Nat)
    (hm1 : wr_mask RV32CSR_ADDR_FFLAGS = 0x1F) (hm2 : wr_mask RV32CSR_ADDR_FRM = 0x7)
    (anc : rv32i_cpu Mem → Nat → Nat → Nat → Nat → rv32i_cpu Mem × Nat)
    (hfp : keeps_footprint wr_mask anc) (herr : error_keeps_f_csrs anc)
    (c : rv32i_cpu Mem) (funct3 addr rd v : Nat) (hc : alias_readback c) :
    alias_readback (access_csr anc c funct3 addr rd v).1 := by
  obtain ⟨hc1, hc2⟩ := hc
  by_cases hok : (anc c funct3 addr rd v).2 = 0
  · obtain ⟨hoth, hbits⟩ := hfp c funct3 addr rd v
    by_cases h1 : addr = RV32CSR_ADDR_FFLAGS
    · subst h1
      rw [hm1] at hbits
      have hu := within_mask5 _ _ _ hc1 hbits
      rw [access_csr_fflags anc c funct3 rd v hok]
      unfold alias_readback
      rw [set_csr_same, set_csr_other _ _ _ _ (by decide), set_csr_other _ _ _ _ (by decide),
        merge_fflags_low, merge_fflags_frm_field, hoth RV32CSR_ADDR_FCSR (by decide),
        hoth RV32CSR_ADDR_FRM (by decide)]
      exact ⟨hu.symm, hc2⟩
    · by_cases h2 : addr = RV32CSR_ADDR_FRM
      · subst h2
        rw [hm2] at hbits
        have hu := within_mask3 _ _ _ hc2 hbits
        rw [access_csr_frm anc c funct3 rd v hok]
        unfold alias_readback
        rw [set_csr_same, set_csr_other _ _ _ _ (by decide),
          set_csr_other _ _ _ _ (by decide), merge_frm_low, merge_frm_field,
          hoth RV32CSR_ADDR_FCSR (by decide), hoth RV32CSR_ADDR_FFLAGS (by decide)]
        exact ⟨hc1, hu.symm⟩
      · by_cases h3 : addr = RV32CSR_ADDR_FCSR
        · subst h3
          obtain ⟨e1, e2, e3⟩ := fcsr_sync_values anc c funct3 rd v hok
          unfold alias_readback
          rw [e1, e2, e3]
          exact ⟨rfl, rfl⟩
        · rw [access_csr_other anc c funct3 addr rd v h1 h2 h3]
          unfold alias_readback
          rw [hoth _ (Ne.symm h1), hoth _ (Ne.symm h2), hoth _ (Ne.symm h3)]
          exact ⟨hc1, hc2⟩
  · rw [access_csr_of_error anc c funct3 addr rd v hok]
    obtain ⟨e1, e2, e3⟩ := herr c funct3 addr rd v hok
    unfold alias_readback
    rw [e1, e2, e3]
    exact ⟨hc1, hc2⟩

theorem alias_readback_run (wr_mask : Nat → Nat)
    (hm1 : wr_mask RV32CSR_ADDR_FFLAGS = 0x1F) (hm2 : wr_mask RV32CSR_ADDR_FRM = 0x7)
    (anc : rv32i_cpu Mem → Nat → Nat → Nat → Nat → rv32i_cpu Mem × Nat)
    (hfp : keeps_footprint wr_mask anc) (herr : error_keeps_f_csrs anc)
    (ops : List (Nat × Nat × Nat × Nat)) :
    ∀ c : rv32i_cpu Mem, alias_readback c → alias_readback (run_csr_accesses anc c ops) := by
  induction ops with
  | nil => intro c hc; exact hc
  | cons op ops ih =>
    intro c hc
    exact ih _ (alias_readback_step wr_mask hm1 hm2 anc hfp herr c op.1 op.2.1 op.2.2.1
      op.2.2.2 hc)

theorem alias_cons_run (wr_mask : Nat → Nat)
    (anc : rv32i_cpu Mem → Nat → Nat → Nat → Nat → rv32i_cpu Mem × Nat)
    (hfp : keeps_footprint wr_mask anc) (herr : error_keeps_f_csrs anc)
    (ops : List (Nat × Nat × Nat × Nat)) :
    ∀ c : rv32i_cpu Mem, alias_cons c → alias_cons (run_csr_accesses anc c ops) := by
  induction ops with
  | nil => intro c hc; exact hc
  | cons op ops ih =>
    intro c hc
    exact ih _ (alias_cons_step wr_mask anc hfp herr c op.1 op.2.1 op.2.2.1 op.2.2.2 hc)

/-- Claim C13, as stated, fails: the operation `refusing_csr_access` alters at
most csr[addr] within the write mask on every call, alias consistency holds
in the all-zero CSR state, and after `rv32f_cpu::access_csr` on FFLAGS with
operand 1 (the operation writes FFLAGS and reports an error, so no
synchronisation takes place) FFLAGS[4:0] = 1 while FCSR[4:0] = 0. -/
theorem alias_cons_broken_by_refused_write :
    keeps_footprint f_wr_mask refusing_csr_access ∧ alias_cons (cpu_fcsr 0) ∧
    ¬ alias_cons (access_csr refusing_csr_access (cpu_fcsr 0) 1 RV32CSR_ADDR_FFLAGS 0 1).1 := by
  refine ⟨refusing_keeps_footprint, ?_, ?_⟩
  · unfold alias_cons
    decide
  · unfold alias_cons
    decide

/-- Claim C13, amended: alias consistency is an invariant of
`rv32f_cpu::access_csr`.  For any write masks, if the underlying CSR
operation alters at most csr[addr] within the write mask of that address and
leaves FFLAGS, FRM and FCSR as they were whenever it reports an error, then
for every funct3, address and operand alias consistency after the access
follows from alias consistency before it, and so it does after any sequence
of accesses; if moreover the write masks of FFLAGS and FRM are 0x1F and 0x7,
then starting from a state whose FFLAGS, FRM and FCSR are zero, after any
sequence of accesses alias consistency holds and FFLAGS and FRM read back as
the matching fields of FCSR. -/
theorem alias_consistency_invariant (wr_mask : Nat → Nat)
    (anc : rv32i_cpu Mem → Nat → Nat → Nat → Nat → rv32i_cpu Mem × Nat)
    (hfp : keeps_footprint wr_mask anc) (herr : error_keeps_f_csrs anc) :
    (∀ (c : rv32i_cpu Mem) (funct3 addr rd v : Nat), alias_cons c →
      alias_cons (access_csr anc c funct3 addr rd v).1) ∧
    (∀ (c : rv32i_cpu Mem) (ops : List (Nat × Nat × Nat × Nat)), alias_cons c →
      alias_cons (run_csr_accesses anc c ops)) ∧
    (wr_mask RV32CSR_ADDR_FFLAGS = RV32CSR_FFLAGS_WR_MASK →
      wr_mask RV32CSR_ADDR_FRM = RV32CSR_FRM_WR_MASK →
      ∀ (c : rv32i_cpu Mem) (ops : List (Nat × Nat × Nat × Nat)),
        c.state.csr RV32CSR_ADDR_FFLAGS = 0 → c.state.csr RV32CSR_ADDR_FRM = 0 →
        c.state.csr RV32CSR_ADDR_FCSR = 0 →
        alias_cons (run_csr_accesses anc c ops) ∧
        alias_readback (run_csr_accesses anc c ops)) := by
  refine ⟨fun c funct3 addr rd v hc => alias_cons_step wr_mask anc hfp herr c funct3 addr rd v hc,
    fun c ops hc => alias_cons_run wr_mask anc hfp herr ops c hc,
    fun hm1 hm2 c ops h1 h2 h3 => ?_⟩
  have h0 : alias_readback c := by
    unfold alias_readback
    rw [h1, h2, h3]
    exact ⟨rfl, rfl⟩
  have h := alias_readback_run wr_mask hm1 hm2 anc hfp herr ops c h0
  exact ⟨alias_cons_of_readback _ h, h⟩

/-- Instance of `alias_consistency_invariant` with the sample CSRRW operation
of an engine that also implements the writable CSR 0x340, from the all-zero
CSR state: one write of 0x15 to FFLAGS, and the sequence write 0xFF to FCSR,
write 0xDEADBEEF to 0x340, write 0x00 to FFLAGS, after which csr[0x340] holds
0xDEADBEEF and FCSR holds 0xE0. -/
theorem alias_consistency_invariant_witness :
    keeps_footprint (cpu_wr_mask scratch_anc_wr_mask) scratch_csr_access ∧
    error_keeps_f_csrs scratch_csr_access ∧
    cpu_wr_mask scratch_anc_wr_mask RV32CSR_ADDR_FFLAGS = RV32CSR_FFLAGS_WR_MASK ∧
    cpu_wr_mask scratch_anc_wr_mask RV32CSR_ADDR_FRM = RV32CSR_FRM_WR_MASK ∧
    cpu_wr_mask scratch_anc_wr_mask 0x340 = 0xFFFFFFFF ∧
    alias_cons (cpu_fcsr 0) ∧
    (cpu_fcsr 0).state.csr RV32CSR_ADDR_FFLAGS = 0 ∧
    (cpu_fcsr 0).state.csr RV32CSR_ADDR_FRM = 0 ∧
    (cpu_fcsr 0).state.csr RV32CSR_ADDR_FCSR = 0 ∧
    (run_csr_accesses scratch_csr_access (cpu_fcsr 0)
      [(1, RV32CSR_ADDR_FCSR, 0, 0xFF), (1, 0x340, 0, 0xDEADBEEF),
        (1, RV32CSR_ADDR_FFLAGS, 0, 0x00)]).state.csr 0x340 = 0xDEADBEEF ∧
    (run_csr_accesses scratch_csr_access (cpu_fcsr 0)
      [(1, RV32CSR_ADDR_FCSR, 0, 0xFF), (1, 0x340, 0, 0xDEADBEEF),
        (1, RV32CSR_ADDR_FFLAGS, 0, 0x00)]).state.csr RV32CSR_ADDR_FCSR = 0xE0 ∧
    alias_cons (access_csr scratch_csr_access (cpu_fcsr 0) 1 RV32CSR_ADDR_FFLAGS 0 0x15).1 ∧
    (alias_cons (run_csr_accesses scratch_csr_access (cpu_fcsr 0)
        [(1, RV32CSR_ADDR_FCSR, 0, 0xFF), (1, 0x340, 0, 0xDEADBEEF),
          (1, RV32CSR_ADDR_FFLAGS, 0, 0x00)]) ∧
      alias_readback (run_csr_accesses scratch_csr_access (cpu_fcsr 0)
        [(1, RV32CSR_ADDR_FCSR, 0, 0xFF), (1, 0x340, 0, 0xDEADBEEF),
          (1, RV32CSR_ADDR_FFLAGS, 0, 0x00)])) :=
  ⟨scratch_keeps_footprint, scratch_error_keeps_f_csrs, rfl, rfl, rfl,
    (by unfold alias_cons; decide), rfl, rfl, rfl, (by decide), (by decide),
    (alias_consistency_invariant (cpu_wr_mask scratch_anc_wr_mask) scratch_csr_access
      scratch_keeps_footprint scratch_error_keeps_f_csrs).1 (cpu_fcsr 0) 1
      RV32CSR_ADDR_FFLAGS 0 0x15 (by unfold alias_cons; decide),
    (alias_consistency_invariant (cpu_wr_mask scratch_anc_wr_mask) scratch_csr_access
      scratch_keeps_footprint scratch_error_keeps_f_csrs).2.2 rfl rfl (cpu_fcsr 0) _
      rfl rfl rfl⟩

/-! ## FLW and FSW -/

theorem flw_exec (M : mem_if Mem) (c : rv32i_cpu Mem) (d : rv32i_decode_t)
    (hd : c.disassemble = false) :
    flw M c d =
      if (M.read_mem c.mem ((c.state.x d.rs1 + d.imm_i) % 0x100000000)
          mem_access_t.MEM_RD_ACCESS_WORD).2.2 = false then
        increment_pc (({ c with
            access_addr := (c.state.x d.rs1 + d.imm_i) % 0x100000000,
            mem := (M.read_mem c.mem ((c.state.x d.rs1 + d.imm_i) % 0x100000000)
              mem_access_t.MEM_RD_ACCESS_WORD).1 } : rv32i_cpu Mem).set_f d.rd
          ((M.read_mem c.mem ((c.state.x d.rs1 + d.imm_i) % 0x100000000)
            mem_access_t.MEM_RD_ACCESS_WORD).2.1 % 0x100000000))
      else
        { c with
          access_addr := (c.state.x d.rs1 + d.imm_i) % 0x100000000,
          mem := (M.read_mem c.mem ((c.state.x d.rs1 + d.imm_i) % 0x100000000)
            mem_access_t.MEM_RD_ACCESS_WORD).1 } := by
  unfold flw
  dsimp only
  rw [hd]
  cases h : (M.read_mem c.mem ((c.state.x d.rs1 + d.imm_i) % 0x100000000)
    mem_access_t.MEM_RD_ACCESS_WORD).2.2 <;> simp [h]

theorem fsw_exec (M : mem_if Mem) (c : rv32i_cpu Mem) (d : rv32i_decode_t)
    (hd : c.disassemble = false) :
    fsw M c d =
      if (M.write_mem c.mem ((c.state.x d.rs1 + d.imm_s) % 0x100000000)
          (c.state.f d.rs2 % 0x100000000) mem_access_t.MEM_WR_ACCESS_WORD).2 = false then
        increment_pc { c with
          access_addr := (c.state.x d.rs1 + d.imm_s) % 0x100000000,
          mem := (M.write_mem c.mem ((c.state.x d.rs1 + d.imm_s) % 0x100000000)
            (c.state.f d.rs2 % 0x100000000) mem_access_t.MEM_WR_ACCESS_WORD).1 }
      else
        { c with
          access_addr := (c.state.x d.rs1 + d.imm_s) % 0x100000000,
          mem := (M.write_mem c.mem ((c.state.x d.rs1 + d.imm_s) % 0x100000000)
            (c.state.f d.rs2 % 0x100000000) mem_access_t.MEM_WR_ACCESS_WORD).1 } := by
  unfold fsw
  dsimp only
  rw [hd]
  cases h : (M.write_mem c.mem ((c.state.x d.rs1 + d.imm_s) % 0x100000000)
    (c.state.f d.rs2 % 0x100000000) mem_access_t.MEM_WR_ACCESS_WORD).2 <;> simp [h]

/-- Claim C15: FLW.  With disassemble off, FLW performs one word read at the
address (x[rs1] + imm_i) mod 2^32; when the read reports no fault, f[rd]
becomes the loaded 32-bit word zero-extended to 64 bits (for every rd, also
rd = 0), every other f register, every x register and every CSR is
unchanged, and pc advances by 4. -/
theorem flw_loads_word (M : mem_if Mem) (c : rv32i_cpu Mem) (d : rv32i_decode_t)
    (hd : c.disassemble = false)
    (hf : (M.read_mem c.mem ((c.state.x d.rs1 + d.imm_i) % 0x100000000)
      mem_access_t.MEM_RD_ACCESS_WORD).2.2 = false) :
    (flw M c d).mem = (M.read_mem c.mem ((c.state.x d.rs1 + d.imm_i) % 0x100000000)
      mem_access_t.MEM_RD_ACCESS_WORD).1 ∧
    (flw M c d).access_addr = (c.state.x d.rs1 + d.imm_i) % 0x100000000 ∧
    (flw M c d).state.f d.rd = (M.read_mem c.mem ((c.state.x d.rs1 + d.imm_i) % 0x100000000)
      mem_access_t.MEM_RD_ACCESS_WORD).2.1 % 0x100000000 ∧
    (flw M c d).state.f d.rd / 0x100000000 = 0 ∧
    (∀ i, i ≠ d.rd → (flw M c d).state.f i = c.state.f i) ∧
    (flw M c d).state.x = c.state.x ∧
    (flw M c d).state.csr = c.state.csr ∧
    (flw M c d).state.pc = (c.state.pc + 4) % 0x100000000 := by
  rw [flw_exec M c d hd, if_pos hf]
  refine ⟨rfl, rfl, ?_, ?_, fun i hi => ?_, rfl, rfl, rfl⟩
  · show (if d.rd = d.rd then _ else _) = _
    rw [if_pos rfl]
  · show (if d.rd = d.rd then _ else _) / 0x100000000 = 0
    rw [if_pos rfl]
    omega
  · show (if i = d.rd then _ else c.state.f i) = c.state.f i
    rw [if_neg hi]

/-- Instance of `flw_loads_word`: `flw f7, -4(x5)` with x5 = 0x1000 over the
logging memory whose reads return 0x1DEADBEEF: one word read at 0xFFC is
logged and f7 becomes 0xDEADBEEF. -/
theorem flw_loads_word_witness :
    cpu_log.disassemble = false ∧
    ((log_mem_if 0x1DEADBEEF false).read_mem cpu_log.mem
      ((cpu_log.state.x rec_fp_mem.rs1 + rec_fp_mem.imm_i) % 0x100000000)
      mem_access_t.MEM_RD_ACCESS_WORD).2.2 = false ∧
    (flw (log_mem_if 0x1DEADBEEF false) cpu_log rec_fp_mem).mem
      = [(0xFFC, 0, mem_access_t.MEM_RD_ACCESS_WORD)] ∧
    (flw (log_mem_if 0x1DEADBEEF false) cpu_log rec_fp_mem).state.f 7 = 0xDEADBEEF ∧
    (flw (log_mem_if 0x1DEADBEEF false) cpu_log rec_fp_mem).state.pc = 0x104 ∧
    (flw (log_mem_if 0x1DEADBEEF false) cpu_log rec_fp_mem).state.x = cpu_log.state.x :=
  ⟨rfl, rfl, by decide, by decide, by decide,
    (flw_loads_word (log_mem_if 0x1DEADBEEF false) cpu_log rec_fp_mem rfl rfl).2.2.2.2.2.1⟩

/-- Claim C16: FSW.  With disassemble off, FSW performs one word write whose
address is (x[rs1] + imm_s) mod 2^32 and whose data is the low 32 bits of
f[rs2]; it changes no x or f register and no CSR, and advances pc by 4 when
the write reports no fault. -/
theorem fsw_stores_low_word (M : mem_if Mem) (c : rv32i_cpu Mem) (d : rv32i_decode_t)
    (hd : c.disassemble = false) :
    (fsw M c d).mem = (M.write_mem c.mem ((c.state.x d.rs1 + d.imm_s) % 0x100000000)
      (c.state.f d.rs2 % 0x100000000) mem_access_t.MEM_WR_ACCESS_WORD).1 ∧
    (fsw M c d).access_addr = (c.state.x d.rs1 + d.imm_s) % 0x100000000 ∧
    (fsw M c d).state.x = c.state.x ∧
    (fsw M c d).state.f = c.state.f ∧
    (fsw M c d).state.csr = c.state.csr ∧
    ((M.write_mem c.mem ((c.state.x d.rs1 + d.imm_s) % 0x100000000)
        (c.state.f d.rs2 % 0x100000000) mem_access_t.MEM_WR_ACCESS_WORD).2 = false →
      (fsw M c d).state.pc = (c.state.pc + 4) % 0x100000000) := by
  rw [fsw_exec M c d hd]
  split_ifs with h
  · exact ⟨rfl, rfl, rfl, rfl, rfl, fun _ => rfl⟩
  · exact ⟨rfl, rfl, rfl, rfl, rfl, fun h1 => absurd h1 h⟩

/-- Instance of `fsw_stores_low_word`: `fsw f6, -4(x5)` with x5 = 0x1000 and
f6 = 0xAAAAAAAA12345678 over the logging memory: the log holds the single
word write of 0x12345678 at 0xFFC and pc advances. -/
theorem fsw_stores_low_word_witness :
    cpu_log.disassemble = false ∧
    (fsw (log_mem_if 0 false) cpu_log rec_fp_mem).mem
      = [(0xFFC, 0x12345678, mem_access_t.MEM_WR_ACCESS_WORD)] ∧
    (fsw (log_mem_if 0 false) cpu_log rec_fp_mem).state.pc = 0x104 ∧
    (fsw (log_mem_if 0 false) cpu_log rec_fp_mem).state.f = cpu_log.state.f :=
  ⟨rfl, by decide, by decide,
    (fsw_stores_low_word (log_mem_if 0 false) cpu_log rec_fp_mem rfl).2.2.2.1⟩

/-- Claim C17: access fault atomicity.  With disassemble off (so that the
access is performed), if the word read of FLW reports an access fault the
hart state after FLW (pc, x, f with f[rd], CSRs) is the prior hart state, and
if the word write of FSW reports an access fault the hart state after FSW is
the prior hart state. -/
theorem fault_leaves_hart_state (M : mem_if Mem) (c : rv32i_cpu Mem) (d : rv32i_decode_t)
    (hd : c.disassemble = false) :
    ((M.read_mem c.mem ((c.state.x d.rs1 + d.imm_i) % 0x100000000)
        mem_access_t.MEM_RD_ACCESS_WORD).2.2 = true →
      (flw M c d).state = c.state) ∧
    ((M.write_mem c.mem ((c.state.x d.rs1 + d.imm_s) % 0x100000000)
        (c.state.f d.rs2 % 0x100000000) mem_access_t.MEM_WR_ACCESS_WORD).2 = true →
      (fsw M c d).state = c.state) := by
  constructor
  · intro h
    rw [flw_exec M c d hd, if_neg (by rw [h]; decide)]
  · intro h
    rw [fsw_exec M c d hd, if_neg (by rw [h]; decide)]

/-- Instance of `fault_leaves_hart_state` over the logging memory with the
fault flag set: after `flw f7, -4(x5)` and after `fsw f6, -4(x5)` pc is still
0x100 and f7 still holds 0x55. -/
theorem fault_leaves_hart_state_witness :
    cpu_log.disassemble = false ∧
    ((log_mem_if 0x1DEADBEEF true).read_mem cpu_log.mem
      ((cpu_log.state.x rec_fp_mem.rs1 + rec_fp_mem.imm_i) % 0x100000000)
      mem_access_t.MEM_RD_ACCESS_WORD).2.2 = true ∧
    ((log_mem_if 0x1DEADBEEF true).write_mem cpu_log.mem
      ((cpu_log.state.x rec_fp_mem.rs1 + rec_fp_mem.imm_s) % 0x100000000)
      (cpu_log.state.f rec_fp_mem.rs2 % 0x100000000) mem_access_t.MEM_WR_ACCESS_WORD).2 = true ∧
    (flw (log_mem_if 0x1DEADBEEF true) cpu_log rec_fp_mem).state.pc = 0x100 ∧
    (flw (log_mem_if 0x1DEADBEEF true) cpu_log rec_fp_mem).state.f 7 = 0x55 ∧
    (flw (log_mem_if 0x1DEADBEEF true) cpu_log rec_fp_mem).state = cpu_log.state ∧
    (fsw (log_mem_if 0x1DEADBEEF true) cpu_log rec_fp_mem).state = cpu_log.state :=
  ⟨rfl, rfl, rfl, by decide, by decide,
    (fault_leaves_hart_state (log_mem_if 0x1DEADBEEF true) cpu_log rec_fp_mem rfl).1 rfl,
    (fault_leaves_hart_state (log_mem_if 0x1DEADBEEF true) cpu_log rec_fp_mem rfl).2 rfl⟩

/-! ## Decode tables -/

set_option maxRecDepth 100000

/-- Claim C18: M-extension decode.  After the `rv32m_cpu` constructor, whatever
the tables held before, for every funct3 value k in 0..7 the entry op_tbl[k]
is a subtable whose entry at funct7 = 0x01 is a leaf with format R naming, in
order of k, mul, mulh, mulhsu, mulhu, div, divu, rem, remu. -/
theorem m_extension_decode (t0 : decode_tables) :
    sub_entry (rv32m_cpu_tables t0) (rv32m_cpu_tables t0 .op_tbl 0) 0x01
      = some (.leaf .mul_str .RV32I_INSTR_FMT_R .mul) ∧
    sub_entry (rv32m_cpu_tables t0) (rv32m_cpu_tables t0 .op_tbl 1) 0x01
      = some (.leaf .mulh_str .RV32I_INSTR_FMT_R .mulh) ∧
    sub_entry (rv32m_cpu_tables t0) (rv32m_cpu_tables t0 .op_tbl 2) 0x01
      = some (.leaf .mulhsu_str .RV32I_INSTR_FMT_R .mulhsu) ∧
    sub_entry (rv32m_cpu_tables t0) (rv32m_cpu_tables t0 .op_tbl 3) 0x01
      = some (.leaf .mulhu_str .RV32I_INSTR_FMT_R .mulhu) ∧
    sub_entry (rv32m_cpu_tables t0) (rv32m_cpu_tables t0 .op_tbl 4) 0x01
      = some (.leaf .div_str .RV32I_INSTR_FMT_R .div) ∧
    sub_entry (rv32m_cpu_tables t0) (rv32m_cpu_tables t0 .op_tbl 5) 0x01
      = some (.leaf .divu_str .RV32I_INSTR_FMT_R .divu) ∧
    sub_entry (rv32m_cpu_tables t0) (rv32m_cpu_tables t0 .op_tbl 6) 0x01
      = some (.leaf .rem_str .RV32I_INSTR_FMT_R .rem) ∧
    sub_entry (rv32m_cpu_tables t0) (rv32m_cpu_tables t0 .op_tbl 7) 0x01
      = some (.leaf .remu_str .RV32I_INSTR_FMT_R .remu) :=
  ⟨rfl, rfl, rfl, rfl, rfl, rfl, rfl, rfl⟩

theorem fsop_entry (t0 : decode_tables) (funct3 : Nat) (h : funct3 < 8) :
    sub_entry (rv32f_cpu_tables t0) (rv32f_cpu_tables t0 .primary_tbl 0x14) funct3
      = some (.sub_table .fs_tbl) := by
  interval_cases funct3 <;> rfl

theorem op_fp_tertiary_eq (t0 : decode_tables) (funct3 funct7 : Nat) (h : funct3 < 8) :
    op_fp_tertiary (rv32f_cpu_tables t0) funct3 funct7
      = some (rv32f_cpu_tables t0 .fs_tbl funct7) := by
  unfold op_fp_tertiary
  rw [fsop_entry t0 funct3 h]
  rfl

/-- Claim C19: OP-FP arithmetic decode.  After the `rv32f_cpu` constructor,
whatever the tables held before, walking primary_tbl[0x14] -> [funct3] ->
[funct7] with funct7 equal to 0x00, 0x04, 0x08, 0x0C or 0x2C reaches, for
every value of the funct3 (rm) field, the leaf for fadds, fsubs, fmuls, fdivs
or fsqrts respectively, with format R. -/
theorem op_fp_arith_decode (t0 : decode_tables) (funct3 : Nat) (h : funct3 < 8) :
    op_fp_tertiary (rv32f_cpu_tables t0) funct3 0x00
      = some (.leaf .fadds_str .RV32I_INSTR_FMT_R .fadds) ∧
    op_fp_tertiary (rv32f_cpu_tables t0) funct3 0x04
      = some (.leaf .fsubs_str .RV32I_INSTR_FMT_R .fsubs) ∧
    op_fp_tertiary (rv32f_cpu_tables t0) funct3 0x08
      = some (.leaf .fmuls_str .RV32I_INSTR_FMT_R .fmuls) ∧
    op_fp_tertiary (rv32f_cpu_tables t0) funct3 0x0C
      = some (.leaf .fdivs_str .RV32I_INSTR_FMT_R .fdivs) ∧
    op_fp_tertiary (rv32f_cpu_tables t0) funct3 0x2C
      = some (.leaf .fsqrts_str .RV32I_INSTR_FMT_R .fsqrts) := by
  refine ⟨?_, ?_, ?_, ?_, ?_⟩ <;> rw [op_fp_tertiary_eq t0 funct3 _ h] <;> rfl

/-- Instance of `op_fp_arith_decode` at funct3 = 7 (dynamic rounding) over
tables with arbitrary prior contents. -/
theorem op_fp_arith_decode_witness :
    7 < 8 ∧
    (op_fp_tertiary (rv32f_cpu_tables junk_tables) 7 0x00
        = some (.leaf .fadds_str .RV32I_INSTR_FMT_R .fadds) ∧
      op_fp_tertiary (rv32f_cpu_tables junk_tables) 7 0x04
        = some (.leaf .fsubs_str .RV32I_INSTR_FMT_R .fsubs) ∧
      op_fp_tertiary (rv32f_cpu_tables junk_tables) 7 0x08
        = some (.leaf .fmuls_str .RV32I_INSTR_FMT_R .fmuls) ∧
      op_fp_tertiary (rv32f_cpu_tables junk_tables) 7 0x0C
        = some (.leaf .fdivs_str .RV32I_INSTR_FMT_R .fdivs) ∧
      op_fp_tertiary (rv32f_cpu_tables junk_tables) 7 0x2C
        = some (.leaf .fsqrts_str .RV32I_INSTR_FMT_R .fsqrts)) :=
  ⟨by decide, op_fp_arith_decode junk_tables 7 (by decide)⟩

/-- Claim C20: quaternary decode of sign injection and min/max.  After the
`rv32f_cpu` constructor, whatever the tables held before, for an OP-FP
record with funct7 = 0x10 the entry reached through the walk and
`decode_exception` on funct3 is fsgnjs for funct3 = 0, fsgnjns for 1 and
fsgnjxs for 2, and for one with funct7 = 0x14 it is fmins for funct3 = 0 and
fmaxs for 1, each with format R; for every other funct3 value of the two
families it is the reserved handler with format ILLEGAL. -/
theorem sgnj_minmax_decode (t0 : decode_tables) (d : rv32i_decode_t) (h : d.funct3 < 8) :
    (d.funct7 = 0x10 →
      (op_fp_tertiary (rv32f_cpu_tables t0) d.funct3 d.funct7).bind
          (fun e => decode_exception (rv32f_cpu_tables t0) e d)
        = some (if d.funct3 = 0 then .leaf .fsgnjs_str .RV32I_INSTR_FMT_R .fsgnjs
            else if d.funct3 = 1 then .leaf .fsgnjns_str .RV32I_INSTR_FMT_R .fsgnjns
            else if d.funct3 = 2 then .leaf .fsgnjxs_str .RV32I_INSTR_FMT_R .fsgnjxs
            else .leaf .reserved_str .RV32I_INSTR_ILLEGAL .reserved)) ∧
    (d.funct7 = 0x14 →
      (op_fp_tertiary (rv32f_cpu_tables t0) d.funct3 d.funct7).bind
          (fun e => decode_exception (rv32f_cpu_tables t0) e d)
        = some (if d.funct3 = 0 then .leaf .fmins_str .RV32I_INSTR_FMT_R .fmins
            else if d.funct3 = 1 then .leaf .fmaxs_str .RV32I_INSTR_FMT_R .fmaxs
            else .leaf .reserved_str .RV32I_INSTR_ILLEGAL .reserved)) := by
  obtain ⟨instr, funct3, funct7, rd, rs1, rs2, imm_i, imm_s⟩ := d
  dsimp only at h ⊢
  constructor
  · intro h7
    subst h7
    rw [op_fp_tertiary_eq t0 funct3 _ h]
    interval_cases funct3 <;> rfl
  · intro h7
    subst h7
    rw [op_fp_tertiary_eq t0 funct3 _ h]
    interval_cases funct3 <;> rfl

/-- Instance of `sgnj_minmax_decode` over tables with arbitrary prior
contents: FSGNJX.S (funct7 = 0x10, funct3 = 2) reaches fsgnjxs, and the
min/max family with funct3 = 5 reaches the reserved handler. -/
theorem sgnj_minmax_decode_witness :
    (rec_op_fp 2 0x10).funct3 < 8 ∧ (rec_op_fp 2 0x10).funct7 = 0x10 ∧
    (rec_op_fp 5 0x14).funct3 < 8 ∧ (rec_op_fp 5 0x14).funct7 = 0x14 ∧
    (op_fp_tertiary (rv32f_cpu_tables junk_tables) (rec_op_fp 2 0x10).funct3
        (rec_op_fp 2 0x10).funct7).bind
        (fun e => decode_exception (rv32f_cpu_tables junk_tables) e (rec_op_fp 2 0x10))
      = some (.leaf .fsgnjxs_str .RV32I_INSTR_FMT_R .fsgnjxs) ∧
    (op_fp_tertiary (rv32f_cpu_tables junk_tables) (rec_op_fp 5 0x14).funct3
        (rec_op_fp 5 0x14).funct7).bind
        (fun e => decode_exception (rv32f_cpu_tables junk_tables) e (rec_op_fp 5 0x14))
      = some (.leaf .reserved_str .RV32I_INSTR_ILLEGAL .reserved) :=
  ⟨by decide, rfl, by decide, rfl,
    (sgnj_minmax_decode junk_tables (rec_op_fp 2 0x10) (by decide)).1 rfl,
    (sgnj_minmax_decode junk_tables (rec_op_fp 5 0x14) (by decide)).2 rfl⟩

/-! ## Decode tables: loops and untouched entries -/

theorem tbl_set_ne_tbl (t : decode_tables) (tbl : decode_tbl) (i : Nat)
    (e : rv32i_decode_table_t) (tbl1 : decode_tbl) (i1 : Nat) (h : tbl1 ≠ tbl) :
    tbl_set t tbl i e tbl1 i1 = t tbl1 i1 := by
  unfold tbl_set
  rw [if_neg (fun hc => h hc.1)]

theorem tbl_set_ne_idx (t : decode_tables) (tbl : decode_tbl) (i : Nat)
    (e : rv32i_decode_table_t) (tbl1 : decode_tbl) (i1 : Nat) (h : i1 ≠ i) :
    tbl_set t tbl i e tbl1 i1 = t tbl1 i1 := by
  unfold tbl_set
  rw [if_neg (fun hc => h hc.2)]

theorem tbl_set_same (t : decode_tables) (tbl : decode_tbl) (i : Nat)
    (e : rv32i_decode_table_t) : tbl_set t tbl i e tbl i = e := by
  unfold tbl_set
  rw [if_pos ⟨rfl, rfl⟩]

theorem foldl_entry (body : decode_tables → Nat → decode_tables) (tbl : decode_tbl)
    (idx : Nat) (e : rv32i_decode_table_t)
    (hb : ∀ t i, body t i tbl idx = if idx = i then e else t tbl idx) :
    ∀ (l : List Nat) (t : decode_tables),
      l.foldl body t tbl idx = if idx ∈ l then e else t tbl idx := by
  intro l
  induction l with
  | nil => intro t; simp
  | cons a l ih =>
    intro t
    rw [List.foldl_cons, ih, hb]
    by_cases h1 : idx ∈ l
    · simp [h1]
    · by_cases h2 : idx = a
      · simp [h2]
      · simp [h1, h2]

theorem for_loop_entry (lo hi : Nat) (body : decode_tables → Nat → decode_tables)
    (t : decode_tables) (tbl : decode_tbl) (idx : Nat) (e : rv32i_decode_table_t)
    (hb : ∀ t i, body t i tbl idx = if idx = i then e else t tbl idx) :
    for_loop lo hi body t tbl idx = if lo ≤ idx ∧ idx < hi then e else t tbl idx := by
  unfold for_loop
  rw [foldl_entry body tbl idx e hb]
  by_cases h : lo ≤ idx ∧ idx < hi
  · rw [if_pos h, if_pos]
    rw [List.mem_range'_1]
    omega
  · rw [if_neg h, if_neg]
    rw [List.mem_range'_1]
    omega

theorem foldl_untouched (body : decode_tables → Nat → decode_tables) (tbl : decode_tbl)
    (idx : Nat) (hb : ∀ t i, body t i tbl idx = t tbl idx) :
    ∀ (l : List Nat) (t : decode_tables), l.foldl body t tbl idx = t tbl idx := by
  intro l
  induction l with
  | nil => intro t; rfl
  | cons a l ih =>
    intro t
    rw [List.foldl_cons, ih, hb]

theorem for_loop_untouched (lo hi : Nat) (body : decode_tables → Nat → decode_tables)
    (t : decode_tables) (tbl : decode_tbl) (idx : Nat)
    (hb : ∀ t i, body t i tbl idx = t tbl idx) :
    for_loop lo hi body t tbl idx = t tbl idx := by
  unfold for_loop
  exact foldl_untouched body tbl idx hb _ t

theorem m_tertiary_from_2 (t0 : decode_tables) (tbl : decode_tbl) (htbl : tbl ∈ m_tertiary_tbls)
    (idx : Nat) (h2 : 2 ≤ idx) (h128 : idx < 128) :
    rv32m_cpu_tables t0 tbl idx = reserved_entry := by
  unfold rv32m_cpu_tables
  dsimp only
  simp only [m_tertiary_tbls, List.mem_cons, List.mem_singleton, List.not_mem_nil,
    or_false] at htbl
  rcases htbl with rfl | rfl | rfl | rfl | rfl | rfl <;>
  · iterate 8 rw [tbl_set_ne_tbl _ _ _ _ _ _ (by decide)]
    rw [for_loop_entry _ _ _ _ _ _ reserved_entry
      (by intro t i; by_cases h : idx = i <;> simp [tbl_set, h])]
    rw [if_pos ⟨h2, h128⟩]

theorem fs_tbl_unassigned (t0 : decode_tables) (idx : Nat) (h : idx ∉ fs_tbl_assigned) :
    rv32f_cpu_tables t0 .fs_tbl idx = t0 .fs_tbl idx := by
  simp only [fs_tbl_assigned, List.mem_cons, List.mem_singleton, List.not_mem_nil,
    or_false, not_or] at h
  obtain ⟨h1, h2, h3, h4, h5, h6, h7, h8, h9, h10, h11, h12⟩ := h
  unfold rv32f_cpu_tables
  dsimp only
  iterate 7 rw [tbl_set_ne_tbl _ _ _ _ _ _ (by decide)]
  rw [for_loop_untouched _ _ _ _ _ _
    (by intro t i; exact tbl_set_ne_tbl _ _ _ _ _ _ (by decide))]
  rw [tbl_set_ne_idx _ _ _ _ _ _ h12, tbl_set_ne_idx _ _ _ _ _ _ h11,
    tbl_set_ne_idx _ _ _ _ _ _ h10, tbl_set_ne_idx _ _ _ _ _ _ h9,
    tbl_set_ne_idx _ _ _ _ _ _ h8, tbl_set_ne_idx _ _ _ _ _ _ h7,
    tbl_set_ne_idx _ _ _ _ _ _ h6, tbl_set_ne_idx _ _ _ _ _ _ h5,
    tbl_set_ne_idx _ _ _ _ _ _ h4, tbl_set_ne_idx _ _ _ _ _ _ h3,
    tbl_set_ne_idx _ _ _ _ _ _ h2, tbl_set_ne_idx _ _ _ _ _ _ h1]
  iterate 10 rw [tbl_set_ne_tbl _ _ _ _ _ _ (by decide)]
  rw [for_loop_untouched _ _ _ _ _ _
    (by
      intro t i
      iterate 4 rw [tbl_set_ne_tbl _ _ _ _ _ _ (by decide)])]

theorem op_fp_unassigned (t0 : decode_tables) (funct3 funct7 : Nat) (h3 : funct3 < 8)
    (h : funct7 ∉ fs_tbl_assigned) :
    op_fp_tertiary (rv32f_cpu_tables t0) funct3 funct7 = some (t0 .fs_tbl funct7) := by
  rw [op_fp_tertiary_eq t0 funct3 funct7 h3, fs_tbl_unassigned t0 funct7 h]

/-! ## Decode of the remaining OP-FP families -/

theorem fcmp_at_0x40 (t0 : decode_tables) (d : rv32i_decode_t) (h : d.funct3 < 8)
    (h7 : d.funct7 = 0x40) :
    (op_fp_tertiary (rv32f_cpu_tables t0) d.funct3 d.funct7).bind
        (fun e => decode_exception (rv32f_cpu_tables t0) e d)
      = some (if d.funct3 = 0 then .leaf .fles_str .RV32I_INSTR_FMT_R .fles
          else if d.funct3 = 1 then .leaf .flts_str .RV32I_INSTR_FMT_R .flts
          else if d.funct3 = 2 then .leaf .feqs_str .RV32I_INSTR_FMT_R .feqs
          else .leaf .reserved_str .RV32I_INSTR_ILLEGAL .reserved) := by
  obtain ⟨instr, funct3, funct7, rd, rs1, rs2, imm_i, imm_s⟩ := d
  dsimp only at h h7 ⊢
  subst h7
  rw [op_fp_tertiary_eq t0 funct3 _ h]
  interval_cases funct3 <;> rfl

theorem fcmp_canonical_unassigned (t0 : decode_tables) (funct3 : Nat) (h : funct3 < 8) :
    op_fp_tertiary (rv32f_cpu_tables t0) funct3 0x50 = some (t0 .fs_tbl 0x50) :=
  op_fp_unassigned t0 funct3 0x50 h (by decide)

/-- Claim C21: floating-point compare decode.  The constructor places the
compare table at funct7 = 0x40 and never writes fs_tbl[0x50]: over tables
whose prior contents are a leaf naming flw, the OP-FP records with the
canonical compare funct7 = 0x50 and funct3 = 0, 1, 2 reach that prior leaf at
the tertiary level and nothing at the fourth level, not fles, flts, feqs,
which are reached with funct7 = 0x40 instead. -/
theorem fcmp_decode_at_0x50 :
    op_fp_tertiary (rv32f_cpu_tables prior_flw) 0 0x50
      = some (.leaf .flw_str .RV32I_INSTR_FMT_I .flw) ∧
    op_fp_tertiary (rv32f_cpu_tables prior_flw) 1 0x50
      = some (.leaf .flw_str .RV32I_INSTR_FMT_I .flw) ∧
    op_fp_tertiary (rv32f_cpu_tables prior_flw) 2 0x50
      = some (.leaf .flw_str .RV32I_INSTR_FMT_I .flw) ∧
    op_fp_walk (rv32f_cpu_tables prior_flw) (rec_op_fp 0 0x50) = none ∧
    op_fp_walk (rv32f_cpu_tables prior_flw) (rec_op_fp 1 0x50) = none ∧
    op_fp_walk (rv32f_cpu_tables prior_flw) (rec_op_fp 2 0x50) = none ∧
    op_fp_walk (rv32f_cpu_tables prior_flw) (rec_op_fp 0 0x40)
      = some (.leaf .fles_str .RV32I_INSTR_FMT_R .fles) ∧
    op_fp_walk (rv32f_cpu_tables prior_flw) (rec_op_fp 1 0x40)
      = some (.leaf .flts_str .RV32I_INSTR_FMT_R .flts) ∧
    op_fp_walk (rv32f_cpu_tables prior_flw) (rec_op_fp 2 0x40)
      = some (.leaf .feqs_str .RV32I_INSTR_FMT_R .feqs) :=
  ⟨rfl, rfl, rfl, rfl, rfl, rfl, rfl, rfl, rfl⟩

theorem cvt_mv_assigned (t0 : decode_tables) (funct3 : Nat) (h : funct3 < 8) :
    op_fp_tertiary (rv32f_cpu_tables t0) funct3 0x60
      = some (.leaf .fcvtws_str .RV32I_INSTR_FMT_R .fcvtws) ∧
    op_fp_tertiary (rv32f_cpu_tables t0) funct3 0x61
      = some (.leaf .fcvtsw_str .RV32I_INSTR_FMT_R .fcvtsw) ∧
    op_fp_tertiary (rv32f_cpu_tables t0) funct3 0x71
      = some (.leaf .fmvwx_str .RV32I_INSTR_FMT_R .fmvwx) ∧
    op_fp_tertiary (rv32f_cpu_tables t0) funct3 0x70 = some (.sub_table .fmv_tbl) ∧
    rv32f_cpu_tables t0 .fmv_tbl 0 = .leaf .fmvxw_str .RV32I_INSTR_FMT_R .fmvxw ∧
    rv32f_cpu_tables t0 .fmv_tbl 1 = .leaf .fclasss_str .RV32I_INSTR_FMT_R .fclasss ∧
    op_fp_tertiary (rv32f_cpu_tables t0) funct3 0x68 = some (t0 .fs_tbl 0x68) ∧
    op_fp_tertiary (rv32f_cpu_tables t0) funct3 0x78 = some (t0 .fs_tbl 0x78) := by
  refine ⟨?_, ?_, ?_, ?_, rfl, rfl, op_fp_unassigned t0 funct3 0x68 h (by decide),
    op_fp_unassigned t0 funct3 0x78 h (by decide)⟩ <;>
  · rw [op_fp_tertiary_eq t0 funct3 _ h]
    rfl

/-- Claim C22: conversion and move decode.  The constructor assigns fcvtsw at
funct7 = 0x61 and fmvwx at funct7 = 0x71 and never writes fs_tbl[0x68] and
fs_tbl[0x78]: over tables whose prior contents are a leaf naming flw, the
canonical FCVT.S.W (funct7 = 0x68) and FMV.W.X (funct7 = 0x78) words reach
that prior leaf, not fcvtsw and fmvwx, which are reached with funct7 = 0x61
and 0x71; funct7 = 0x60 reaches fcvtws and funct7 = 0x70 reaches fmvxw for
funct3 = 0 and fclasss for funct3 = 1. -/
theorem cvt_mv_decode_at_0x68_0x78 :
    op_fp_tertiary (rv32f_cpu_tables prior_flw) 0 0x68
      = some (.leaf .flw_str .RV32I_INSTR_FMT_I .flw) ∧
    op_fp_tertiary (rv32f_cpu_tables prior_flw) 0 0x78
      = some (.leaf .flw_str .RV32I_INSTR_FMT_I .flw) ∧
    op_fp_tertiary (rv32f_cpu_tables prior_flw) 0 0x61
      = some (.leaf .fcvtsw_str .RV32I_INSTR_FMT_R .fcvtsw) ∧
    op_fp_tertiary (rv32f_cpu_tables prior_flw) 0 0x71
      = some (.leaf .fmvwx_str .RV32I_INSTR_FMT_R .fmvwx) ∧
    op_fp_tertiary (rv32f_cpu_tables prior_flw) 0 0x60
      = some (.leaf .fcvtws_str .RV32I_INSTR_FMT_R .fcvtws) ∧
    op_fp_walk (rv32f_cpu_tables prior_flw) (rec_op_fp 0 0x70)
      = some (.leaf .fmvxw_str .RV32I_INSTR_FMT_R .fmvxw) ∧
    op_fp_walk (rv32f_cpu_tables prior_flw) (rec_op_fp 1 0x70)
      = some (.leaf .fclasss_str .RV32I_INSTR_FMT_R .fclasss) :=
  ⟨rfl, rfl, rfl, rfl, rfl, rfl, rfl⟩

/-! ## Reserved entries and the overlay of the M extension -/

/-- Claim C26: the M overlay keeps the base and adds nothing else.  After the
`rv32m_cpu` constructor, whatever the tables held before, in sll_tbl,
slt_tbl, sltu_tbl, xor_tbl, or_tbl and and_tbl the entry at funct7 = 0x00 is
the base leaf sllr, sltr, sltur, xorr, orr, andr respectively with format R,
and every entry at funct7 in 2..127 is the reserved handler with format
ILLEGAL. -/
theorem m_overlay_keeps_base (t0 : decode_tables) :
    rv32m_cpu_tables t0 .sll_tbl 0x00 = .leaf .sll_str .RV32I_INSTR_FMT_R .sllr ∧
    rv32m_cpu_tables t0 .slt_tbl 0x00 = .leaf .slt_str .RV32I_INSTR_FMT_R .sltr ∧
    rv32m_cpu_tables t0 .sltu_tbl 0x00 = .leaf .sltu_str .RV32I_INSTR_FMT_R .sltur ∧
    rv32m_cpu_tables t0 .xor_tbl 0x00 = .leaf .xor_str .RV32I_INSTR_FMT_R .xorr ∧
    rv32m_cpu_tables t0 .or_tbl 0x00 = .leaf .or_str .RV32I_INSTR_FMT_R .orr ∧
    rv32m_cpu_tables t0 .and_tbl 0x00 = .leaf .and_str .RV32I_INSTR_FMT_R .andr ∧
    (∀ tbl ∈ m_tertiary_tbls, ∀ funct7, 2 ≤ funct7 → funct7 < 128 →
      rv32m_cpu_tables t0 tbl funct7 = .leaf .reserved_str .RV32I_INSTR_ILLEGAL .reserved) :=
  ⟨rfl, rfl, rfl, rfl, rfl, rfl,
    fun tbl htbl funct7 h2 h128 => m_tertiary_from_2 t0 tbl htbl funct7 h2 h128⟩

/-- Instance of `m_overlay_keeps_base` over tables with arbitrary prior
contents: xor_tbl[0x7f] and sll_tbl[0x20] are the reserved leaf. -/
theorem m_overlay_keeps_base_witness :
    decode_tbl.xor_tbl ∈ m_tertiary_tbls ∧ 2 ≤ 0x7f ∧ 0x7f < 128 ∧
    rv32m_cpu_tables junk_tables .xor_tbl 0x7f
      = .leaf .reserved_str .RV32I_INSTR_ILLEGAL .reserved ∧
    decode_tbl.sll_tbl ∈ m_tertiary_tbls ∧ 2 ≤ 0x20 ∧ 0x20 < 128 ∧
    rv32m_cpu_tables junk_tables .sll_tbl 0x20
      = .leaf .reserved_str .RV32I_INSTR_ILLEGAL .reserved :=
  ⟨by decide, by decide, by decide,
    (m_overlay_keeps_base junk_tables).2.2.2.2.2.2 .xor_tbl (by decide) 0x7f
      (by decide) (by decide),
    by decide, by decide, by decide,
    (m_overlay_keeps_base junk_tables).2.2.2.2.2.2 .sll_tbl (by decide) 0x20
      (by decide) (by decide)⟩

/-- Claim C27: unassigned OP-FP encodings.  The constructor has no loop that
fills fs_tbl with the reserved leaf: funct7 = 0x01 is not among the indices
it assigns, and over tables whose prior contents are a leaf naming flw with
format I, fs_tbl[0x01] after construction is that prior leaf, not the reserved
leaf, and an OP-FP word with funct7 = 0x01 reaches it. -/
theorem fs_tbl_unassigned_not_reserved :
    0x01 ∉ fs_tbl_assigned ∧
    rv32f_cpu_tables prior_flw .fs_tbl 0x01 = .leaf .flw_str .RV32I_INSTR_FMT_I .flw ∧
    rv32f_cpu_tables prior_flw .fs_tbl 0x01 ≠ reserved_entry ∧
    op_fp_tertiary (rv32f_cpu_tables prior_flw) 0 0x01
      = some (.leaf .flw_str .RV32I_INSTR_FMT_I .flw) := by
  have h : rv32f_cpu_tables prior_flw .fs_tbl 0x01
      = .leaf .flw_str .RV32I_INSTR_FMT_I .flw := rfl
  refine ⟨by decide, h, ?_, rfl⟩
  rw [h]
  decide

/-! ## Primary slots of the F extension -/

/-- Claim C28: F primary slots.  After the `rv32f_cpu` constructor, whatever
the tables held before, primary_tbl holds the leaf flw with format I at 0x01,
fsw with format S at 0x09, fmadds, fmsubs, fnmsubs, fnmadds with format R4 at
0x10, 0x11, 0x12, 0x13, and at 0x14 a reference to fsop_tbl, all eight of
whose entries reference fs_tbl. -/
theorem f_primary_slots (t0 : decode_tables) :
    rv32f_cpu_tables t0 .primary_tbl 0x01 = .leaf .flw_str .RV32I_INSTR_FMT_I .flw ∧
    rv32f_cpu_tables t0 .primary_tbl 0x09 = .leaf .fsw_str .RV32I_INSTR_FMT_S .fsw ∧
    rv32f_cpu_tables t0 .primary_tbl 0x10 = .leaf .fmadds_str .RV32I_INSTR_FMT_R4 .fmadds ∧
    rv32f_cpu_tables t0 .primary_tbl 0x11 = .leaf .fmsubs_str .RV32I_INSTR_FMT_R4 .fmsubs ∧
    rv32f_cpu_tables t0 .primary_tbl 0x12 = .leaf .fnmsubs_str .RV32I_INSTR_FMT_R4 .fnmsubs ∧
    rv32f_cpu_tables t0 .primary_tbl 0x13 = .leaf .fnmadds_str .RV32I_INSTR_FMT_R4 .fnmadds ∧
    rv32f_cpu_tables t0 .primary_tbl 0x14 = .sub_table .fsop_tbl ∧
    (∀ funct3 < 8, rv32f_cpu_tables t0 .fsop_tbl funct3 = .sub_table .fs_tbl) := by
  refine ⟨rfl, rfl, rfl, rfl, rfl, rfl, rfl, fun funct3 h => ?_⟩
  interval_cases funct3 <;> rfl

/-- Instance of `f_primary_slots` over tables with arbitrary prior contents:
the primary entry at 0x10 is fmadds and fsop_tbl[7] references fs_tbl. -/
theorem f_primary_slots_witness :
    rv32f_cpu_tables junk_tables .primary_tbl 0x10
      = .leaf .fmadds_str .RV32I_INSTR_FMT_R4 .fmadds ∧
    (7 < 8 ∧ rv32f_cpu_tables junk_tables .fsop_tbl 7 = .sub_table .fs_tbl) :=
  ⟨(f_primary_slots junk_tables).2.2.1,
    ⟨by decide, (f_primary_slots junk_tables).2.2.2.2.2.2.2 7 (by decide)⟩⟩

/-- Claim C29, as stated, fails: after the `rv32f_cpu` constructor the
primary-table entries at 0x01, 0x09, 0x10, 0x11, 0x12 and 0x13 have the
`sub_table` flag clear, over tables with arbitrary prior contents. -/
theorem f_primary_slots_not_sub_tables :
    (rv32f_cpu_tables junk_tables .primary_tbl 0x01).is_sub_table = false ∧
    (rv32f_cpu_tables junk_tables .primary_tbl 0x09).is_sub_table = false ∧
    (rv32f_cpu_tables junk_tables .primary_tbl 0x10).is_sub_table = false ∧
    (rv32f_cpu_tables junk_tables .primary_tbl 0x11).is_sub_table = false ∧
    (rv32f_cpu_tables junk_tables .primary_tbl 0x12).is_sub_table = false ∧
    (rv32f_cpu_tables junk_tables .primary_tbl 0x13).is_sub_table = false :=
  ⟨rfl, rfl, rfl, rfl, rfl, rfl⟩

theorem f_primary_leaf_flags (t0 : decode_tables) (idx : Nat)
    (h : idx ∈ f_primary_leaf_slots) :
    (rv32f_cpu_tables t0 .primary_tbl idx).is_sub_table = false := by
  simp only [f_primary_leaf_slots, List.mem_cons, List.mem_singleton, List.not_mem_nil,
    or_false] at h
  rcases h with rfl | rfl | rfl | rfl | rfl | rfl <;> rfl

/-- Claim C29, amended: after the `rv32f_cpu` constructor, whatever the tables
held before, the primary-table entries for LOAD-FP (0x01), STORE-FP (0x09)
and MADD, MSUB, NMSUB, NMADD (0x10..0x13) are terminal leaves (`sub_table`
clear, no child entry for any index); only the entry for OP-FP (0x14) is a
subtable reference. -/
theorem f_primary_slots_terminal (t0 : decode_tables) (idx : Nat)
    (h : idx ∈ f_primary_leaf_slots) :
    (rv32f_cpu_tables t0 .primary_tbl idx).is_sub_table = false ∧
    (∀ k, sub_entry (rv32f_cpu_tables t0) (rv32f_cpu_tables t0 .primary_tbl idx) k = none) ∧
    (rv32f_cpu_tables t0 .primary_tbl 0x14).is_sub_table = true := by
  refine ⟨f_primary_leaf_flags t0 idx h, fun k => ?_, rfl⟩
  simp only [f_primary_leaf_slots, List.mem_cons, List.mem_singleton, List.not_mem_nil,
    or_false] at h
  rcases h with rfl | rfl | rfl | rfl | rfl | rfl <;> rfl

/-- Instance of `f_primary_slots_terminal` at the LOAD-FP slot over tables with
arbitrary prior contents. -/
theorem f_primary_slots_terminal_witness :
    0x01 ∈ f_primary_leaf_slots ∧
    ((rv32f_cpu_tables junk_tables .primary_tbl 0x01).is_sub_table = false ∧
      (∀ k, sub_entry (rv32f_cpu_tables junk_tables)
        (rv32f_cpu_tables junk_tables .primary_tbl 0x01) k = none) ∧
      (rv32f_cpu_tables junk_tables .primary_tbl 0x14).is_sub_table = true) :=
  ⟨by decide, f_primary_slots_terminal junk_tables 0x01 (by decide)⟩

/-! ## Construction of the F extension state -/

theorem testBit_ext_f (i : Nat) : RV32CSR_EXT_F.testBit i = decide (i = 5) := by
  show (2 ^ 5 : Nat).testBit i = decide (i = 5)
  rw [Nat.testBit_two_pow]
  by_cases h : i = 5
  · simp [h]
  · have h1 : ¬ 5 = i := fun hc => h hc.symm
    simp [h, h1]

/-- Claim C25: MISA advertises F.  After the state part of the `rv32f_cpu`
constructor, run on whatever state the ancestor constructors left, bit 5 (the
F-extension bit) of csr[MISA] is set, every other bit of csr[MISA] is as the
ancestors left it, and so are every other CSR, the registers and pc. -/
theorem misa_advertises_f (c : rv32i_cpu Mem) :
    ((rv32f_cpu_state c).state.csr RV32CSR_ADDR_MISA).testBit 5 = true ∧
    (∀ i, i ≠ 5 → ((rv32f_cpu_state c).state.csr RV32CSR_ADDR_MISA).testBit i
      = (c.state.csr RV32CSR_ADDR_MISA).testBit i) ∧
    (∀ a, a ≠ RV32CSR_ADDR_MISA → (rv32f_cpu_state c).state.csr a = c.state.csr a) ∧
    (rv32f_cpu_state c).state.x = c.state.x ∧
    (rv32f_cpu_state c).state.f = c.state.f ∧
    (rv32f_cpu_state c).state.pc = c.state.pc := by
  refine ⟨?_, fun i hi => ?_, fun a ha => ?_, rfl, rfl, rfl⟩
  · unfold rv32f_cpu_state
    rw [set_csr_same, Nat.testBit_or, testBit_ext_f]
    simp
  · unfold rv32f_cpu_state
    rw [set_csr_same, Nat.testBit_or, testBit_ext_f]
    simp [hi]
  · unfold rv32f_cpu_state
    rw [set_csr_other _ _ _ _ ha]

/-- Instance of `misa_advertises_f` on a state whose MISA holds 0x40001100
(RV32 with I and M): the constructor leaves 0x40001120, bit 12 is kept and
FCSR is untouched. -/
theorem misa_advertises_f_witness :
    (rv32f_cpu_state (cpu_misa 0x40001100)).state.csr RV32CSR_ADDR_MISA = 0x40001120 ∧
    (12 ≠ 5 ∧ ((rv32f_cpu_state (cpu_misa 0x40001100)).state.csr RV32CSR_ADDR_MISA).testBit 12
      = ((cpu_misa 0x40001100).state.csr RV32CSR_ADDR_MISA).testBit 12) ∧
    (RV32CSR_ADDR_FCSR ≠ RV32CSR_ADDR_MISA ∧
      (rv32f_cpu_state (cpu_misa 0x40001100)).state.csr RV32CSR_ADDR_FCSR
        = (cpu_misa 0x40001100).state.csr RV32CSR_ADDR_FCSR) :=
  ⟨by decide,
    ⟨by decide, (misa_advertises_f (cpu_misa 0x40001100)).2.1 12 (by decide)⟩,
    ⟨by decide, (misa_advertises_f (cpu_misa 0x40001100)).2.2.1 RV32CSR_ADDR_FCSR (by decide)⟩⟩

/-! ## The rs3 argument of the FMADD family -/

theorem fmadd_rs3_eq (d : rv32i_decode_t) : fmadd_rs3 d = d.imm_s / 4 % 32 := by
  unfold fmadd_rs3
  rw [Nat.shiftRight_eq_div_pow]
  exact Nat.and_pow_two_sub_one_eq_mod _ 5

theorem spec_rs3_eq (w : Nat) : spec_rs3 w = w / 2 ^ 27 % 32 := by
  unfold spec_rs3
  rw [Nat.shiftRight_eq_div_pow]
  exact Nat.and_pow_two_sub_one_eq_mod _ 5

theorem funct7_shift_is_rs3 (w : Nat) :
    (((spec_decode_s w).funct7 >>> 2) &&& 0x1f) = spec_rs3 w := by
  rw [spec_rs3_eq]
  show ((((w >>> 25) &&& 0x7f) >>> 2) &&& 0x1f) = w / 2 ^ 27 % 32
  rw [Nat.shiftRight_eq_div_pow, Nat.shiftRight_eq_div_pow,
    Nat.and_pow_two_sub_one_eq_mod _ 5, Nat.and_pow_two_sub_one_eq_mod _ 7]
  omega

theorem spec_imm_s_shift7 (w : Nat) :
    ((spec_imm_s w >>> 7) &&& 0x1f) = spec_rs3 w := by
  apply Nat.eq_of_testBit_eq
  intro i
  unfold spec_rs3 spec_imm_s
  dsimp only
  by_cases hi : i < 5
  · have e1 : 7 + i ≥ 5 := by omega
    have e2 : 25 + (7 + i - 5) = 27 + i := by omega
    have e4 : (0x7f : Nat).testBit (7 + i - 5) = true := by
      rw [show (0x7f : Nat) = 2 ^ 7 - 1 from rfl, Nat.testBit_two_pow_sub_one]
      simp; omega
    have e5 : (0x1f : Nat).testBit (7 + i) = false := by
      rw [testBit_mask5]; simp; omega
    have e6 : (0xFFFFF000 : Nat).testBit (7 + i) = false := by
      interval_cases i <;> rfl
    split_ifs <;>
    · simp only [Nat.testBit_and, Nat.testBit_shiftRight, Nat.testBit_or,
        Nat.testBit_shiftLeft, testBit_mask5]
      simp [hi, e1, e2, e4, e5, e6]
  · split_ifs <;>
    · simp only [Nat.testBit_and, Nat.testBit_shiftRight, Nat.testBit_or,
        Nat.testBit_shiftLeft, testBit_mask5]
      simp [hi]

theorem fmadd_rs3_bits (w : Nat) :
    fmadd_rs3 (spec_decode_s w) = (((w >>> 25) &&& 0x3) <<< 3) ||| ((w >>> 9) &&& 0x7) := by
  apply Nat.eq_of_testBit_eq
  intro i
  show (((spec_imm_s w) >>> 2) &&& 0x1f).testBit i = _
  unfold spec_imm_s
  dsimp only
  have m3 : ∀ j, (0x3 : Nat).testBit j = decide (j < 2) := Nat.testBit_two_pow_sub_one 2
  have m7 : ∀ j, (0x7f : Nat).testBit j = decide (j < 7) := Nat.testBit_two_pow_sub_one 7
  by_cases hi : i < 5
  · have e6 : (0xFFFFF000 : Nat).testBit (2 + i) = false := by
      interval_cases i <;> rfl
    split_ifs <;>
    · simp only [Nat.testBit_and, Nat.testBit_shiftRight, Nat.testBit_or,
        Nat.testBit_shiftLeft, testBit_mask5, testBit_mask3, m3, m7, e6]
      interval_cases i <;> simp
  · split_ifs <;>
    · simp only [Nat.testBit_and, Nat.testBit_shiftRight, Nat.testBit_or,
        Nat.testBit_shiftLeft, testBit_mask5, testBit_mask3, m3, m7]
      have h3 : ¬ (i - 3 < 2) := by omega
      have h4 : ¬ (i < 3) := by omega
      simp [hi, h3, h4]

/-- Claim C30: rs3 of the R4 format.  The FMADD-family handlers take the
third source register from `(imm_s >> 2) & 0x1f`, which selects bits 6:2 of
the S-immediate, that is w[26:25] and w[11:9], not bits 31:27 of the word:
for `fmadd.s f0, f0, f0, f1` (w = 0x08000043, rs3 = 1) the standard
S-immediate is 0x80, the handlers derive register 0 and bits 31:27 are 1;
the index 1 is obtained from funct7 >> 2 and from imm_s >> 7. -/
theorem fmadd_rs3_not_bits_31_27 :
    spec_imm_s 0x08000043 = 0x80 ∧
    fmadd_rs3 (spec_decode_s 0x08000043) = 0 ∧
    spec_rs3 0x08000043 = 1 ∧
    fmadd_rs3 (spec_decode_s 0x08000043) ≠ spec_rs3 0x08000043 ∧
    (((spec_decode_s 0x08000043).funct7 >>> 2) &&& 0x1f) = spec_rs3 0x08000043 ∧
    (((spec_decode_s 0x08000043).imm_s >>> 7) &&& 0x1f) = spec_rs3 0x08000043 := by
  decide

/-! ## Moves and sign injection -/

theorem increment_pc_twice (c : rv32i_cpu Mem) :
    (increment_pc (increment_pc c)).state.pc = (c.state.pc + 8) % 0x100000000 := by
  show ((c.state.pc + 4) % 0x100000000 + 4) % 0x100000000 = (c.state.pc + 8) % 0x100000000
  omega

/-- Claim C23, as stated, fails: with the NaN pattern p = 0x7FC00001 in the low
half of f2 and x1 = 0, f4 = 0 beforehand, executing `fmv.x.w x1, f2` and then
`fmv.w.x f4, x1` leaves x1 = 0 and the low 32 bits of f4 = 0, neither of which
is p. -/
theorem fmv_round_trip_fails :
    (rec_op_fp 0 0x70).rd ≠ 0 ∧
    (cpu_f2_f3 0xFFFFFFFF7FC00001 0).state.f (rec_op_fp 0 0x70).rs1 % 0x100000000
      = 0x7FC00001 ∧
    (fmvwx (fmvxw (cpu_f2_f3 0xFFFFFFFF7FC00001 0) (rec_op_fp 0 0x70)) rec_fmv_w_x).state.x
        (rec_op_fp 0 0x70).rd = 0 ∧
    (fmvwx (fmvxw (cpu_f2_f3 0xFFFFFFFF7FC00001 0) (rec_op_fp 0 0x70)) rec_fmv_w_x).state.x
        (rec_op_fp 0 0x70).rd ≠ 0x7FC00001 ∧
    (fmvwx (fmvxw (cpu_f2_f3 0xFFFFFFFF7FC00001 0) (rec_op_fp 0 0x70)) rec_fmv_w_x).state.f
        rec_fmv_w_x.rd % 0x100000000 ≠ 0x7FC00001 := by
  decide

/-- Claim C23, amended: for every hart state and every pair of decoded
records, executing FMV.X.W and then FMV.W.X leaves every integer register,
every floating-point register, every CSR and the memory as they were and
advances pc by 8 modulo 2^32; so x[t] and the low 32 bits of f[rd] hold the
pattern p afterwards exactly when they held it before. -/
theorem fmv_round_trip_moves_nothing (c : rv32i_cpu Mem) (d1 d2 : rv32i_decode_t) :
    (fmvwx (fmvxw c d1) d2).state.x = c.state.x ∧
    (fmvwx (fmvxw c d1) d2).state.f = c.state.f ∧
    (fmvwx (fmvxw c d1) d2).state.csr = c.state.csr ∧
    (fmvwx (fmvxw c d1) d2).mem = c.mem ∧
    (fmvwx (fmvxw c d1) d2).state.pc = (c.state.pc + 8) % 0x100000000 ∧
    (∀ p, (fmvwx (fmvxw c d1) d2).state.x d1.rd = p ↔ c.state.x d1.rd = p) ∧
    (∀ p, (fmvwx (fmvxw c d1) d2).state.f d2.rd % 0x100000000 = p
      ↔ c.state.f d2.rd % 0x100000000 = p) :=
  ⟨rfl, rfl, rfl, rfl, increment_pc_twice c, fun _ => Iff.rfl, fun _ => Iff.rfl⟩

/-- Instance of `fmv_round_trip_moves_nothing` on the state with the NaN
pattern 0x7FC00001 in the low half of f2: after `fmv.x.w x1, f2` and
`fmv.w.x f4, x1` the integer registers are as before and pc is 0x108. -/
theorem fmv_round_trip_moves_nothing_witness :
    (fmvwx (fmvxw (cpu_f2_f3 0xFFFFFFFF7FC00001 0) (rec_op_fp 0 0x70)) rec_fmv_w_x).state.x
      = (cpu_f2_f3 0xFFFFFFFF7FC00001 0).state.x ∧
    (fmvwx (fmvxw (cpu_f2_f3 0xFFFFFFFF7FC00001 0) (rec_op_fp 0 0x70)) rec_fmv_w_x).state.pc
      = 0x108 :=
  ⟨(fmv_round_trip_moves_nothing (cpu_f2_f3 0xFFFFFFFF7FC00001 0) (rec_op_fp 0 0x70)
      rec_fmv_w_x).1,
    (fmv_round_trip_moves_nothing (cpu_f2_f3 0xFFFFFFFF7FC00001 0) (rec_op_fp 0 0x70)
      rec_fmv_w_x).2.2.2.2.1⟩

theorem spec_sign_injection_example :
    spec_fsgnj 0xBFC00000 0x40000000 = 0x3FC00000 ∧
    spec_fsgnjn 0xBFC00000 0x40000000 = 0xBFC00000 ∧
    spec_fsgnjx 0xBFC00000 0x40000000 = 0xBFC00000 := by
  decide

/-- Claim C24, as stated, fails: with a = 0xBFC00000 in f2, b = 0x40000000 in
f3 and f1 = 0 beforehand, FSGNJ.S, FSGNJN.S and FSGNJX.S with rd = f1,
rs1 = f2, rs2 = f3 each leave f1 = 0, whereas the patterns to be written are
0x3FC00000, 0xBFC00000 and 0xBFC00000. -/
theorem sign_injection_fails :
    (fsgnjs (cpu_f2_f3 0xBFC00000 0x40000000) (rec_op_fp 0 0x10)).state.f
        (rec_op_fp 0 0x10).rd % 0x100000000 = 0 ∧
    (fsgnjns (cpu_f2_f3 0xBFC00000 0x40000000) (rec_op_fp 1 0x10)).state.f
        (rec_op_fp 1 0x10).rd % 0x100000000 = 0 ∧
    (fsgnjxs (cpu_f2_f3 0xBFC00000 0x40000000) (rec_op_fp 2 0x10)).state.f
        (rec_op_fp 2 0x10).rd % 0x100000000 = 0 ∧
    spec_fsgnj ((cpu_f2_f3 0xBFC00000 0x40000000).state.f (rec_op_fp 0 0x10).rs1 % 0x100000000)
        ((cpu_f2_f3 0xBFC00000 0x40000000).state.f (rec_op_fp 0 0x10).rs2 % 0x100000000)
      = 0x3FC00000 ∧
    spec_fsgnjn ((cpu_f2_f3 0xBFC00000 0x40000000).state.f (rec_op_fp 1 0x10).rs1 % 0x100000000)
        ((cpu_f2_f3 0xBFC00000 0x40000000).state.f (rec_op_fp 1 0x10).rs2 % 0x100000000)
      = 0xBFC00000 ∧
    spec_fsgnjx ((cpu_f2_f3 0xBFC00000 0x40000000).state.f (rec_op_fp 2 0x10).rs1 % 0x100000000)
        ((cpu_f2_f3 0xBFC00000 0x40000000).state.f (rec_op_fp 2 0x10).rs2 % 0x100000000)
      = 0xBFC00000 := by
  decide

/-- Claim C24, amended: for every hart state and every decoded record,
FSGNJ.S, FSGNJN.S and FSGNJX.S write no register: each leaves every
floating-point register (f[rd] included), every integer register and every
CSR as it was and advances pc by 4 modulo 2^32. -/
theorem sign_injection_writes_nothing (c : rv32i_cpu Mem) (d : rv32i_decode_t) :
    (∀ h ∈ [fsgnjs, fsgnjns, fsgnjxs],
      (h c d).state.f = c.state.f ∧ (h c d).state.x = c.state.x ∧
      (h c d).state.csr = c.state.csr ∧
      (h c d).state.pc = (c.state.pc + 4) % 0x100000000) := by
  intro h hh
  simp only [List.mem_cons, List.mem_singleton, List.not_mem_nil, or_false] at hh
  rcases hh with rfl | rfl | rfl <;> exact ⟨rfl, rfl, rfl, rfl⟩

/-- Instance of `sign_injection_writes_nothing` for FSGNJ.S on the state with
f2 = 0xBFC00000 and f3 = 0x40000000: f1 stays 0 and pc becomes 0x104. -/
theorem sign_injection_writes_nothing_witness :
    (fsgnjs (cpu_f2_f3 0xBFC00000 0x40000000) (rec_op_fp 0 0x10)).state.f
      = (cpu_f2_f3 0xBFC00000 0x40000000).state.f ∧
    (fsgnjs (cpu_f2_f3 0xBFC00000 0x40000000) (rec_op_fp 0 0x10)).state.pc = 0x104 :=
  ⟨((sign_injection_writes_nothing (cpu_f2_f3 0xBFC00000 0x40000000) (rec_op_fp 0 0x10))
      fsgnjs (by simp)).1,
    ((sign_injection_writes_nothing (cpu_f2_f3 0xBFC00000 0x40000000) (rec_op_fp 0 0x10))
      fsgnjs (by simp)).2.2.2⟩

/-! ## Disassemble mode -/

theorem flw_disassemble (M : mem_if Mem) (c : rv32i_cpu Mem) (d : rv32i_decode_t)
    (hdis : c.disassemble = true) : flw M c d = increment_pc c := by
  unfold flw
  dsimp only
  rw [hdis]
  rfl

theorem fsw_disassemble (M : mem_if Mem) (c : rv32i_cpu Mem) (d : rv32i_decode_t)
    (hdis : c.disassemble = true) : fsw M c d = increment_pc c := by
  unfold fsw
  dsimp only
  rw [hdis]
  rfl

theorem m_total_ignores_disassemble (h : rv32i_cpu Mem → rv32i_decode_t → rv32i_cpu Mem)
    (hh : h ∈ m_total_handlers) (c : rv32i_cpu Mem) (d : rv32i_decode_t) (b : Bool) :
    h (c.with_disassemble b) d = (h c d).with_disassemble b := by
  simp only [m_total_handlers, List.mem_cons, List.mem_singleton, List.not_mem_nil,
    or_false] at hh
  rcases hh with rfl | rfl | rfl | rfl | rfl | rfl
  · unfold mul; dsimp only; split_ifs <;> rfl
  · unfold mulh; dsimp only; split_ifs <;> rfl
  · unfold mulhsu; dsimp only; split_ifs <;> rfl
  · unfold mulhu; dsimp only; split_ifs <;> rfl
  · by_cases hrd : d.rd = 0
    · unfold divu; rw [if_neg (not_not.mpr hrd), if_neg (not_not.mpr hrd)]; rfl
    · rw [divu_of_rd _ d hrd, divu_of_rd _ d hrd]; rfl
  · by_cases hrd : d.rd = 0
    · unfold remu; rw [if_neg (not_not.mpr hrd), if_neg (not_not.mpr hrd)]; rfl
    · rw [remu_of_rd _ d hrd, remu_of_rd _ d hrd]; rfl

theorem m_host_ignores_disassemble
    (h : rv32i_cpu Mem → rv32i_decode_t → Option (rv32i_cpu Mem))
    (hh : h ∈ m_host_handlers) (c : rv32i_cpu Mem) (d : rv32i_decode_t) (b : Bool) :
    h (c.with_disassemble b) d = (h c d).map fun c1 => c1.with_disassemble b := by
  simp only [m_host_handlers, List.mem_cons, List.mem_singleton, List.not_mem_nil,
    or_false] at hh
  by_cases hrd : d.rd = 0
  · rcases hh with rfl | rfl
    · rw [div_of_rd_zero _ d hrd, div_of_rd_zero _ d hrd]; rfl
    · rw [rem_of_rd_zero _ d hrd, rem_of_rd_zero _ d hrd]; rfl
  · rcases hh with rfl | rfl
    · rw [div_of_rd _ d hrd, div_of_rd _ d hrd, Option.map_map]; rfl
    · rw [rem_of_rd _ d hrd, rem_of_rd _ d hrd, Option.map_map]; rfl

/-- Claim C31, as stated, fails: on the CPU with x5 = 45, x6 = 6 and the
option `disassemble` set, MUL, DIVU and REMU with rd = x7, rs1 = x5,
rs2 = x6 leave x7 = 270, 7 and 3, and DIV and REM have post-states with
x7 = 7 and 3, where x7 was 0 before. -/
theorem disassemble_mode_m_handlers_write :
    ((cpu_x5_x6 45 6).with_disassemble true).disassemble = true ∧
    ((cpu_x5_x6 45 6).with_disassemble true).state.x 7 = 0 ∧
    (mul ((cpu_x5_x6 45 6).with_disassemble true) rec_x7_x5_x6).state.x 7 = 270 ∧
    (divu ((cpu_x5_x6 45 6).with_disassemble true) rec_x7_x5_x6).state.x 7 = 7 ∧
    (remu ((cpu_x5_x6 45 6).with_disassemble true) rec_x7_x5_x6).state.x 7 = 3 ∧
    (div ((cpu_x5_x6 45 6).with_disassemble true) rec_x7_x5_x6).map (fun c1 => c1.state.x 7)
      = some 7 ∧
    (rem ((cpu_x5_x6 45 6).with_disassemble true) rec_x7_x5_x6).map (fun c1 => c1.state.x 7)
      = some 3 := by
  decide

/-- Claim C31, amended: when the option `disassemble` is set, for every state,
memory interface and decoded record FLW and FSW do nothing but advance pc
(integer registers, f registers, memory and the access address are as
before, no memory access is made); the eight M-extension handlers do not
consult the option: each gives the post-state it gives in execution mode,
which is the pre-state with pc advanced and, when rd ≠ 0, one value written
to x[rd], the f registers and the memory being unchanged. -/
theorem disassemble_mode_effects (M : mem_if Mem) (c : rv32i_cpu Mem)
    (d : rv32i_decode_t) (hdis : c.disassemble = true) :
    flw M c d = increment_pc c ∧ fsw M c d = increment_pc c ∧
    (∀ h ∈ m_total_handlers,
      h c d = (h (c.with_disassemble false) d).with_disassemble true ∧
      rd_write_shape c (h c d) d ∧
      (h c d).state.f = c.state.f ∧ (h c d).mem = c.mem) ∧
    (∀ h ∈ m_host_handlers,
      h c d = (h (c.with_disassemble false) d).map (fun c1 => c1.with_disassemble true) ∧
      ∀ c1, h c d = some c1 →
        rd_write_shape c c1 d ∧ c1.state.f = c.state.f ∧ c1.mem = c.mem) := by
  have hc : c = (c.with_disassemble false).with_disassemble true := by
    obtain ⟨dis, rt, st, aa, mem⟩ := c
    dsimp only at hdis
    subst hdis
    rfl
  have hmem : ∀ c1, rd_write_shape c c1 d → c1.state.f = c.state.f ∧ c1.mem = c.mem := by
    intro c1 hs
    rcases hs with ⟨_, rfl⟩ | ⟨_, v, rfl⟩ <;> exact ⟨rfl, rfl⟩
  refine ⟨flw_disassemble M c d hdis, fsw_disassemble M c d hdis, fun h hh => ?_,
    fun h hh => ⟨?_, fun c1 h1 => ?_⟩⟩
  · have hs := m_total_shape h hh c d
    refine ⟨?_, hs, hmem _ hs⟩
    rw [← m_total_ignores_disassemble h hh, ← hc]
  · rw [← m_host_ignores_disassemble h hh, ← hc]
  · have hs := m_host_shape h hh c d c1 h1
    exact ⟨hs, hmem _ hs⟩

/-- Instance of `disassemble_mode_effects` on the logging memory in
disassemble mode: `flw f7, -4(x5)` and `fsw f6, -4(x5)` leave the log empty
and f7 = 0x55, and advance pc to 0x104. -/
theorem disassemble_mode_effects_witness :
    cpu_log_dis.disassemble = true ∧
    (flw (log_mem_if 0x1234 false) cpu_log_dis rec_fp_mem = increment_pc cpu_log_dis ∧
      fsw (log_mem_if 0x1234 false) cpu_log_dis rec_fp_mem = increment_pc cpu_log_dis) ∧
    (increment_pc cpu_log_dis).mem = [] ∧ (increment_pc cpu_log_dis).state.f 7 = 0x55 ∧
    (increment_pc cpu_log_dis).state.pc = 0x104 :=
  ⟨rfl,
    ⟨(disassemble_mode_effects (log_mem_if 0x1234 false) cpu_log_dis rec_fp_mem rfl).1,
      (disassemble_mode_effects (log_mem_if 0x1234 false) cpu_log_dis rec_fp_mem rfl).2.1⟩,
    rfl, rfl, rfl⟩

/-! ## The F computational handlers -/

theorem f_stub_eq (h : rv32i_cpu Mem → rv32i_decode_t → rv32i_cpu Mem)
    (hh : h ∈ f_stub_handlers) (c : rv32i_cpu Mem) (d : rv32i_decode_t) :
    h c d = increment_pc c := by
  unfold f_stub_handlers at hh
  rcases List.mem_append.mp hh with h1 | h1
  · exact op_fp_eq h h1 c d
  · exact fmadd_eq h h1 c d

/-- Claim C32: the F computational handlers are stubs.  For every state and
decoded record, each of the eighteen OP-FP handlers and of the four
FMADD-family handlers gives the pre-state with pc advanced: every x register,
every f register and every CSR (FFLAGS in particular) and the memory are
unchanged, and pc becomes pc + 4 modulo 2^32. -/
theorem f_computational_handlers_are_stubs (c : rv32i_cpu Mem) (d : rv32i_decode_t) :
    ∀ h ∈ f_stub_handlers,
      h c d = increment_pc c ∧
      (h c d).state.x = c.state.x ∧ (h c d).state.f = c.state.f ∧
      (h c d).state.csr = c.state.csr ∧
      (h c d).state.csr RV32CSR_ADDR_FFLAGS = c.state.csr RV32CSR_ADDR_FFLAGS ∧
      (h c d).mem = c.mem ∧
      (h c d).state.pc = (c.state.pc + 4) % 0x100000000 := by
  intro h hh
  rw [f_stub_eq h hh c d]
  exact ⟨rfl, rfl, rfl, rfl, rfl, rfl, rfl⟩

/-- Instance of `f_computational_handlers_are_stubs` for FADD.S and FMADD.S on
the state with FCSR = 0x5F (all flags set): the flags stay 0x1F and pc becomes
0x104. -/
theorem f_computational_handlers_are_stubs_witness :
    (fadds (cpu_fcsr 0x5F) (rec_op_fp 0 0x00)).state.csr RV32CSR_ADDR_FFLAGS = 0x1F ∧
    (fadds (cpu_fcsr 0x5F) (rec_op_fp 0 0x00)).state.pc = 0x104 ∧
    (fmadds (cpu_fcsr 0x5F) (rec_op_fp 0 0x00)).state.x = (cpu_fcsr 0x5F).state.x ∧
    (fmadds (cpu_fcsr 0x5F) (rec_op_fp 0 0x00)).state.f = (cpu_fcsr 0x5F).state.f :=
  ⟨((f_computational_handlers_are_stubs (cpu_fcsr 0x5F) (rec_op_fp 0 0x00)) fadds
      (by simp [f_stub_handlers, op_fp_handlers])).2.2.2.2.1,
    ((f_computational_handlers_are_stubs (cpu_fcsr 0x5F) (rec_op_fp 0 0x00)) fadds
      (by simp [f_stub_handlers, op_fp_handlers])).2.2.2.2.2.2,
    ((f_computational_handlers_are_stubs (cpu_fcsr 0x5F) (rec_op_fp 0 0x00)) fmadds
      (by simp [f_stub_handlers, fmadd_handlers])).2.1,
    ((f_computational_handlers_are_stubs (cpu_fcsr 0x5F) (rec_op_fp 0 0x00)) fmadds
      (by simp [f_stub_handlers, fmadd_handlers])).2.2.1⟩

/-! ## CSR error propagation -/

/-- Claim C34: CSR error propagation.  If the underlying CSR access returns a
non-zero error, `rv32f_cpu::access_csr` returns that error and the CPU exactly
as the underlying access left it (no alias synchronisation: FFLAGS, FRM and
FCSR are as the underlying access left them); if it returns zero,
`access_csr` returns zero. -/
theorem csr_error_propagation
    (anc : rv32i_cpu Mem → Nat → Nat → Nat → Nat → rv32i_cpu Mem × Nat)
    (c : rv32i_cpu Mem) (funct3 addr rd v : Nat) :
    ((anc c funct3 addr rd v).2 ≠ 0 →
      access_csr anc c funct3 addr rd v = anc c funct3 addr rd v ∧
      (access_csr anc c funct3 addr rd v).1.state.csr RV32CSR_ADDR_FFLAGS
        = (anc c funct3 addr rd v).1.state.csr RV32CSR_ADDR_FFLAGS ∧
      (access_csr anc c funct3 addr rd v).1.state.csr RV32CSR_ADDR_FRM
        = (anc c funct3 addr rd v).1.state.csr RV32CSR_ADDR_FRM ∧
      (access_csr anc c funct3 addr rd v).1.state.csr RV32CSR_ADDR_FCSR
        = (anc c funct3 addr rd v).1.state.csr RV32CSR_ADDR_FCSR) ∧
    ((anc c funct3 addr rd v).2 = 0 → (access_csr anc c funct3 addr rd v).2 = 0) := by
  constructor
  · intro h
    have h1 := access_csr_of_error anc c funct3 addr rd v h
    have h2 := access_csr_error anc c funct3 addr rd v
    refine ⟨Prod.ext h1 h2, ?_, ?_, ?_⟩ <;> rw [h1]
  · intro h
    rw [access_csr_error, h]

/-- Instance of `csr_error_propagation`: over the base-class placeholder,
which returns 1, a write of 0x1F to FFLAGS returns 1 and leaves FCSR = 0;
over an underlying access that writes FFLAGS and yet returns 1, FFLAGS holds
0x1F and FCSR stays 0; over the sample underlying access, which returns 0,
the result is 0. -/
theorem csr_error_propagation_witness :
    (rv32i_cpu.access_csr (cpu_fcsr 0) 1 RV32CSR_ADDR_FFLAGS 0 0x1F).2 ≠ 0 ∧
    access_csr rv32i_cpu.access_csr (cpu_fcsr 0) 1 RV32CSR_ADDR_FFLAGS 0 0x1F
      = ((cpu_fcsr 0), 1) ∧
    (refusing_csr_access (cpu_fcsr 0) 1 RV32CSR_ADDR_FFLAGS 0 0x1F).2 ≠ 0 ∧
    (access_csr refusing_csr_access (cpu_fcsr 0) 1 RV32CSR_ADDR_FFLAGS 0 0x1F).2 = 1 ∧
    (access_csr refusing_csr_access (cpu_fcsr 0) 1 RV32CSR_ADDR_FFLAGS 0
      0x1F).1.state.csr RV32CSR_ADDR_FFLAGS = 0x1F ∧
    (access_csr refusing_csr_access (cpu_fcsr 0) 1 RV32CSR_ADDR_FFLAGS 0
      0x1F).1.state.csr RV32CSR_ADDR_FCSR = 0 ∧
    (sample_csr_access (cpu_fcsr 0) 1 RV32CSR_ADDR_FFLAGS 0 0x1F).2 = 0 ∧
    (access_csr sample_csr_access (cpu_fcsr 0) 1 RV32CSR_ADDR_FFLAGS 0 0x1F).2 = 0 :=
  ⟨by decide,
    ((csr_error_propagation rv32i_cpu.access_csr (cpu_fcsr 0) 1 RV32CSR_ADDR_FFLAGS 0
      0x1F).1 (by decide)).1,
    by decide,
    by decide, by decide, by decide,
    by decide,
    (csr_error_propagation sample_csr_access (cpu_fcsr 0) 1 RV32CSR_ADDR_FFLAGS 0
      0x1F).2 (by decide)⟩

/-! ## The division identity -/

theorem to_uint32_modEq (i : Int) : (to_uint32 i : Int) ≡ i [ZMOD 0x100000000] := by
  unfold to_uint32 Int.ModEq; omega

theorem div_identity_of_modEq (a b : Nat) (q r : Int)
    (h : (b : Int) * q + r ≡ (a : Int) [ZMOD 0x100000000]) :
    div_identity a b (to_uint32 q) (to_uint32 r) := by
  have h1 : ((b * to_uint32 q + to_uint32 r : Nat) : Int) ≡ (a : Int) [ZMOD 0x100000000] := by
    push_cast
    exact (((Int.ModEq.refl _).mul (to_uint32_modEq q)).add (to_uint32_modEq r)).trans h
  have h2 := (Int.natCast_modEq_iff (n := 0x100000000)).mp h1
  exact h2

theorem division_identity_unsigned (c : rv32i_cpu Mem) (d : rv32i_decode_t) (hrd : d.rd ≠ 0) :
    div_identity (c.state.x d.rs1) (c.state.x d.rs2)
      ((divu c d).state.x d.rd) ((remu c d).state.x d.rd) ∧
    (c.state.x d.rs2 ≠ 0 → (remu c d).state.x d.rd < c.state.x d.rs2) := by
  rw [divu_of_rd c d hrd, remu_of_rd c d hrd, set_x_same, set_x_same]
  by_cases hb : c.state.x d.rs2 = 0
  · rw [if_pos hb, if_pos hb]
    refine ⟨?_, fun h => absurd hb h⟩
    unfold div_identity
    rw [hb, Nat.zero_mul, Nat.zero_add]
  · rw [if_neg hb, if_neg hb]
    refine ⟨?_, fun _ => Nat.mod_lt _ (Nat.pos_of_ne_zero hb)⟩
    unfold div_identity
    rw [Nat.div_add_mod]

theorem division_identity_signed (c : rv32i_cpu Mem) (d : rv32i_decode_t) (hrd : d.rd ≠ 0)
    (hx : x_in_range c) (hov : ¬ signed_overflow_operands c d) :
    ∃ c1 c2, div c d = some c1 ∧ rem c d = some c2 ∧
      div_identity (c.state.x d.rs1) (c.state.x d.rs2) (c1.state.x d.rd) (c2.state.x d.rd) := by
  have ha := to_int32_modEq (c.state.x d.rs1)
  have hbm := to_int32_modEq (c.state.x d.rs2)
  by_cases hb : to_int32 (c.state.x d.rs2) = 0
  · have hz : c.state.x d.rs2 = 0 := by
      have h2 := hx d.rs2
      unfold to_int32 at hb
      omega
    have h := div_rem_zero_values c d hrd hx hz
    refine ⟨_, _, h.1, h.2.2.1, ?_⟩
    rw [set_x_same, set_x_same]
    unfold div_identity
    rw [hz, Nat.zero_mul, Nat.zero_add]
  · have hov1 : ¬ (to_int32 (c.state.x d.rs1) = -0x80000000 ∧
        to_int32 (c.state.x d.rs2) = -1) := fun h => hov ⟨hrd, h.1, h.2⟩
    have h := div_rem_host_values c d _ _ rfl rfl hrd hb hov1
    refine ⟨_, _, h.1, h.2.1, ?_⟩
    rw [set_x_same, set_x_same]
    apply div_identity_of_modEq
    have e : to_int32 (c.state.x d.rs2) *
          spec_trunc_quot (to_int32 (c.state.x d.rs1)) (to_int32 (c.state.x d.rs2)) +
        (to_int32 (c.state.x d.rs1) - to_int32 (c.state.x d.rs2) *
          spec_trunc_quot (to_int32 (c.state.x d.rs1)) (to_int32 (c.state.x d.rs2)))
        = to_int32 (c.state.x d.rs1) := by ring
    refine Int.ModEq.trans ?_ (e ▸ ha)
    exact (hbm.symm.mul (Int.ModEq.refl _)).add (Int.ModEq.refl _)

/-- Claim C33: division identity.  At the signed-overflow pair, x5 = 0x80000000
and x6 = 0xFFFFFFFF with rd = x7, DIV and REM have no post-state, so there
are no written q and r that satisfy b*q + r ≡ a (mod 2^32); the values of the
overflow arm that is never selected, q = 0x80000000 and r = 0, do satisfy
it, and so do the results of DIVU and REMU on the same operands. -/
theorem division_identity_fails_at_overflow_pair :
    signed_overflow_operands (cpu_x5_x6 0x80000000 0xFFFFFFFF) rec_x7_x5_x6 ∧
    (¬ ∃ c1 c2, div (cpu_x5_x6 0x80000000 0xFFFFFFFF) rec_x7_x5_x6 = some c1 ∧
      rem (cpu_x5_x6 0x80000000 0xFFFFFFFF) rec_x7_x5_x6 = some c2 ∧
      div_identity 0x80000000 0xFFFFFFFF (c1.state.x 7) (c2.state.x 7)) ∧
    div_identity 0x80000000 0xFFFFFFFF 0x80000000 0 ∧
    div_identity 0x80000000 0xFFFFFFFF
      ((divu (cpu_x5_x6 0x80000000 0xFFFFFFFF) rec_x7_x5_x6).state.x 7)
      ((remu (cpu_x5_x6 0x80000000 0xFFFFFFFF) rec_x7_x5_x6).state.x 7) := by
  refine ⟨⟨by decide, by decide, by decide⟩, ?_, by decide, by decide⟩
  rintro ⟨c1, c2, h1, _, _⟩
  rw [(div_overflow_pair (cpu_x5_x6 0x80000000 0xFFFFFFFF) rec_x7_x5_x6 (by decide)
    rfl rfl).1] at h1
  cases h1

end rv32
